import Mathlib

/-!
# WebCut: grid and crop-region layout engine

A shallow embedding of the layout core of `src/app.js`: the session state
(`state`, `cropEditor` and the closure variables of `setupCanvasEvents`), the
geometry model `getCropAreas`, the grid controls, the hit tests, the canvas
pointer handlers, `generatePreviews` and the crop editor, followed by the
properties proved of them.

Conventions of the embedding.

* JavaScript numbers are exact rationals (`ℚ`) in the definitions of the
  layout core: `NaN` and the infinities are outside the model, and
  `Math.floor` is `Int.floor`. Where a property depends on the rounding of
  binary64 arithmetic, the section on binary64 evaluation gives the same
  expressions with every operation rounded (`fl`), and the statements about
  it name the rounded definitions.
* `state.rows` and `state.cols` are natural numbers; a count of `0` makes the
  loops `for (i = 0; i < n; i++)` run zero times, as a non-positive count does
  in the source.
* The image is known to the layout core by its extent only; `none` is the
  `null` of `state.originalImage` before the first image is loaded.
* Rendering, timers (`scheduleRender`, `schedulePreviewUpdate`), the DOM and
  `localStorage` are not modelled; a handler is the state change it performs.
* A function that reads a property of `null` or `undefined` throws a
  `TypeError`; such a function returns `Option` or `Except`.
-/

namespace WebCut

/-! ## Data model -/

/-- Extent of the loaded image, `state.originalImage.width` and `.height`. -/
structure ImageExtent where
  width : Nat
  height : Nat
deriving DecidableEq, Repr

/-- A crop rectangle `{x, y, width, height}` in source-image pixels. -/
structure CropArea where
  x : ℚ
  y : ℚ
  width : ℚ
  height : ℚ
deriving DecidableEq, Repr

/-- Values of `state.mode`: the two strings the code compares with, and any
other string. -/
inductive Mode where
  | uniform
  | centerline
  | other
deriving DecidableEq, Repr

/-- Axis of a center line, the `type` field `'x'` or `'y'`. -/
inductive Axis where
  | x
  | y
deriving DecidableEq, Repr

/-- A center-line handle `{type, index}` as returned by `findLineAtPosition`. -/
structure Line where
  type : Axis
  index : Nat
deriving DecidableEq, Repr

/-- An entry of `state.croppedImages`: the area to export and its 1-based
label. The `dataUrl` of the thumbnail is pixel data and is left out. -/
structure CroppedImage where
  area : CropArea
  index : Nat
deriving DecidableEq, Repr

/-- The global `state` object. `customAreas` is the object keyed by cell index
(`none` where the key is absent); `gridColor`, `lineWidth` and `imageCache`
are cosmetic and left out. -/
structure State where
  originalImage : Option ImageExtent
  rows : Nat
  cols : Nat
  mode : Mode
  centerLinesX : List ℚ
  centerLinesY : List ℚ
  cellWidth : ℚ
  cellHeight : ℚ
  scale : ℚ
  canvasWidth : ℚ
  canvasHeight : ℚ
  dragging : Option Line
  hovered : Option Line
  disabledCells : Finset Nat
  croppedImages : List CroppedImage
  customAreas : Nat → Option CropArea

/-! ## Geometry model -/

/-- The rectangle `getCropAreas` computes for cell `(row, col)` in uniform
mode when the cell has no override. -/
def uniformCell (img : ImageExtent) (s : State) (row col : Nat) : CropArea :=
  let cellW := (img.width : ℚ) / (s.cols : ℚ)
  let cellH := (img.height : ℚ) / (s.rows : ℚ)
  { x := (col : ℚ) * cellW, y := (row : ℚ) * cellH, width := cellW, height := cellH }

/-- The rectangle `getCropAreas` computes for the line pair `(cy, cx)` in
center-line mode when the cell has no override. -/
def centerLineCell (img : ImageExtent) (s : State) (cy cx : ℚ) : CropArea :=
  let halfW := s.cellWidth / 2
  let halfH := s.cellHeight / 2
  let x := cx - halfW
  let y := cy - halfH
  let x := max 0 (min ((img.width : ℚ) - s.cellWidth) x)
  let y := max 0 (min ((img.height : ℚ) - s.cellHeight) y)
  { x := x, y := y, width := s.cellWidth, height := s.cellHeight }

/-- The pairs `(cy, cx)` in the order the nested loops of `getCropAreas` and
`findCellAtPosition` visit them: `centerLinesY` outer, `centerLinesX` inner. -/
def linePairs (s : State) : List (ℚ × ℚ) :=
  s.centerLinesY.flatMap fun cy => s.centerLinesX.map fun cx => (cy, cx)

/-- Function `getCropAreas()`: the effective areas in canonical order. The result is
`none` when the code reads `state.originalImage.width` with no image loaded:
at once in uniform mode, and at the first cell without an override
otherwise. -/
def getCropAreas (s : State) : Option (List CropArea) :=
  match s.mode with
  | Mode.uniform =>
    match s.originalImage with
    | none => none
    | some img =>
      some ((List.range s.rows).flatMap fun row => (List.range s.cols).map fun col =>
        match s.customAreas (row * s.cols + col) with
        | some a => a
        | none => uniformCell img s row col)
  | _ =>
    (linePairs s).enum.mapM fun p =>
      match s.customAreas p.1 with
      | some a => some a
      | none => s.originalImage.map fun img => centerLineCell img s p.2.1 p.2.2

/-! ## Center lines and cell size -/

/-- Value of `Math.min(minDist, g)` where `minDist` may still be `Infinity` (`none`). -/
def jsMin (minDist : Option ℚ) (g : ℚ) : ℚ :=
  match minDist with
  | none => g
  | some m => min m g

/-- The value of `minDistX` (or `minDistY`) at the end of
`autoCalculateCellSize`: `Infinity` (`none`), lowered by every gap
`lines[i] - lines[i-1]`, then, when there is a line, by twice the first
position and by twice the distance from the last line to the image edge. -/
def axisMinDist (lines : List ℚ) (extent : ℚ) : Option ℚ :=
  let gaps := List.zipWith (fun a b => b - a) lines lines.tail
  let m := gaps.foldl (fun m g => some (jsMin m g)) none
  match lines.head?, lines.getLast? with
  | some first, some last => some (jsMin (some (jsMin m (first * 2))) ((extent - last) * 2))
  | _, _ => m

/-- Function `autoCalculateCellSize()`. With lines on the X axis and none on the Y axis
the source stores `Infinity` in `cellHeight`; there is no cell in such a
state and no rational for that value, so the model leaves the field as it
was. -/
def autoCalculateCellSize (s : State) : State :=
  match s.originalImage with
  | none => s
  | some img =>
    if s.centerLinesX.length = 0 then s
    else
      { s with
        cellWidth :=
          match axisMinDist s.centerLinesX (img.width : ℚ) with
          | some d => ((⌊d * 0.95⌋ : Int) : ℚ)
          | none => s.cellWidth
        cellHeight :=
          match axisMinDist s.centerLinesY (img.height : ℚ) with
          | some d => ((⌊d * 0.95⌋ : Int) : ℚ)
          | none => s.cellHeight }

/-- Function `initializeCenterLines()`: evenly spaced lines, then the automatic cell
size. -/
def initializeCenterLines (s : State) : State :=
  match s.originalImage with
  | none => s
  | some img =>
    autoCalculateCellSize
      { s with
        centerLinesX :=
          (List.range s.cols).map fun (i : Nat) => ((i : ℚ) + 0.5) * (img.width : ℚ) / (s.cols : ℚ)
        centerLinesY :=
          (List.range s.rows).map fun (i : Nat) => ((i : ℚ) + 0.5) * (img.height : ℚ) / (s.rows : ℚ) }

/-! ## Grid controls -/

/-- Function `onGridSettingsChange()`: clear the disabled set and the overrides,
then regenerate the center lines. -/
def onGridSettingsChange (s : State) : State :=
  initializeCenterLines { s with disabledCells := ∅, customAreas := fun _ => none }

/-- The clamp `Math.max(1, Math.min(20, parseInt(v) || 1))` of the number
inputs; `none` is the `NaN` of an unparsable text. -/
def clampCount (v : Option Int) : Nat :=
  let n : Int := match v with
    | none => 1
    | some k => if k = 0 then 1 else k
  (max 1 (min 20 n)).toNat

/-- The controls that change the grid counts (`setupGridControls`): the two
sliders, the two number inputs and the quick-grid buttons. -/
inductive GridControl where
  | rowsRange (v : Nat)
  | rowsInput (v : Option Int)
  | colsRange (v : Nat)
  | colsInput (v : Option Int)
  | quickGrid (rows cols : Nat)

/-- The listener of a grid control: store the count, then
`onGridSettingsChange()`. -/
def gridControl (c : GridControl) (s : State) : State :=
  match c with
  | GridControl.rowsRange v => onGridSettingsChange { s with rows := v }
  | GridControl.rowsInput v => onGridSettingsChange { s with rows := clampCount v }
  | GridControl.colsRange v => onGridSettingsChange { s with cols := v }
  | GridControl.colsInput v => onGridSettingsChange { s with cols := clampCount v }
  | GridControl.quickGrid r c => onGridSettingsChange { s with rows := r, cols := c }

/-- The click listener of a `.mode-btn` button carrying mode `m`. -/
def modeButtonClick (m : Mode) (s : State) : State :=
  let s := { s with mode := m }
  match s.originalImage with
  | some _ => initializeCenterLines s
  | none => s

/-- The click listener of the `resetLines` button. -/
def resetLinesClick (s : State) : State :=
  { initializeCenterLines s with disabledCells := ∅ }

/-- The `change` listener of the `cellWidth` input,
`Math.max(10, parseInt(v) || 100)`; `none` is `NaN`. -/
def cellWidthChange (v : Option Int) (s : State) : State :=
  let n : Int := match v with
    | none => 100
    | some k => if k = 0 then 100 else k
  { s with cellWidth := ((max 10 n : Int) : ℚ) }

/-- The `change` listener of the `cellHeight` input. -/
def cellHeightChange (v : Option Int) (s : State) : State :=
  let n : Int := match v with
    | none => 100
    | some k => if k = 0 then 100 else k
  { s with cellHeight := ((max 10 n : Int) : ℚ) }

/-- Function `displayImage()`, with `clientWidth` the width of the canvas container.
The renderer exists whenever a listener runs. -/
def displayImage (clientWidth : ℚ) (s : State) : State :=
  match s.originalImage with
  | none => s
  | some img =>
    let containerWidth := clientWidth - 40
    let containerHeight : ℚ := 600
    let scale := min (min (containerWidth / (img.width : ℚ)) (containerHeight / (img.height : ℚ))) 1
    { s with
      scale := scale
      canvasWidth := ((⌊(img.width : ℚ) * scale⌋ : Int) : ℚ)
      canvasHeight := ((⌊(img.height : ℚ) * scale⌋ : Int) : ℚ) }

/-- The `img.onload` callback of `handleFile`, taken as one step: the `await`
between storing the image and `initializeCenterLines()` is not modelled. -/
def imageLoaded (img : ImageExtent) (clientWidth : ℚ) (s : State) : State :=
  displayImage clientWidth
    (initializeCenterLines { s with originalImage := some img, disabledCells := ∅ })

/-! ## Hit tests -/

/-- Function `findCellAtPosition(x, y)`, `-1` for no hit. In uniform mode a cell
extent of zero makes the quotient `x / cellW` infinite or `NaN` in
JavaScript and every comparison on it false, hence the first test. -/
def findCellAtPosition (s : State) (x y : ℚ) : Int :=
  match s.originalImage with
  | none => -1
  | some _ =>
    match s.mode with
    | Mode.uniform =>
      let cellW := s.canvasWidth / (s.cols : ℚ)
      let cellH := s.canvasHeight / (s.rows : ℚ)
      if cellW = 0 ∨ cellH = 0 then -1
      else
        let col : Int := ⌊x / cellW⌋
        let row : Int := ⌊y / cellH⌋
        if col ≥ 0 ∧ col < (s.cols : Int) ∧ row ≥ 0 ∧ row < (s.rows : Int) then
          row * (s.cols : Int) + col
        else -1
    | _ =>
      let scale := s.scale
      let halfW := s.cellWidth / 2 * scale
      let halfH := s.cellHeight / 2 * scale
      let hit := (linePairs s).findIdx? fun p =>
        let displayX := p.2 * scale
        let displayY := p.1 * scale
        let left := displayX - halfW
        let top := displayY - halfH
        decide (x ≥ left ∧ x ≤ left + halfW * 2 ∧ y ≥ top ∧ y ≤ top + halfH * 2)
      match hit with
      | some index => (index : Int)
      | none => -1

/-- Function `findLineAtPosition(x, y)`: X lines first, then Y lines, within the hit
radius of 15 display pixels. -/
def findLineAtPosition (s : State) (x y : ℚ) : Option Line :=
  if s.mode ≠ Mode.centerline then none
  else
    let hitRadius : ℚ := 15
    match s.centerLinesX.findIdx? fun c => decide (|x - c * s.scale| < hitRadius) with
    | some i => some { type := Axis.x, index := i }
    | none =>
      match s.centerLinesY.findIdx? fun c => decide (|y - c * s.scale| < hitRadius) with
      | some i => some { type := Axis.y, index := i }
      | none => none

/-! ## Crop editor and session -/

/-- Names returned by `getCropHandle`. -/
inductive Handle where
  | nw | ne | sw | se | n | s | w | e | move
deriving DecidableEq, Repr

/-- The `cropEditor` object. `currentIndex` is `-1` outside a session;
`cropArea` and `originalArea` are read only inside one, where
`openCropEditor` has set them. -/
structure CropEditor where
  currentIndex : Int
  originalArea : CropArea
  cropArea : CropArea
  dragging : Bool
  resizing : Option Handle
  lastMouse : ℚ × ℚ
  scale : ℚ

/-- The whole mutable session: `state`, `cropEditor` and the variables
`isDragging`, `lastMoveTime`, `currentHovered` closed over by the listeners
of `setupCanvasEvents`. -/
structure Session where
  state : State
  cropEditor : CropEditor
  isDragging : Bool
  lastMoveTime : ℚ
  currentHovered : Option Line

/-! ## Canvas pointer handlers

The arguments `x y` are the canvas coordinates `getCanvasCoords(e)`. -/

/-- The `mousedown` listener of the main canvas. -/
def mouseDown (x y : ℚ) (a : Session) : Session :=
  match a.state.originalImage with
  | none => a
  | some _ =>
    if a.state.mode = Mode.centerline then
      match findLineAtPosition a.state x y with
      | some line => { a with state := { a.state with dragging := some line }, isDragging := true }
      | none => a
    else a

/-- The toggle of the click listener: delete the index if present, add it
otherwise. -/
def toggleDisabled (disabledCells : Finset Nat) (cellIndex : Nat) : Finset Nat :=
  if cellIndex ∈ disabledCells then disabledCells.erase cellIndex
  else insert cellIndex disabledCells

/-- The `click` listener of the main canvas. -/
def click (x y : ℚ) (a : Session) : Session :=
  if a.isDragging then { a with isDragging := false }
  else
    match a.state.originalImage with
    | none => a
    | some _ =>
      if a.state.mode = Mode.centerline ∧ (findLineAtPosition a.state x y).isSome then a
      else
        let cellIndex := findCellAtPosition a.state x y
        if cellIndex ≥ 0 then
          { a with state :=
              { a.state with
                disabledCells := toggleDisabled a.state.disabledCells cellIndex.toNat } }
        else a

/-- The assignment `array[i] = v` on an array of numbers: inside the array it
replaces the entry, at the end of the array it appends. Further past the end
the array is lengthened to `i + 1` entries and the entries between the old
end and `i` are holes, which read `undefined`; a list of numbers has no value
for a hole and the model fills it with `0`, so that of such a list the length
and the entries outside the holes are meaningful, not the holes. -/
def jsArrayWrite (l : List ℚ) (i : Nat) (v : ℚ) : List ℚ :=
  if i < l.length then l.set i v
  else l ++ List.replicate (i - l.length) 0 ++ [v]

/-- The `mousemove` listener of the main canvas at time `now`
(`performance.now()`), throttled to one event per 16 ms. The dragged line is
written at `state.dragging.index`, whatever the length of the array is by
then. -/
def mouseMove (now x y : ℚ) (a : Session) : Session :=
  if now - a.lastMoveTime < 16 then a
  else
    let a := { a with lastMoveTime := now }
    match a.state.originalImage with
    | none => a
    | some img =>
      match a.state.dragging with
      | some d =>
        match d.type with
        | Axis.x =>
          let newX := x / a.state.scale
          let newX := max 10 (min ((img.width : ℚ) - 10) newX)
          { a with state :=
              { a.state with centerLinesX := jsArrayWrite a.state.centerLinesX d.index newX } }
        | Axis.y =>
          let newY := y / a.state.scale
          let newY := max 10 (min ((img.height : ℚ) - 10) newY)
          { a with state :=
              { a.state with centerLinesY := jsArrayWrite a.state.centerLinesY d.index newY } }
      | none =>
        if a.state.mode ≠ Mode.centerline then a
        else
          let line := findLineAtPosition a.state x y
          if line ≠ a.currentHovered then
            { a with currentHovered := line, state := { a.state with hovered := line } }
          else a

/-- The `mouseup` listener of the window. The flag `isDragging` is cleared
50 ms later by `isDraggingTimeout`. -/
def mouseUp (a : Session) : Session :=
  match a.state.dragging with
  | some _ =>
    { a with state := { a.state with dragging := none, hovered := none }, currentHovered := none }
  | none => a

/-- The timer callback `() => { isDragging = false; }` set by `mouseup`. -/
def isDraggingTimeout (a : Session) : Session :=
  { a with isDragging := false }

/-- The `mouseleave` listener of the main canvas. -/
def mouseLeave (a : Session) : Session :=
  match a.state.dragging with
  | none => { a with state := { a.state with hovered := none }, currentHovered := none }
  | some _ => a

/-! ## Previews and overrides -/

/-- The loop of `generatePreviews` over the indices still to visit, `acc`
being `state.croppedImages` so far. A cell that is not disabled and has no
area (`cropAreas[idx]` is `undefined`) makes `area.width` throw: the loop
stops with `Except.error` and the entries pushed before. -/
def previewLoop (cropAreas : List CropArea) (disabledCells : Finset Nat) :
    List Nat → List CroppedImage → Except (List CroppedImage) (List CroppedImage)
  | [], acc => Except.ok acc
  | idx :: rest, acc =>
    if idx ∈ disabledCells then previewLoop cropAreas disabledCells rest acc
    else
      match cropAreas[idx]? with
      | none => Except.error acc
      | some area =>
        previewLoop cropAreas disabledCells rest (acc ++ [{ area := area, index := idx + 1 }])

/-- Function `generatePreviews()`: `Except.ok` with the new state when the function
returns, `Except.error` with the state it leaves behind when it throws. -/
def generatePreviews (s : State) : Except State State :=
  match s.originalImage with
  | none => Except.ok s
  | some _ =>
    let s := { s with croppedImages := [] }
    match getCropAreas s with
    | none => Except.error s
    | some cropAreas =>
      let totalCells := s.rows * s.cols
      match previewLoop cropAreas s.disabledCells (List.range totalCells) [] with
      | Except.ok imgs => Except.ok { s with croppedImages := imgs }
      | Except.error imgs => Except.error { s with croppedImages := imgs }

/-- Function `closeCropEditor()`: the session index goes back to `-1`. -/
def closeCropEditor (a : Session) : Session :=
  { a with cropEditor := { a.cropEditor with currentIndex := -1 } }

/-- Function `saveCrop()`: store a copy of the working area as the override of the
session index and close the editor. -/
def saveCrop (a : Session) : Session :=
  let index := a.cropEditor.currentIndex
  if index < 0 then a
  else
    let area := a.cropEditor.cropArea
    closeCropEditor
      { a with state :=
          { a.state with
            customAreas := Function.update a.state.customAreas index.toNat (some area) } }

/-! ## Crop editor operations

The arguments `x y` of the listeners are the coordinates on the editor canvas,
`e.clientX - rect.left` and `e.clientY - rect.top`. The canvas size and
`imageRegion` only serve the drawing and are left out. -/

/-- The eight handles of `getCropHandle` in the order of its array, each with
its display position. -/
def cropHandles (ce : CropEditor) : List (Handle × ℚ × ℚ) :=
  let scale := ce.scale
  let cx := ce.cropArea.x * scale
  let cy := ce.cropArea.y * scale
  let cw := ce.cropArea.width * scale
  let ch := ce.cropArea.height * scale
  [ (Handle.nw, cx, cy),
    (Handle.ne, cx + cw, cy),
    (Handle.sw, cx, cy + ch),
    (Handle.se, cx + cw, cy + ch),
    (Handle.n, cx + cw / 2, cy),
    (Handle.s, cx + cw / 2, cy + ch),
    (Handle.w, cx, cy + ch / 2),
    (Handle.e, cx + cw, cy + ch / 2) ]

/-- Function `getCropHandle(x, y)`: the first handle within the threshold of 12,
else `'move'` inside the displayed working rectangle, else `null`. -/
def getCropHandle (ce : CropEditor) (x y : ℚ) : Option Handle :=
  let scale := ce.scale
  let cx := ce.cropArea.x * scale
  let cy := ce.cropArea.y * scale
  let cw := ce.cropArea.width * scale
  let ch := ce.cropArea.height * scale
  let threshold : ℚ := 12
  match (cropHandles ce).find? fun h =>
      decide (|x - h.2.1| < threshold ∧ |y - h.2.2| < threshold) with
  | some h => some h.1
  | none =>
    if x ≥ cx ∧ x ≤ cx + cw ∧ y ≥ cy ∧ y ≤ cy + ch then some Handle.move
    else none

/-- The test `r.includes('w')` on the name of the handle. -/
def Handle.includesW : Handle → Bool
  | Handle.nw | Handle.sw | Handle.w => true
  | _ => false

/-- The test `r.includes('e')` on the name of the handle (`'move'` has an
`e`). -/
def Handle.includesE : Handle → Bool
  | Handle.ne | Handle.se | Handle.e | Handle.move => true
  | _ => false

/-- The test `r.includes('n')` on the name of the handle. -/
def Handle.includesN : Handle → Bool
  | Handle.nw | Handle.ne | Handle.n => true
  | _ => false

/-- The test `r.includes('s')` on the name of the handle. -/
def Handle.includesS : Handle → Bool
  | Handle.sw | Handle.se | Handle.s => true
  | _ => false

/-- The dragging branch of `onCropMouseMove`: the working area translated by
the source-space delta `(dx, dy)` and clamped. -/
def moveArea (img : ImageExtent) (area : CropArea) (dx dy : ℚ) : CropArea :=
  let imgW : ℚ := (img.width : ℚ)
  let imgH : ℚ := (img.height : ℚ)
  let x := max 0 (min (imgW - area.width) (area.x + dx))
  let y := max 0 (min (imgH - area.height) (area.y + dy))
  { area with x := x, y := y }

/-- The resizing branch of `onCropMouseMove` for the handle `r` and the
source-space delta `(dx, dy)`. -/
def resizeArea (img : ImageExtent) (r : Handle) (area : CropArea) (dx dy : ℚ) : CropArea :=
  let imgW : ℚ := (img.width : ℚ)
  let imgH : ℚ := (img.height : ℚ)
  let newX := area.x
  let newY := area.y
  let newW := area.width
  let newH := area.height
  let newX := if r.includesW then max 0 (min (area.x + area.width - 20) (area.x + dx)) else newX
  let newW := if r.includesW then area.x + area.width - newX else newW
  let newW := if r.includesE then max 20 (min (imgW - area.x) (area.width + dx)) else newW
  let newY := if r.includesN then max 0 (min (area.y + area.height - 20) (area.y + dy)) else newY
  let newH := if r.includesN then area.y + area.height - newY else newH
  let newH := if r.includesS then max 20 (min (imgH - area.y) (area.height + dy)) else newH
  { x := newX, y := newY, width := newW, height := newH }

/-- Function `openCropEditor(index)`, with the window size `innerWidth`,
`innerHeight` that bounds the editor canvas. -/
def openCropEditor (index : Nat) (innerWidth innerHeight : ℚ) (a : Session) : Session :=
  match a.state.originalImage with
  | none => a
  | some img =>
    if index ∈ a.state.disabledCells then a
    else
      match getCropAreas a.state with
      | none => a
      | some areas =>
        match areas[index]? with
        | none => a
        | some area =>
          let maxCanvasW := min 800 (innerWidth * 0.8)
          let maxCanvasH := min 600 (innerHeight * 0.6)
          { a with cropEditor :=
              { a.cropEditor with
                currentIndex := (index : Int)
                originalArea := area
                cropArea := area
                scale := min (min (maxCanvasW / (img.width : ℚ)) (maxCanvasH / (img.height : ℚ))) 1 } }

/-- Function `onCropMouseDown(e)`: start a move or a resize when the pointer
is on the working rectangle. -/
def onCropMouseDown (x y : ℚ) (a : Session) : Session :=
  match getCropHandle a.cropEditor x y with
  | some Handle.move =>
    { a with cropEditor := { a.cropEditor with dragging := true, lastMouse := (x, y) } }
  | some handle =>
    { a with cropEditor := { a.cropEditor with resizing := some handle, lastMouse := (x, y) } }
  | none => a

/-- Function `onCropMouseMove(e)`. Outside a move or resize it only sets the
cursor. Otherwise it stores the pointer, then reads the image extent
(`Except.error` with the session left behind when no image is loaded) and
moves or resizes the working area by the source-space delta. -/
def onCropMouseMove (x y : ℚ) (a : Session) : Except Session Session :=
  if a.cropEditor.dragging = false ∧ a.cropEditor.resizing = none then Except.ok a
  else
    let dx := (x - a.cropEditor.lastMouse.1) / a.cropEditor.scale
    let dy := (y - a.cropEditor.lastMouse.2) / a.cropEditor.scale
    let a := { a with cropEditor := { a.cropEditor with lastMouse := (x, y) } }
    let area := a.cropEditor.cropArea
    match a.state.originalImage with
    | none => Except.error a
    | some img =>
      if a.cropEditor.dragging then
        Except.ok { a with cropEditor := { a.cropEditor with cropArea := moveArea img area dx dy } }
      else
        match a.cropEditor.resizing with
        | some r =>
          Except.ok
            { a with cropEditor := { a.cropEditor with cropArea := resizeArea img r area dx dy } }
        | none => Except.ok a

/-- Function `onCropMouseUp()`, also the `mouseleave` listener of the editor
canvas. -/
def onCropMouseUp (a : Session) : Session :=
  { a with cropEditor := { a.cropEditor with dragging := false, resizing := none } }

/-- Function `resetCrop()`: the working area becomes a copy of the original
area. -/
def resetCrop (a : Session) : Session :=
  { a with cropEditor := { a.cropEditor with cropArea := a.cropEditor.originalArea } }

/-- Function `centerCrop()`: the working area centered in the image, size
unchanged; `Except.error` when no image is loaded. -/
def centerCrop (a : Session) : Except Session Session :=
  match a.state.originalImage with
  | none => Except.error a
  | some img =>
    let imgW : ℚ := (img.width : ℚ)
    let imgH : ℚ := (img.height : ℚ)
    let area := a.cropEditor.cropArea
    Except.ok
      { a with cropEditor :=
          { a.cropEditor with
            cropArea :=
              { area with x := (imgW - area.width) / 2, y := (imgH - area.height) / 2 } } }

/-! ## Binary64 evaluation

JavaScript numbers are IEEE 754 binary64 numbers. The definitions above
evaluate the expressions of the source exactly; the definitions of this
section evaluate the same expressions with the result of every arithmetic
operation rounded to the nearest binary64 number, for the properties that
depend on the rounding. Overflow and subnormal numbers are not modelled: the
values at hand are pixel counts. `Math.max`, `Math.min` and `Math.floor` are
exact on binary64 numbers. -/

/-- Round to the nearest integer, a tie going to the even one. -/
def roundHalfEven (q : ℚ) : Int :=
  let f : Int := ⌊q⌋
  if q - (f : ℚ) < 1 / 2 then f
  else if 1 / 2 < q - (f : ℚ) then f + 1
  else if f % 2 = 0 then f
  else f + 1

/-- The binary64 number nearest to `q`, ties to even: `q` is scaled by the
power of two that brings it into `[2^52, 2^53)`, rounded to an integer and
scaled back. -/
def fl (q : ℚ) : ℚ :=
  if q = 0 then 0
  else
    let e : Int := Int.log 2 |q| - 52
    (roundHalfEven (q / (2 : ℚ) ^ e) : ℚ) * (2 : ℚ) ^ e

/-- The rectangle of `uniformCell` as binary64 arithmetic computes it:
`cellW = W / cols`, `cellH = H / rows`, `x = col * cellW`, `y = row * cellH`,
each rounded. -/
def uniformCellFl (img : ImageExtent) (s : State) (row col : Nat) : CropArea :=
  let cellW := fl ((img.width : ℚ) / (s.cols : ℚ))
  let cellH := fl ((img.height : ℚ) / (s.rows : ℚ))
  { x := fl ((col : ℚ) * cellW), y := fl ((row : ℚ) * cellH), width := cellW, height := cellH }

/-- The `i`-th line `(i + 0.5) * extent / count` of `initializeCenterLines`
as binary64 arithmetic computes it. -/
def initialLineFl (i count extent : Nat) : ℚ :=
  fl (fl (fl ((i : ℚ) + 0.5) * (extent : ℚ)) / (count : ℚ))

/-- The lines `initializeCenterLines` pushes on one axis, in binary64. -/
def initialLinesFl (count extent : Nat) : List ℚ :=
  (List.range count).map fun (i : Nat) => initialLineFl i count extent

/-- The value of `minDistX` (or `minDistY`) of `autoCalculateCellSize` as
binary64 arithmetic computes it: `axisMinDist` with every difference and
product rounded. -/
def axisMinDistFl (lines : List ℚ) (extent : ℚ) : Option ℚ :=
  let gaps := List.zipWith (fun a b => fl (b - a)) lines lines.tail
  let m := gaps.foldl (fun m g => some (jsMin m g)) none
  match lines.head?, lines.getLast? with
  | some first, some last =>
    some (jsMin (some (jsMin m (fl (first * 2)))) (fl (fl (extent - last) * 2)))
  | _, _ => m

/-- The cell size `Math.floor(minDist * 0.95)` of `autoCalculateCellSize` in
binary64; the literal `0.95` is itself the binary64 number nearest to it. -/
def autoCellSizeFl (lines : List ℚ) (extent : ℚ) : Option ℚ :=
  (axisMinDistFl lines extent).map fun d => ((⌊fl (d * fl 0.95)⌋ : Int) : ℚ)

/-- The resizing branch of `onCropMouseMove` as binary64 arithmetic computes
it: `resizeArea` with every sum and difference rounded. -/
def resizeAreaFl (img : ImageExtent) (r : Handle) (area : CropArea) (dx dy : ℚ) : CropArea :=
  let imgW : ℚ := (img.width : ℚ)
  let imgH : ℚ := (img.height : ℚ)
  let newX := area.x
  let newY := area.y
  let newW := area.width
  let newH := area.height
  let newX :=
    if r.includesW then max 0 (min (fl (fl (area.x + area.width) - 20)) (fl (area.x + dx)))
    else newX
  let newW := if r.includesW then fl (fl (area.x + area.width) - newX) else newW
  let newW :=
    if r.includesE then max 20 (min (fl (imgW - area.x)) (fl (area.width + dx))) else newW
  let newY :=
    if r.includesN then max 0 (min (fl (fl (area.y + area.height) - 20)) (fl (area.y + dy)))
    else newY
  let newH := if r.includesN then fl (fl (area.y + area.height) - newY) else newH
  let newH :=
    if r.includesS then max 20 (min (fl (imgH - area.y)) (fl (area.height + dy))) else newH
  { x := newX, y := newY, width := newW, height := newH }

/-- The uniform branch of `findCellAtPosition` as binary64 arithmetic
computes it: the two cell extents and the two quotients are rounded before
`Math.floor`. A cell extent of zero gives no hit, as in `findCellAtPosition`. -/
def uniformHitFl (s : State) (x y : ℚ) : Int :=
  let cellW := fl (s.canvasWidth / (s.cols : ℚ))
  let cellH := fl (s.canvasHeight / (s.rows : ℚ))
  if cellW = 0 ∨ cellH = 0 then -1
  else
    let col : Int := ⌊fl (x / cellW)⌋
    let row : Int := ⌊fl (y / cellH)⌋
    if col ≥ 0 ∧ col < (s.cols : Int) ∧ row ≥ 0 ∧ row < (s.rows : Int) then
      row * (s.cols : Int) + col
    else -1

/-! ## Events and reachable sessions -/

/-- The user and timer events of the layout core. -/
inductive Event where
  | imageLoaded (img : ImageExtent) (clientWidth : ℚ)
  | gridControl (c : GridControl)
  | modeButton (m : Mode)
  | resetLines
  | cellWidthChange (v : Option Int)
  | cellHeightChange (v : Option Int)
  | autoCalcSize
  | mouseDown (x y : ℚ)
  | mouseMove (now x y : ℚ)
  | mouseUp
  | mouseLeave
  | click (x y : ℚ)
  | isDraggingTimeout
  | generatePreviews
  | saveCrop

/-- The events whose listener calls `initializeCenterLines`. -/
def Event.regeneratesLines : Event → Bool
  | Event.imageLoaded _ _ => true
  | Event.gridControl _ => true
  | Event.modeButton _ => true
  | Event.resetLines => true
  | _ => false

/-- The listener of an event, run on the session. After `generatePreviews`
the session goes on with the state the function leaves, thrown or not. -/
def step (e : Event) (a : Session) : Session :=
  match e with
  | Event.imageLoaded img clientWidth => { a with state := imageLoaded img clientWidth a.state }
  | Event.gridControl c => { a with state := gridControl c a.state }
  | Event.modeButton m => { a with state := modeButtonClick m a.state }
  | Event.resetLines => { a with state := resetLinesClick a.state }
  | Event.cellWidthChange v => { a with state := cellWidthChange v a.state }
  | Event.cellHeightChange v => { a with state := cellHeightChange v a.state }
  | Event.autoCalcSize => { a with state := autoCalculateCellSize a.state }
  | Event.mouseDown x y => mouseDown x y a
  | Event.mouseMove now x y => mouseMove now x y a
  | Event.mouseUp => mouseUp a
  | Event.mouseLeave => mouseLeave a
  | Event.click x y => click x y a
  | Event.isDraggingTimeout => isDraggingTimeout a
  | Event.generatePreviews =>
    match generatePreviews a.state with
    | Except.ok s => { a with state := s }
    | Except.error s => { a with state := s }
  | Event.saveCrop => saveCrop a

/-- Sessions reachable from a start without image and without drag. A drag
is one gesture: no event that regenerates the center lines (image load,
grid control, mode button, reset) arrives between its `mousedown` and its
`mouseup`. -/
inductive Reachable : Session → Prop where
  | start (a : Session) :
      a.state.originalImage = none → a.state.dragging = none → Reachable a
  | step (a : Session) (e : Event) :
      Reachable a → (e.regeneratesLines = true → a.state.dragging = none) →
      Reachable (step e a)

/-- Sessions reachable from a start without image and without drag by the
events in any order, a regeneration of the center lines in the middle of a
drag included: the listeners themselves check nothing of the kind. -/
inductive ReachableAnyOrder : Session → Prop where
  | start (a : Session) :
      a.state.originalImage = none → a.state.dragging = none → ReachableAnyOrder a
  | step (a : Session) (e : Event) : ReachableAnyOrder a → ReachableAnyOrder (step e a)

/-! ## Derived notions used in the statements -/

/-- The grid invariant of a state: once an image is loaded there is one X
line per column and one Y line per row, and a line being dragged is a line of
the current grid, so that the write of `mouseMove` stays inside the array. -/
def LinesMatch (s : State) : Prop :=
  (s.originalImage ≠ none →
    s.centerLinesX.length = s.cols ∧ s.centerLinesY.length = s.rows) ∧
  (∀ d, s.dragging = some d →
    (d.type = Axis.x → d.index < s.centerLinesX.length) ∧
    (d.type = Axis.y → d.index < s.centerLinesY.length))

/-- Number of iterations of the loops of `getCropAreas`: `rows * cols` in
uniform mode, one per pair of center lines otherwise. -/
def cellCount (s : State) : Nat :=
  match s.mode with
  | Mode.uniform => s.rows * s.cols
  | _ => s.centerLinesY.length * s.centerLinesX.length

/-- The rectangle the geometry model computes at the `k`-th iteration of the
loops of `getCropAreas`, overrides left aside (meaningful for
`k < cellCount s`). -/
def computedArea (img : ImageExtent) (s : State) (k : Nat) : CropArea :=
  match s.mode with
  | Mode.uniform => uniformCell img s (k / s.cols) (k % s.cols)
  | _ =>
    centerLineCell img s (s.centerLinesY.getD (k / s.centerLinesX.length) 0)
      (s.centerLinesX.getD (k % s.centerLinesX.length) 0)

/-! ## Example states -/

/-- The `state` literal of the source. -/
def initialState : State :=
  { originalImage := none, rows := 6, cols := 4, mode := Mode.uniform,
    centerLinesX := [], centerLinesY := [], cellWidth := 100, cellHeight := 100,
    scale := 1, canvasWidth := 0, canvasHeight := 0, dragging := none, hovered := none,
    disabledCells := ∅, croppedImages := [], customAreas := fun _ => none }

/-- The session as the page starts it. -/
def initialSession : Session :=
  { state := initialState
    cropEditor :=
      { currentIndex := -1, originalArea := ⟨0, 0, 0, 0⟩, cropArea := ⟨0, 0, 0, 0⟩,
        dragging := false, resizing := none, lastMouse := (0, 0), scale := 1 }
    isDragging := false, lastMoveTime := 0, currentHovered := none }

/-- A 100×100 image under a uniform 2×2 grid. -/
def uniform2x2 : State :=
  { initialState with originalImage := some ⟨100, 100⟩, rows := 2, cols := 2 }

/-- A 100×100 image with one column at `x = 10`, one row at `y = 50` and
cells of 60×60. -/
def centerNearEdge : State :=
  { initialState with
    originalImage := some ⟨100, 100⟩, rows := 1, cols := 1, mode := Mode.centerline,
    centerLinesX := [10], centerLinesY := [50], cellWidth := 60, cellHeight := 60 }

/-- A 100×100 image with one center-line cell of 200×200, larger than the
image. -/
def oversizedCell : State :=
  { initialState with
    originalImage := some ⟨100, 100⟩, rows := 1, cols := 1, mode := Mode.centerline,
    centerLinesX := [50], centerLinesY := [50], cellWidth := 200, cellHeight := 200 }

/-- A loaded 100×100 image in uniform mode with cell `0` disabled and
overridden. -/
def editedState : State :=
  { initialState with
    originalImage := some ⟨100, 100⟩, rows := 2, cols := 2,
    disabledCells := {0},
    customAreas := fun i => if i = 0 then some ⟨5, 5, 40, 40⟩ else none }

/-- The 2×2 grid over a 100×100 image with cell `1` disabled. -/
def oneDisabled : State :=
  { uniform2x2 with disabledCells := {1} }

/-- The session after loading a 100×100 image into a container 840 px wide,
under the default uniform 6×4 grid. -/
def loadedUniform : Session :=
  step (Event.imageLoaded ⟨100, 100⟩ 840) initialSession

/-- The session after loading a 100×100 image into a container 840 px wide
and pressing the center-line mode button. -/
def loadedCenterline : Session :=
  step (Event.modeButton Mode.centerline)
    (step (Event.imageLoaded ⟨100, 100⟩ 840) initialSession)

/-- A session editing cell `1` of the 2×2 grid over a 100×100 image, the
working area moved to `{10, 10, 30, 30}`. -/
def editingSession : Session :=
  { initialSession with
    state := uniform2x2
    cropEditor :=
      { initialSession.cropEditor with
        currentIndex := 1, originalArea := ⟨50, 0, 50, 50⟩, cropArea := ⟨10, 10, 30, 30⟩ } }

/-- A 15×15 image with a single center line per axis, the X line being
dragged. -/
def tinyImageDrag : Session :=
  { initialSession with
    state :=
      { initialState with
        originalImage := some ⟨15, 15⟩, rows := 1, cols := 1, mode := Mode.centerline,
        centerLinesX := [15 / 2], centerLinesY := [15 / 2], cellWidth := 14, cellHeight := 14,
        canvasWidth := 15, canvasHeight := 15,
        dragging := some { type := Axis.x, index := 0 } }
    isDragging := true }

/-- A 100×100 image with two columns and one row in center-line mode, the
first X line being dragged. -/
def draggingFirstLine : Session :=
  { initialSession with
    state :=
      { initialState with
        originalImage := some ⟨100, 100⟩, rows := 1, cols := 2, mode := Mode.centerline,
        centerLinesX := [25, 75], centerLinesY := [50], cellWidth := 47, cellHeight := 95,
        canvasWidth := 100, canvasHeight := 100,
        dragging := some { type := Axis.x, index := 0 } }
    isDragging := true }

/-! ## Derived notions for the cell size and the hit tests -/

/-- The number `m` is the minimum of every gap `lines[i+1] - lines[i]` between
consecutive lines, of twice the first position and of twice the distance from
the last line to `extent`: it is below each of them and equal to one of
them. -/
def IsMinGap (lines : List ℚ) (extent m : ℚ) : Prop :=
  (∀ (i : Nat) (a b : ℚ), lines[i]? = some a → lines[i + 1]? = some b → m ≤ b - a) ∧
  (∀ a, lines.head? = some a → m ≤ 2 * a) ∧
  (∀ b, lines.getLast? = some b → m ≤ 2 * (extent - b)) ∧
  ((∃ (i : Nat) (a b : ℚ), lines[i]? = some a ∧ lines[i + 1]? = some b ∧ m = b - a) ∨
    (∃ a, lines.head? = some a ∧ m = 2 * a) ∨
    (∃ b, lines.getLast? = some b ∧ m = 2 * (extent - b)))

/-- The display point `(x, y)` lies in the rectangle of size
`cellWidth × cellHeight` centered on the line pair `(cx, cy)` and scaled to
display space by `state.scale`, edges included. The rectangle is the one
`drawCenterLineModeGL` draws; it is not shifted into the image. -/
def inCenteredRect (s : State) (cy cx x y : ℚ) : Prop :=
  (cx - s.cellWidth / 2) * s.scale ≤ x ∧ x ≤ (cx + s.cellWidth / 2) * s.scale ∧
  (cy - s.cellHeight / 2) * s.scale ≤ y ∧ y ≤ (cy + s.cellHeight / 2) * s.scale

instance (s : State) (cy cx x y : ℚ) : Decidable (inCenteredRect s cy cx x y) := by
  unfold inCenteredRect
  exact inferInstance

/-- The display point `(x, y)` lies in the rectangle `a` of source space
scaled to display space by `scale`, edges included. -/
def inScaledArea (a : CropArea) (scale x y : ℚ) : Prop :=
  a.x * scale ≤ x ∧ x ≤ (a.x + a.width) * scale ∧
  a.y * scale ≤ y ∧ y ≤ (a.y + a.height) * scale

instance (a : CropArea) (scale x y : ℚ) : Decidable (inScaledArea a scale x y) := by
  unfold inScaledArea
  exact inferInstance

/-- The hit test `hitCell` in the words of the specification: convert the
display point to source space (`point / DisplayScale`), scan the rectangles
the geometry model computes (no override) in canonical order and return the
index of the first one that contains the point, its left and top edges
included and its right and bottom edges excluded; `-1` when none does or no
image is loaded. -/
def hitCellScan (s : State) (x y : ℚ) : Int :=
  match getCropAreas { s with customAreas := fun _ => none } with
  | none => -1
  | some areas =>
    let px := x / s.scale
    let py := y / s.scale
    match areas.findIdx? fun a =>
        decide (a.x ≤ px ∧ px < a.x + a.width ∧ a.y ≤ py ∧ py < a.y + a.height) with
    | some index => (index : Int)
    | none => -1

/-! ## Example states of the crop editor, the cell size and the hit tests -/

/-- The session `oversizedCell` with the editor open on its cell, whose area
`{0, 0, 200, 200}` is larger than the 100×100 image, and a move under way. -/
def oversizedEditing : Session :=
  { initialSession with
    state := oversizedCell
    cropEditor :=
      { initialSession.cropEditor with
        currentIndex := 0, originalArea := ⟨0, 0, 200, 200⟩, cropArea := ⟨0, 0, 200, 200⟩,
        dragging := true } }

/-- A 100×100 image under a uniform 10×10 grid. -/
def uniform10x10 : State :=
  { initialState with originalImage := some ⟨100, 100⟩, rows := 10, cols := 10 }

/-- The editor of `editingSession` with a move under way. -/
def movingSession : Session :=
  { editingSession with cropEditor := { editingSession.cropEditor with dragging := true } }

/-- The editor open on cell `0` of the 2×2 grid over a 100×100 image, with a
resize by the `se` handle under way. -/
def resizingSession : Session :=
  { initialSession with
    state := uniform2x2
    cropEditor :=
      { initialSession.cropEditor with
        currentIndex := 0, originalArea := ⟨0, 0, 50, 50⟩, cropArea := ⟨0, 0, 50, 50⟩,
        resizing := some Handle.se } }

/-- A 100×100 image with one center line per axis, at 50, and the default
cell size of 100×100. -/
def singleLine : State :=
  { initialState with
    originalImage := some ⟨100, 100⟩, rows := 1, cols := 1, mode := Mode.centerline,
    centerLinesX := [50], centerLinesY := [50] }

/-- A 100×100 image with X lines at 10, 30, 35, 90 and Y lines at 20, 70. -/
def unevenLines : State :=
  { initialState with
    originalImage := some ⟨100, 100⟩, rows := 2, cols := 4, mode := Mode.centerline,
    centerLinesX := [10, 30, 35, 90], centerLinesY := [20, 70] }

/-- A 300×200 image under a uniform grid of 2 rows and 1 column, displayed
in a container 140 px wide: the scale is `1/3` and the canvas is 100×66, the
height `200/3` being rounded down by `displayImage`. -/
def flooredCanvas : State :=
  { initialState with
    originalImage := some ⟨300, 200⟩, rows := 2, cols := 1,
    scale := 1 / 3, canvasWidth := 100, canvasHeight := 66 }

/-- A 300×200 image under a uniform grid of 2 rows and 3 columns, displayed
at scale `1/2` on a canvas of 150×100. -/
def exactCanvas : State :=
  { initialState with
    originalImage := some ⟨300, 200⟩, rows := 2, cols := 3,
    scale := 1 / 2, canvasWidth := 150, canvasHeight := 100 }

/-! ## Sessions of the crop editor and interaction examples -/

/-- The events of the crop editor between `openCropEditor` and `saveCrop`:
pointer-down, pointer-move and pointer-up on the editor canvas, the reset
button and the center button. -/
inductive CropEvent where
  | mouseDown (x y : ℚ)
  | mouseMove (x y : ℚ)
  | mouseUp
  | reset
  | center

/-- The listener of a crop-editor event, run on the session; after a
listener that throws the session goes on with what it left behind. -/
def cropStep (a : Session) (e : CropEvent) : Session :=
  match e with
  | CropEvent.mouseDown x y => onCropMouseDown x y a
  | CropEvent.mouseMove x y =>
    match onCropMouseMove x y a with
    | Except.ok a' => a'
    | Except.error a' => a'
  | CropEvent.mouseUp => onCropMouseUp a
  | CropEvent.reset => resetCrop a
  | CropEvent.center =>
    match centerCrop a with
    | Except.ok a' => a'
    | Except.error a' => a'

/-- The rectangle lies within the image and is at least 20 wide and 20
high. -/
def AreaValid (img : ImageExtent) (area : CropArea) : Prop :=
  0 ≤ area.x ∧ 0 ≤ area.y ∧
  area.x + area.width ≤ (img.width : ℚ) ∧ area.y + area.height ≤ (img.height : ℚ) ∧
  20 ≤ area.width ∧ 20 ≤ area.height

/-- The pointer-moves `(now, x, y)` of a list delivered in order to the
`mousemove` listener of the main canvas. -/
def mouseMoves (moves : List (ℚ × ℚ × ℚ)) (a : Session) : Session :=
  moves.foldl (fun b m => mouseMove m.1 m.2.1 m.2.2 b) a

/-- A 100×100 image with two columns and one row in center-line mode, at
scale 1, nothing dragged or hovered. -/
def idleLines : Session :=
  { initialSession with
    state :=
      { initialState with
        originalImage := some ⟨100, 100⟩, rows := 1, cols := 2, mode := Mode.centerline,
        centerLinesX := [25, 75], centerLinesY := [50], cellWidth := 47, cellHeight := 95,
        canvasWidth := 100, canvasHeight := 100 } }

/-- A crop-editor session on the image `img` whose original area and working
area both lie within the image and are at least 20 wide and high. -/
def CropSessionValid (img : ImageExtent) (a : Session) : Prop :=
  a.state.originalImage = some img ∧
  AreaValid img a.cropEditor.originalArea ∧
  AreaValid img a.cropEditor.cropArea

/-- The session `loadedCenterline` after the pointer moved onto the second
X line (canvas point `(40, 20)` at time 100). -/
def hoveringLine : Session :=
  step (Event.mouseMove 100 40 20) loadedCenterline

/-- The session `hoveringLine` after a pointer-down at the same point. -/
def hoverThenPress : Session :=
  step (Event.mouseDown 40 20) hoveringLine

/-- A press-and-release gesture on the main canvas: pointer-down at
`(x, y)`, the pointer-moves of the list, pointer-up. -/
def dragGesture (x y : ℚ) (moves : List (ℚ × ℚ × ℚ)) (a : Session) : Session :=
  mouseUp (mouseMoves moves (mouseDown x y a))

/-- The session `idleLines` after dragging the first X line from 25 to 30:
pointer-down at `(25, 50)`, one pointer-move to `(30, 50)` at time 100,
pointer-up. -/
def afterDrag : Session :=
  dragGesture 25 50 [(100, 30, 50)] idleLines

/-- The session `afterDrag` after the click at `(30, 50)` that ends the
drag. -/
def afterDragClick : Session :=
  click 30 50 afterDrag

/-- Every center-line cell of the state, of size `cellWidth × cellHeight`
around its line pair, lies in the image as it stands, and the cells of
consecutive columns and of consecutive rows do not overlap; the rectangle
`getCropAreas` computes for a line pair is then the centered one, the clamp
changing nothing. -/
def CellsFit (img : ImageExtent) (s : State) : Prop :=
  (∀ cx ∈ s.centerLinesX,
    0 ≤ cx - s.cellWidth / 2 ∧ cx + s.cellWidth / 2 ≤ (img.width : ℚ)) ∧
  (∀ cy ∈ s.centerLinesY,
    0 ≤ cy - s.cellHeight / 2 ∧ cy + s.cellHeight / 2 ≤ (img.height : ℚ)) ∧
  (∀ (i : Nat) (a b : ℚ), s.centerLinesX[i]? = some a → s.centerLinesX[i + 1]? = some b →
    a + s.cellWidth / 2 ≤ b - s.cellWidth / 2) ∧
  (∀ (i : Nat) (a b : ℚ), s.centerLinesY[i]? = some a → s.centerLinesY[i + 1]? = some b →
    a + s.cellHeight / 2 ≤ b - s.cellHeight / 2) ∧
  ∀ cy ∈ s.centerLinesY, ∀ cx ∈ s.centerLinesX,
    centerLineCell img s cy cx =
      { x := cx - s.cellWidth / 2, y := cy - s.cellHeight / 2,
        width := s.cellWidth, height := s.cellHeight }

/-- The disabled set `after` is the set `before` with the membership of the
cell `cellIndex` flipped and every other membership kept, when `cellIndex` is
a hit (`≥ 0`); it is `before` when `cellIndex` is no hit. -/
def ToggledAt (before after : Finset Nat) (cellIndex : Int) : Prop :=
  (0 ≤ cellIndex →
    (cellIndex.toNat ∈ after ↔ cellIndex.toNat ∉ before) ∧
    ∀ j, j ≠ cellIndex.toNat → (j ∈ after ↔ j ∈ before)) ∧
  (cellIndex < 0 → after = before)

/-! ## Example states of the binary64 evaluation -/

/-- A 146×100 image under a uniform grid of one row and five columns. -/
def fiveColumns : State :=
  { initialState with originalImage := some ⟨146, 100⟩, rows := 1, cols := 5 }

/-- A 100×100 image under the default uniform grid of six rows and four
columns. -/
def defaultGrid : State :=
  { initialState with originalImage := some ⟨100, 100⟩ }

/-- The session `loadedCenterline` (a 100×100 image, six rows, four columns,
center-line mode) after a pointer-down on the last X line, at canvas point
`(87, 20)`. -/
def pressedLastLine : Session :=
  step (Event.mouseDown 87 20) loadedCenterline

/-- The session `pressedLastLine` after the column input is set to `3` while
the line is still held. -/
def regeneratedWhilePressed : Session :=
  step (Event.gridControl (GridControl.colsInput (some 3))) pressedLastLine

/-- The session `regeneratedWhilePressed` after a pointer-move to the canvas
point `(50, 20)` at time 200. -/
def staleDrag : Session :=
  step (Event.mouseMove 200 50 20) regeneratedWhilePressed

/-- A 100×100 image with nineteen columns. -/
def nineteenColumns : State :=
  { initialState with originalImage := some ⟨100, 100⟩, cols := 19 }

/-- The page with `uniform10x10` loaded and the crop editor closed. -/
def smallCellSession : Session :=
  { initialSession with state := uniform10x10 }

/-- The session `smallCellSession` after the editor is opened on cell `0`, the
rectangle `{0, 0, 10, 10}`, in a window of 1000×1000. -/
def smallCellOpened : Session :=
  openCropEditor 0 1000 1000 smallCellSession

/-- The session `smallCellOpened` after a pointer-down at the editor point
`(2, 2)`, which is on the `nw` handle. -/
def smallCellPressed : Session :=
  onCropMouseDown 2 2 smallCellOpened

/-- A 260×100 image under a uniform grid of one row and fourteen columns,
displayed at scale 1 on a canvas of 260×100. -/
def wideCanvas : State :=
  { initialState with
    originalImage := some ⟨260, 100⟩, rows := 1, cols := 14,
    canvasWidth := 260, canvasHeight := 100 }

/-! ## Auxiliary lemmas -/

theorem getElem?_flatMap_map {α β γ : Type} (f : α → β → γ) (l₁ : List α) (l₂ : List β)
    (i j : Nat) (hj : j < l₂.length) :
    (l₁.flatMap fun a => l₂.map (f a))[i * l₂.length + j]? =
      (l₁[i]?).bind fun a => (l₂[j]?).map (f a) := by
  induction l₁ generalizing i with
  | nil => simp
  | cons a t ih =>
    rw [List.flatMap_cons]
    cases i with
    | zero =>
      rw [List.getElem?_append_left (by simpa using hj)]
      simp
    | succ k =>
      have hle : (l₂.map (f a)).length ≤ (k + 1) * l₂.length + j := by
        simp only [List.length_map]; nlinarith
      rw [List.getElem?_append_right hle]
      have : (k + 1) * l₂.length + j - (l₂.map (f a)).length = k * l₂.length + j := by
        simp only [List.length_map]
        have : (k + 1) * l₂.length = k * l₂.length + l₂.length := by ring
        omega
      rw [this, ih]
      simp

theorem length_flatMap_map {α β γ : Type} (f : α → β → γ) (l₁ : List α) (l₂ : List β) :
    (l₁.flatMap fun a => l₂.map (f a)).length = l₁.length * l₂.length := by
  induction l₁ with
  | nil => simp
  | cons a t ih =>
    rw [List.flatMap_cons, List.length_append, ih]
    simp only [List.length_map, List.length_cons]
    ring

theorem mapM_option_eq_some {α β : Type} (f : α → Option β) (g : α → β) (l : List α)
    (h : ∀ a ∈ l, f a = some (g a)) : l.mapM f = some (l.map g) := by
  induction l with
  | nil => rfl
  | cons a t ih =>
    rw [List.mapM_cons, h a (List.mem_cons_self a t), ih fun b hb => h b (List.mem_cons_of_mem a hb)]
    rfl

/-- With an image loaded, center-line mode returns one area per line pair. -/
theorem getCropAreas_of_not_uniform (s : State) (img : ImageExtent)
    (hmode : s.mode ≠ Mode.uniform) (himg : s.originalImage = some img) :
    getCropAreas s = some ((linePairs s).enum.map fun p =>
      match s.customAreas p.1 with
      | some a => a
      | none => centerLineCell img s p.2.1 p.2.2) := by
  have h : getCropAreas s = (linePairs s).enum.mapM fun p =>
      match s.customAreas p.1 with
      | some a => some a
      | none => s.originalImage.map fun img => centerLineCell img s p.2.1 p.2.2 := by
    unfold getCropAreas
    split
    · contradiction
    · rfl
  rw [h]
  apply mapM_option_eq_some
  intro p _
  rw [himg]
  cases s.customAreas p.1 <;> rfl

theorem getCropAreas_of_uniform (s : State) (img : ImageExtent)
    (hmode : s.mode = Mode.uniform) (himg : s.originalImage = some img) :
    getCropAreas s = some ((List.range s.rows).flatMap fun row =>
      (List.range s.cols).map fun col =>
        match s.customAreas (row * s.cols + col) with
        | some a => a
        | none => uniformCell img s row col) := by
  simp only [getCropAreas, hmode, himg]

theorem linePairs_getElem? (s : State) (j i : Nat) (hi : i < s.centerLinesX.length) :
    (linePairs s)[j * s.centerLinesX.length + i]? =
      (s.centerLinesY[j]?).bind fun cy => (s.centerLinesX[i]?).map fun cx => (cy, cx) :=
  getElem?_flatMap_map (fun cy cx => (cy, cx)) s.centerLinesY s.centerLinesX j i hi

theorem linePairs_length (s : State) :
    (linePairs s).length = s.centerLinesY.length * s.centerLinesX.length :=
  length_flatMap_map (fun cy cx => (cy, cx)) s.centerLinesY s.centerLinesX

theorem autoCalculateCellSize_eq (s : State) :
    ∃ cw ch, autoCalculateCellSize s = { s with cellWidth := cw, cellHeight := ch } := by
  unfold autoCalculateCellSize
  split
  · exact ⟨s.cellWidth, s.cellHeight, rfl⟩
  · split
    · exact ⟨s.cellWidth, s.cellHeight, rfl⟩
    · exact ⟨_, _, rfl⟩

theorem initializeCenterLines_eq (s : State) :
    ∃ lx ly cw ch,
      initializeCenterLines s =
        { s with centerLinesX := lx, centerLinesY := ly, cellWidth := cw, cellHeight := ch } ∧
      (s.originalImage = none → lx = s.centerLinesX ∧ ly = s.centerLinesY) ∧
      (s.originalImage ≠ none → lx.length = s.cols ∧ ly.length = s.rows) := by
  unfold initializeCenterLines
  split
  · next himg =>
    exact ⟨s.centerLinesX, s.centerLinesY, s.cellWidth, s.cellHeight, rfl,
      fun _ => ⟨rfl, rfl⟩, fun h => absurd himg h⟩
  · next img himg =>
    obtain ⟨cw, ch, h⟩ := autoCalculateCellSize_eq
      { s with
        centerLinesX :=
          (List.range s.cols).map fun (i : Nat) =>
            ((i : ℚ) + 0.5) * (img.width : ℚ) / (s.cols : ℚ)
        centerLinesY :=
          (List.range s.rows).map fun (i : Nat) =>
            ((i : ℚ) + 0.5) * (img.height : ℚ) / (s.rows : ℚ) }
    exact ⟨_, _, cw, ch, h, fun h => by simp [himg] at h, fun _ => by simp⟩

theorem modeButtonClick_eq (m : Mode) (s : State) :
    ∃ lx ly cw ch,
      modeButtonClick m s =
        { s with
          mode := m, centerLinesX := lx, centerLinesY := ly, cellWidth := cw,
          cellHeight := ch } ∧
      (s.originalImage = none → lx = s.centerLinesX ∧ ly = s.centerLinesY) ∧
      (s.originalImage ≠ none → lx.length = s.cols ∧ ly.length = s.rows) := by
  have h : modeButtonClick m s =
      match s.originalImage with
      | some _ => initializeCenterLines { s with mode := m }
      | none => { s with mode := m } := rfl
  rw [h]
  split
  · next img himg =>
    obtain ⟨lx, ly, cw, ch, h1, _, h3⟩ := initializeCenterLines_eq { s with mode := m }
    exact ⟨lx, ly, cw, ch, h1, fun h => by simp [himg] at h, fun _ => h3 (by simp [himg])⟩
  · next himg =>
    exact ⟨s.centerLinesX, s.centerLinesY, s.cellWidth, s.cellHeight, rfl,
      fun _ => ⟨rfl, rfl⟩, fun h => absurd himg h⟩


theorem displayImage_eq (clientWidth : ℚ) (s : State) :
    ∃ sc w h, displayImage clientWidth s =
      { s with scale := sc, canvasWidth := w, canvasHeight := h } := by
  unfold displayImage
  split
  · exact ⟨s.scale, s.canvasWidth, s.canvasHeight, rfl⟩
  · exact ⟨_, _, _, rfl⟩

theorem findLineAtPosition_index_lt (s : State) (x y : ℚ) (line : Line)
    (h : findLineAtPosition s x y = some line) :
    (line.type = Axis.x → line.index < s.centerLinesX.length) ∧
    (line.type = Axis.y → line.index < s.centerLinesY.length) := by
  unfold findLineAtPosition at h
  split at h
  · exact absurd h (by simp)
  · simp only at h
    split at h
    · next i hi =>
      obtain ⟨hlt, _⟩ := List.findIdx?_eq_some_iff_getElem.1 hi
      cases h
      exact ⟨fun _ => hlt, fun h => by cases h⟩
    · split at h
      · next j hj =>
        obtain ⟨hlt, _⟩ := List.findIdx?_eq_some_iff_getElem.1 hj
        cases h
        exact ⟨fun h => (by cases h), fun _ => hlt⟩
      · exact absurd h (by simp)

/-- Transfer of the grid invariant to a state with the same image, counts,
line counts and drag. -/
theorem linesMatch_of_same {s t : State} (h : LinesMatch s)
    (himg : t.originalImage = s.originalImage)
    (hrows : t.rows = s.rows) (hcols : t.cols = s.cols)
    (hx : t.centerLinesX.length = s.centerLinesX.length)
    (hy : t.centerLinesY.length = s.centerLinesY.length)
    (hd : t.dragging = s.dragging) : LinesMatch t := by
  unfold LinesMatch at *
  rw [himg, hrows, hcols, hx, hy, hd]
  exact h

/-- The grid invariant of a state whose lines were regenerated while no line
was dragged. -/
theorem linesMatch_of_regenerated {t : State}
    (h : t.originalImage ≠ none →
      t.centerLinesX.length = t.cols ∧ t.centerLinesY.length = t.rows)
    (hd : t.dragging = none) : LinesMatch t :=
  ⟨h, fun d hd' => by rw [hd] at hd'; cases hd'⟩

theorem linesMatch_initializeCenterLines (t : State) (hd : t.dragging = none) :
    LinesMatch (initializeCenterLines t) := by
  obtain ⟨lx, ly, cw, ch, h1, _, h3⟩ := initializeCenterLines_eq t
  rw [h1]
  exact linesMatch_of_regenerated (fun hne => h3 hne) hd

theorem generatePreviews_eq (s : State) :
    ∃ imgs, (generatePreviews s = Except.ok { s with croppedImages := imgs } ∨
      generatePreviews s = Except.error { s with croppedImages := imgs }) := by
  unfold generatePreviews
  split
  · exact ⟨s.croppedImages, Or.inl rfl⟩
  · simp only
    split
    · exact ⟨[], Or.inr rfl⟩
    · split
      · next imgs _ => exact ⟨imgs, Or.inl rfl⟩
      · next imgs _ => exact ⟨imgs, Or.inr rfl⟩

theorem linesMatch_gridControl (c : GridControl) (s : State) (hd : s.dragging = none) :
    LinesMatch (gridControl c s) := by
  cases c <;> exact linesMatch_initializeCenterLines _ hd

theorem linesMatch_modeButtonClick (m : Mode) (s : State) (hd : s.dragging = none) :
    LinesMatch (modeButtonClick m s) := by
  obtain ⟨lx, ly, cw, ch, h1, _, h3⟩ := modeButtonClick_eq m s
  rw [h1]
  exact linesMatch_of_regenerated (fun hne => h3 hne) hd

theorem linesMatch_resetLinesClick (s : State) (hd : s.dragging = none) :
    LinesMatch (resetLinesClick s) := by
  obtain ⟨lx, ly, cw, ch, h1, _, h3⟩ := initializeCenterLines_eq s
  unfold resetLinesClick
  rw [h1]
  exact linesMatch_of_regenerated (fun hne => h3 hne) hd

theorem linesMatch_imageLoaded (img : ImageExtent) (clientWidth : ℚ) (s : State)
    (hd : s.dragging = none) : LinesMatch (imageLoaded img clientWidth s) := by
  obtain ⟨lx, ly, cw, ch, h1, _, h3⟩ :=
    initializeCenterLines_eq { s with originalImage := some img, disabledCells := ∅ }
  obtain ⟨sc, w, hh, h4⟩ := displayImage_eq clientWidth
    (initializeCenterLines { s with originalImage := some img, disabledCells := ∅ })
  unfold imageLoaded
  rw [h4, h1]
  exact linesMatch_of_regenerated (fun _ => h3 (by simp)) hd

theorem linesMatch_mouseDown (x y : ℚ) (a : Session) (h : LinesMatch a.state) :
    LinesMatch (mouseDown x y a).state := by
  unfold mouseDown
  split
  · exact h
  · split
    · split
      · next line hline =>
        refine ⟨h.1, ?_⟩
        intro d hd
        simp only [Option.some.injEq] at hd
        subst hd
        exact findLineAtPosition_index_lt a.state x y line hline
      · exact h
    · exact h

theorem jsArrayWrite_of_lt (l : List ℚ) (i : Nat) (v : ℚ) (h : i < l.length) :
    jsArrayWrite l i v = l.set i v := by
  unfold jsArrayWrite
  rw [if_pos h]

theorem jsArrayWrite_of_eq (l : List ℚ) (v : ℚ) : jsArrayWrite l l.length v = l ++ [v] := by
  unfold jsArrayWrite
  rw [if_neg (lt_irrefl _)]
  simp

theorem jsArrayWrite_length_of_ge (l : List ℚ) (i : Nat) (v : ℚ) (h : l.length ≤ i) :
    (jsArrayWrite l i v).length = i + 1 := by
  unfold jsArrayWrite
  rw [if_neg (by omega)]
  simp
  omega

theorem linesMatch_mouseMove (now x y : ℚ) (a : Session) (h : LinesMatch a.state) :
    LinesMatch (mouseMove now x y a).state := by
  unfold mouseMove
  split
  · exact h
  · simp only
    split
    · exact h
    · split
      · next d hd =>
        split
        · next hx =>
          have hlt := (h.2 d hd).1 hx
          exact linesMatch_of_same h rfl rfl rfl
            (by simp [jsArrayWrite_of_lt _ _ _ hlt]) rfl rfl
        · next hy =>
          have hlt := (h.2 d hd).2 hy
          exact linesMatch_of_same h rfl rfl rfl rfl
            (by simp [jsArrayWrite_of_lt _ _ _ hlt]) rfl
      · split
        · exact h
        · split
          · exact linesMatch_of_same h rfl rfl rfl rfl rfl rfl
          · exact h

theorem linesMatch_mouseUp (a : Session) (h : LinesMatch a.state) :
    LinesMatch (mouseUp a).state := by
  unfold mouseUp
  split
  · exact linesMatch_of_regenerated h.1 rfl
  · exact h

theorem linesMatch_mouseLeave (a : Session) (h : LinesMatch a.state) :
    LinesMatch (mouseLeave a).state := by
  unfold mouseLeave
  split
  · exact linesMatch_of_same h rfl rfl rfl rfl rfl rfl
  · exact h

theorem linesMatch_click (x y : ℚ) (a : Session) (h : LinesMatch a.state) :
    LinesMatch (click x y a).state := by
  unfold click
  split
  · exact h
  · split
    · exact h
    · split
      · exact h
      · simp only
        split
        · exact linesMatch_of_same h rfl rfl rfl rfl rfl rfl
        · exact h

theorem linesMatch_saveCrop (a : Session) (h : LinesMatch a.state) :
    LinesMatch (saveCrop a).state := by
  unfold saveCrop
  simp only
  split
  · exact h
  · exact linesMatch_of_same h rfl rfl rfl rfl rfl rfl

/-- Every listener keeps the grid invariant, a listener that regenerates the
center lines doing so when no line is being dragged. -/
theorem linesMatch_step {a : Session} (e : Event) (h : LinesMatch a.state)
    (hg : e.regeneratesLines = true → a.state.dragging = none) :
    LinesMatch (step e a).state := by
  cases e with
  | imageLoaded img clientWidth => exact linesMatch_imageLoaded img clientWidth a.state (hg rfl)
  | gridControl c => exact linesMatch_gridControl c a.state (hg rfl)
  | modeButton m => exact linesMatch_modeButtonClick m a.state (hg rfl)
  | resetLines => exact linesMatch_resetLinesClick a.state (hg rfl)
  | cellWidthChange v => exact linesMatch_of_same h rfl rfl rfl rfl rfl rfl
  | cellHeightChange v => exact linesMatch_of_same h rfl rfl rfl rfl rfl rfl
  | autoCalcSize =>
    obtain ⟨cw, ch, h1⟩ := autoCalculateCellSize_eq a.state
    show LinesMatch (autoCalculateCellSize a.state)
    rw [h1]
    exact linesMatch_of_same h rfl rfl rfl rfl rfl rfl
  | mouseDown x y => exact linesMatch_mouseDown x y a h
  | mouseMove now x y => exact linesMatch_mouseMove now x y a h
  | mouseUp => exact linesMatch_mouseUp a h
  | mouseLeave => exact linesMatch_mouseLeave a h
  | click x y => exact linesMatch_click x y a h
  | isDraggingTimeout => exact h
  | generatePreviews =>
    obtain ⟨imgs, h1 | h1⟩ := generatePreviews_eq a.state
    · show LinesMatch (match generatePreviews a.state with
        | Except.ok s => ({ a with state := s } : Session)
        | Except.error s => { a with state := s }).state
      rw [h1]
      exact linesMatch_of_same h rfl rfl rfl rfl rfl rfl
    · show LinesMatch (match generatePreviews a.state with
        | Except.ok s => ({ a with state := s } : Session)
        | Except.error s => { a with state := s }).state
      rw [h1]
      exact linesMatch_of_same h rfl rfl rfl rfl rfl rfl
  | saveCrop => exact linesMatch_saveCrop a h

theorem linesMatch_of_reachable {a : Session} (h : Reachable a) : LinesMatch a.state := by
  induction h with
  | start a himg hd =>
    exact linesMatch_of_regenerated (fun hne => absurd himg hne) hd
  | step a e _ hg ih => exact linesMatch_step e ih hg

/-- With an image loaded `getCropAreas` returns `cellCount` rectangles, the
`k`-th one being the override of `k` if there is one and the computed
rectangle otherwise. -/
theorem getCropAreas_getElem? (s : State) (img : ImageExtent)
    (himg : s.originalImage = some img) :
    ∃ areas, getCropAreas s = some areas ∧ areas.length = cellCount s ∧
      ∀ k, k < cellCount s →
        areas[k]? = some ((s.customAreas k).getD (computedArea img s k)) := by
  by_cases hmode : s.mode = Mode.uniform
  · refine ⟨_, getCropAreas_of_uniform s img hmode himg, ?_, ?_⟩
    · have hl := length_flatMap_map
        (fun row col => match s.customAreas (row * s.cols + col) with
          | some c => c
          | none => uniformCell img s row col)
        (List.range s.rows) (List.range s.cols)
      simpa [cellCount, hmode] using hl
    · intro k hk
      simp only [cellCount, hmode] at hk
      have hc : 0 < s.cols := by
        rcases Nat.eq_zero_or_pos s.cols with h0 | h0
        · rw [h0] at hk; simp at hk
        · exact h0
      have hmod : k % s.cols < s.cols := Nat.mod_lt k hc
      have hdiv : k / s.cols < s.rows := (Nat.div_lt_iff_lt_mul hc).2 hk
      have hk' : k / s.cols * s.cols + k % s.cols = k := Nat.div_add_mod' k s.cols
      have h := getElem?_flatMap_map
        (fun row col => match s.customAreas (row * s.cols + col) with
          | some c => c
          | none => uniformCell img s row col)
        (List.range s.rows) (List.range s.cols) (k / s.cols) (k % s.cols) (by simpa using hmod)
      simp only [List.length_range, hk'] at h
      rw [h]
      simp only [List.getElem?_range, hdiv, hmod, if_true, Option.some_bind, Option.map_some',
        hk', computedArea, hmode]
      cases s.customAreas k <;> rfl
  · refine ⟨_, getCropAreas_of_not_uniform s img hmode himg, ?_, ?_⟩
    · rw [List.length_map, List.enum_length, linePairs_length]
      unfold cellCount
      split
      · contradiction
      · rfl
    · intro k hk
      have hcount : cellCount s = s.centerLinesY.length * s.centerLinesX.length := by
        unfold cellCount
        split
        · contradiction
        · rfl
      rw [hcount] at hk
      have hc : 0 < s.centerLinesX.length := by
        rcases Nat.eq_zero_or_pos s.centerLinesX.length with h0 | h0
        · rw [h0] at hk; simp at hk
        · exact h0
      have hmod : k % s.centerLinesX.length < s.centerLinesX.length := Nat.mod_lt k hc
      have hdiv : k / s.centerLinesX.length < s.centerLinesY.length :=
        (Nat.div_lt_iff_lt_mul hc).2 hk
      have hk' : k / s.centerLinesX.length * s.centerLinesX.length +
          k % s.centerLinesX.length = k := Nat.div_add_mod' k _
      have h := linePairs_getElem? s (k / s.centerLinesX.length) (k % s.centerLinesX.length) hmod
      rw [hk'] at h
      rw [List.getElem?_map, List.getElem?_enum, h]
      have hcomp : computedArea img s k =
          centerLineCell img s (s.centerLinesY.getD (k / s.centerLinesX.length) 0)
            (s.centerLinesX.getD (k % s.centerLinesX.length) 0) := by
        unfold computedArea
        split
        · contradiction
        · rfl
      rw [hcomp]
      simp only [List.getElem?_eq_getElem hdiv, List.getElem?_eq_getElem hmod, Option.some_bind,
        Option.map_some', List.getD_eq_getElem?_getD, Option.getD_some]
      cases s.customAreas k <;> rfl

theorem saveCrop_state (a : Session) (i : Nat) (hidx : a.cropEditor.currentIndex = (i : Int)) :
    (saveCrop a).state =
      { a.state with
        customAreas := Function.update a.state.customAreas i (some a.cropEditor.cropArea) } := by
  unfold saveCrop
  simp only [hidx]
  rw [if_neg (by omega)]
  simp [closeCropEditor]

theorem getCropAreas_uniform2x2 :
    getCropAreas uniform2x2 =
      some [⟨0, 0, 50, 50⟩, ⟨50, 0, 50, 50⟩, ⟨0, 50, 50, 50⟩, ⟨50, 50, 50, 50⟩] := by
  rw [getCropAreas_of_uniform uniform2x2 ⟨100, 100⟩ rfl rfl]
  simp [uniform2x2, initialState, uniformCell, List.range_succ, List.flatMap]
  norm_num

/-! ## Auxiliary lemmas on first hits -/

theorem findIdx?_eq_some_of_first {α : Type} (p : α → Bool) (l : List α) (i : Nat) (a : α)
    (h : l[i]? = some a) (hp : p a = true)
    (hfirst : ∀ j, j < i → ∀ b, l[j]? = some b → p b = false) :
    l.findIdx? p = some i := by
  obtain ⟨hi, ha⟩ := List.getElem?_eq_some.1 h
  rw [List.findIdx?_eq_some_iff_getElem]
  refine ⟨hi, by rw [ha]; exact hp, ?_⟩
  intro j hj
  have := hfirst j hj (l[j]) (List.getElem?_eq_getElem (Nat.lt_trans hj hi))
  simp [this]

theorem findIdx?_eq_none_of_forall {α : Type} (p : α → Bool) (l : List α)
    (h : ∀ a ∈ l, p a = false) : l.findIdx? p = none := by
  rw [List.findIdx?_eq_none_iff]
  exact h

theorem find?_eq_some_of_first {α : Type} (p : α → Bool) (l : List α) (k : Nat) (a : α)
    (h : l[k]? = some a) (hp : p a = true)
    (hfirst : ∀ j, j < k → ∀ b, l[j]? = some b → p b = false) :
    l.find? p = some a := by
  induction l generalizing k with
  | nil => simp at h
  | cons b t ih =>
    cases k with
    | zero =>
      simp only [List.getElem?_cons_zero, Option.some.injEq] at h
      subst h
      exact List.find?_cons_of_pos _ hp
    | succ k =>
      have hb : p b = false := hfirst 0 (Nat.succ_pos k) b (by simp)
      rw [List.find?_cons_of_neg _ (by simp [hb])]
      exact ih k (by simpa using h) fun j hj c hc => hfirst (j + 1) (Nat.succ_lt_succ hj) c
        (by simpa using hc)

/-! ## Auxiliary lemmas on the crop editor -/

theorem onCropMouseMove_dragging (a : Session) (x y : ℚ) (img : ImageExtent)
    (hdrag : a.cropEditor.dragging = true) (himg : a.state.originalImage = some img) :
    onCropMouseMove x y a =
      Except.ok { a with cropEditor := { a.cropEditor with
        lastMouse := (x, y)
        cropArea := (moveArea img a.cropEditor.cropArea
          ((x - a.cropEditor.lastMouse.1) / a.cropEditor.scale)
          ((y - a.cropEditor.lastMouse.2) / a.cropEditor.scale)) } } := by
  unfold onCropMouseMove
  rw [if_neg (by simp [hdrag])]
  simp only [himg, hdrag, if_true]

theorem onCropMouseMove_resizing (a : Session) (x y : ℚ) (img : ImageExtent) (r : Handle)
    (hdrag : a.cropEditor.dragging = false) (hres : a.cropEditor.resizing = some r)
    (himg : a.state.originalImage = some img) :
    onCropMouseMove x y a =
      Except.ok { a with cropEditor := { a.cropEditor with
        lastMouse := (x, y)
        cropArea := (resizeArea img r a.cropEditor.cropArea
          ((x - a.cropEditor.lastMouse.1) / a.cropEditor.scale)
          ((y - a.cropEditor.lastMouse.2) / a.cropEditor.scale)) } } := by
  unfold onCropMouseMove
  rw [if_neg (by simp [hres])]
  simp only [himg, hdrag, hres]
  rfl

/-- Whatever its outcome, `onCropMouseMove` leaves the layout state as it
was. -/
theorem onCropMouseMove_state (a a' : Session) (x y : ℚ)
    (h : onCropMouseMove x y a = Except.ok a' ∨ onCropMouseMove x y a = Except.error a') :
    a'.state = a.state := by
  unfold onCropMouseMove at h
  split at h
  · rcases h with h | h
    · cases h; rfl
    · cases h
  · simp only at h
    split at h
    · rcases h with h | h
      · cases h
      · cases h; rfl
    · split at h
      · rcases h with h | h
        · cases h; rfl
        · cases h
      · split at h
        · rcases h with h | h
          · cases h; rfl
          · cases h
        · rcases h with h | h
          · cases h; rfl
          · cases h

/-! ## Auxiliary lemmas on the automatic cell size -/

theorem jsMin_le_right (m : Option ℚ) (g : ℚ) : jsMin m g ≤ g := by
  cases m with
  | none => exact le_refl g
  | some v => exact min_le_right v g

theorem jsMin_le_left (v g : ℚ) : jsMin (some v) g ≤ v := min_le_left v g

theorem jsMin_eq (m : Option ℚ) (g : ℚ) : jsMin m g = g ∨ m = some (jsMin m g) := by
  cases m with
  | none => exact Or.inl rfl
  | some v =>
    rcases min_choice v g with h | h
    · exact Or.inr (by simp [jsMin, h])
    · exact Or.inl h

/-- The running minimum of the gap loops of `autoCalculateCellSize`. -/
theorem foldl_jsMin_spec (gaps : List ℚ) :
    ∀ init : Option ℚ,
      (gaps.foldl (fun m g => some (jsMin m g)) init = none ↔ gaps = [] ∧ init = none) ∧
      ∀ m, gaps.foldl (fun m g => some (jsMin m g)) init = some m →
        (∀ g ∈ gaps, m ≤ g) ∧ (∀ v, init = some v → m ≤ v) ∧ (m ∈ gaps ∨ init = some m) := by
  induction gaps with
  | nil =>
    intro init
    refine ⟨by simp, ?_⟩
    intro m hm
    simp only [List.foldl_nil] at hm
    exact ⟨fun g hg => (by cases hg), fun v hv => (by rw [hm] at hv; cases hv; exact le_refl _),
      Or.inr hm⟩
  | cons g t ih =>
    intro init
    obtain ⟨hnone, hsome⟩ := ih (some (jsMin init g))
    refine ⟨?_, ?_⟩
    · simp only [List.foldl_cons]
      constructor
      · intro h
        exact absurd (hnone.1 h).2 (by simp)
      · intro h
        exact absurd h.1 (by simp)
    · intro m hm
      simp only [List.foldl_cons] at hm
      obtain ⟨h1, h2, h3⟩ := hsome m hm
      have hle : m ≤ jsMin init g := h2 _ rfl
      refine ⟨?_, ?_, ?_⟩
      · intro g' hg'
        rcases List.mem_cons.1 hg' with rfl | hg'
        · exact le_trans hle (jsMin_le_right init _)
        · exact h1 g' hg'
      · intro v hv
        subst hv
        exact le_trans hle (jsMin_le_left v g)
      · rcases h3 with h3 | h3
        · exact Or.inl (List.mem_cons_of_mem g h3)
        · have h3' : jsMin init g = m := by simpa using h3
          rcases jsMin_eq init g with h4 | h4
          · exact Or.inl (by rw [← h3', h4]; exact List.mem_cons_self g t)
          · exact Or.inr (by rw [h4, h3'])

theorem gaps_getElem? (lines : List ℚ) (i : Nat) :
    (List.zipWith (fun a b => b - a) lines lines.tail)[i]? =
      match lines[i]?, lines[i + 1]? with
      | some a, some b => some (b - a)
      | _, _ => none := by
  rw [List.getElem?_zipWith, List.getElem?_tail]
  cases lines[i]? <;> cases lines[i + 1]? <;> rfl

/-- With at least one line, the minimum distance of `autoCalculateCellSize` on
an axis is finite and is the minimum of the gaps and the doubled edge
distances. -/
theorem axisMinDist_spec (lines : List ℚ) (extent : ℚ) (hne : lines ≠ []) :
    ∃ m, axisMinDist lines extent = some m ∧ IsMinGap lines extent m := by
  obtain ⟨first, hfirst⟩ : ∃ a, lines.head? = some a := by
    cases lines with
    | nil => exact absurd rfl hne
    | cons a t => exact ⟨a, rfl⟩
  obtain ⟨last, hlast⟩ : ∃ b, lines.getLast? = some b := by
    cases h : lines.getLast? with
    | none => exact absurd (List.getLast?_eq_none_iff.1 h) hne
    | some b => exact ⟨b, rfl⟩
  obtain ⟨hnone, hsome⟩ := foldl_jsMin_spec (List.zipWith (fun a b => b - a) lines lines.tail) none
  have hdef : axisMinDist lines extent =
      some (jsMin (some (jsMin
        ((List.zipWith (fun a b => b - a) lines lines.tail).foldl
          (fun m g => some (jsMin m g)) none) (first * 2))) ((extent - last) * 2)) := by
    unfold axisMinDist
    simp only [hfirst, hlast]
  refine ⟨_, hdef, ?_, ?_, ?_, ?_⟩
  · intro i a b ha hb
    have hgap : (List.zipWith (fun a b => b - a) lines lines.tail)[i]? = some (b - a) := by
      rw [gaps_getElem?, ha, hb]
    have hmem : b - a ∈ List.zipWith (fun a b => b - a) lines lines.tail :=
      List.mem_iff_getElem?.2 ⟨i, hgap⟩
    cases hM : (List.zipWith (fun a b => b - a) lines lines.tail).foldl
        (fun m g => some (jsMin m g)) none with
    | none =>
      have := (hnone.1 hM).1
      rw [this] at hmem
      cases hmem
    | some mm =>
      have hmm := (hsome mm hM).1 (b - a) hmem
      exact le_trans (jsMin_le_left _ _) (le_trans (jsMin_le_left _ _) hmm)
  · intro a ha
    rw [hfirst] at ha
    cases ha
    calc jsMin (some (jsMin _ (first * 2))) ((extent - last) * 2)
        ≤ jsMin _ (first * 2) := jsMin_le_left _ _
      _ ≤ first * 2 := jsMin_le_right _ _
      _ = 2 * first := mul_comm _ _
  · intro b hb
    rw [hlast] at hb
    cases hb
    calc jsMin (some (jsMin _ (first * 2))) ((extent - last) * 2)
        ≤ (extent - last) * 2 := jsMin_le_right _ _
      _ = 2 * (extent - last) := mul_comm _ _
  · rcases jsMin_eq (some (jsMin
        ((List.zipWith (fun a b => b - a) lines lines.tail).foldl
          (fun m g => some (jsMin m g)) none) (first * 2))) ((extent - last) * 2) with h | h
    · exact Or.inr (Or.inr ⟨last, hlast, by rw [h, mul_comm]⟩)
    · have h' : jsMin ((List.zipWith (fun a b => b - a) lines lines.tail).foldl
          (fun m g => some (jsMin m g)) none) (first * 2) =
          jsMin (some (jsMin
            ((List.zipWith (fun a b => b - a) lines lines.tail).foldl
              (fun m g => some (jsMin m g)) none) (first * 2))) ((extent - last) * 2) := by
        simpa using h
      rw [← h']
      rcases jsMin_eq ((List.zipWith (fun a b => b - a) lines lines.tail).foldl
          (fun m g => some (jsMin m g)) none) (first * 2) with h2 | h2
      · exact Or.inr (Or.inl ⟨first, hfirst, by rw [h2, mul_comm]⟩)
      · obtain ⟨_, _, h3⟩ := hsome _ h2
        rcases h3 with h3 | h3
        · obtain ⟨i, hi⟩ := List.mem_iff_getElem?.1 h3
          rw [gaps_getElem?] at hi
          left
          cases ha : lines[i]? with
          | none => rw [ha] at hi; simp at hi
          | some a =>
            cases hb : lines[i + 1]? with
            | none => rw [ha, hb] at hi; simp at hi
            | some b =>
              rw [ha, hb] at hi
              simp only [Option.some.injEq] at hi
              exact ⟨i, a, b, ha, hb, hi.symm⟩
        · cases h3

/-- The state `autoCalculateCellSize` returns when an image is loaded and
there is a line on the X axis. -/
theorem autoCalculateCellSize_of_lines (s : State) (img : ImageExtent)
    (himg : s.originalImage = some img) (hx : s.centerLinesX ≠ []) :
    autoCalculateCellSize s =
      { s with
        cellWidth :=
          match axisMinDist s.centerLinesX (img.width : ℚ) with
          | some d => ((⌊d * 0.95⌋ : Int) : ℚ)
          | none => s.cellWidth
        cellHeight :=
          match axisMinDist s.centerLinesY (img.height : ℚ) with
          | some d => ((⌊d * 0.95⌋ : Int) : ℚ)
          | none => s.cellHeight } := by
  unfold autoCalculateCellSize
  split
  · next h => rw [himg] at h; cases h
  · next img' h =>
    rw [himg] at h
    cases h
    rw [if_neg (by simpa using hx)]

/-! ## Auxiliary lemmas on the uniform hit test -/

/-- A point lies in the half-open cell number `c` of width `cw` exactly when
`c` is the integer part of its quotient by `cw`. -/
theorem cell_contains_iff (cw p : ℚ) (hcw : 0 < cw) (c : Nat) :
    ((c : ℚ) * cw ≤ p ∧ p < (c : ℚ) * cw + cw) ↔ ⌊p / cw⌋ = (c : Int) := by
  rw [Int.floor_eq_iff]
  have h1 : (((c : Int) : ℚ) ≤ p / cw) ↔ (c : ℚ) * cw ≤ p := by
    rw [le_div_iff₀ hcw]
    simp
  have h2 : (p / cw < ((c : Int) : ℚ) + 1) ↔ p < (c : ℚ) * cw + cw := by
    rw [div_lt_iff₀ hcw]
    have : (((c : Int) : ℚ) + 1) * cw = (c : ℚ) * cw + cw := by
      push_cast
      ring
    rw [this]
  rw [h1, h2]

/-- The rectangles the geometry model computes in uniform mode, by index. -/
theorem computed_uniform_areas (s : State) (img : ImageExtent)
    (hmode : s.mode = Mode.uniform) (himg : s.originalImage = some img) :
    ∃ areas, getCropAreas { s with customAreas := fun _ => none } = some areas ∧
      areas.length = s.rows * s.cols ∧
      ∀ k, k < s.rows * s.cols →
        areas[k]? = some (uniformCell img s (k / s.cols) (k % s.cols)) := by
  obtain ⟨areas, h1, h2, h3⟩ :=
    getCropAreas_getElem? { s with customAreas := fun _ => none } img himg
  have hcount : cellCount { s with customAreas := fun _ => none } = s.rows * s.cols := by
    simp only [cellCount, hmode]
  rw [hcount] at h2 h3
  refine ⟨areas, h1, h2, ?_⟩
  intro k hk
  rw [h3 k hk]
  simp only [computedArea, hmode, Option.getD_none]
  rfl

/-! ## Auxiliary lemmas: the crop-editor invariant -/

theorem areaValid_moveArea (img : ImageExtent) (area : CropArea) (dx dy : ℚ)
    (h : AreaValid img area) : AreaValid img (moveArea img area dx dy) := by
  obtain ⟨hx, hy, hxw, hyh, hw, hh⟩ := h
  have hmx : max 0 (min ((img.width : ℚ) - area.width) (area.x + dx)) ≤
      (img.width : ℚ) - area.width := max_le (by linarith) (min_le_left _ _)
  have hmy : max 0 (min ((img.height : ℚ) - area.height) (area.y + dy)) ≤
      (img.height : ℚ) - area.height := max_le (by linarith) (min_le_left _ _)
  refine ⟨le_max_left _ _, le_max_left _ _, ?_, ?_, hw, hh⟩
  · simp only [moveArea]
    linarith
  · simp only [moveArea]
    linarith

theorem areaValid_resizeArea (img : ImageExtent) (r : Handle) (area : CropArea) (dx dy : ℚ)
    (h : AreaValid img area) : AreaValid img (resizeArea img r area dx dy) := by
  obtain ⟨hx, hy, hxw, hyh, hw, hh⟩ := h
  have hw1 : 0 ≤ max 0 (min (area.x + area.width - 20) (area.x + dx)) := le_max_left _ _
  have hw2 : max 0 (min (area.x + area.width - 20) (area.x + dx)) ≤ area.x + area.width - 20 :=
    max_le (by linarith) (min_le_left _ _)
  have hn1 : 0 ≤ max 0 (min (area.y + area.height - 20) (area.y + dy)) := le_max_left _ _
  have hn2 : max 0 (min (area.y + area.height - 20) (area.y + dy)) ≤
      area.y + area.height - 20 := max_le (by linarith) (min_le_left _ _)
  have he1 : 20 ≤ max 20 (min ((img.width : ℚ) - area.x) (area.width + dx)) := le_max_left _ _
  have he2 : max 20 (min ((img.width : ℚ) - area.x) (area.width + dx)) ≤
      (img.width : ℚ) - area.x := max_le (by linarith) (min_le_left _ _)
  have hs1 : 20 ≤ max 20 (min ((img.height : ℚ) - area.y) (area.height + dy)) :=
    le_max_left _ _
  have hs2 : max 20 (min ((img.height : ℚ) - area.y) (area.height + dy)) ≤
      (img.height : ℚ) - area.y := max_le (by linarith) (min_le_left _ _)
  unfold AreaValid
  cases r <;>
    simp only [resizeArea, Handle.includesW, Handle.includesE, Handle.includesN,
      Handle.includesS, if_true, if_false, Bool.false_eq_true] <;>
    refine ⟨?_, ?_, ?_, ?_, ?_, ?_⟩ <;> linarith

theorem areaValid_resizeArea_bounds (img : ImageExtent) (r : Handle) (area : CropArea)
    (dx dy : ℚ) (hx : 0 ≤ area.x) (hy : 0 ≤ area.y)
    (hxw : area.x + area.width ≤ (img.width : ℚ))
    (hyh : area.y + area.height ≤ (img.height : ℚ))
    (hw : 20 ≤ area.width) (hh : 20 ≤ area.height) :
    20 ≤ (resizeArea img r area dx dy).width ∧
      20 ≤ (resizeArea img r area dx dy).height ∧
      0 ≤ (resizeArea img r area dx dy).x ∧
      0 ≤ (resizeArea img r area dx dy).y ∧
      (resizeArea img r area dx dy).x + (resizeArea img r area dx dy).width ≤
        (img.width : ℚ) ∧
      (resizeArea img r area dx dy).y + (resizeArea img r area dx dy).height ≤
        (img.height : ℚ) := by
  obtain ⟨h1, h2, h3, h4, h5, h6⟩ :=
    areaValid_resizeArea img r area dx dy ⟨hx, hy, hxw, hyh, hw, hh⟩
  exact ⟨h5, h6, h1, h2, h3, h4⟩

theorem areaValid_center (img : ImageExtent) (area : CropArea) (h : AreaValid img area) :
    AreaValid img
      { area with
        x := ((img.width : ℚ) - area.width) / 2, y := ((img.height : ℚ) - area.height) / 2 } := by
  obtain ⟨hx, hy, hxw, hyh, hw, hh⟩ := h
  refine ⟨?_, ?_, ?_, ?_, hw, hh⟩
  · show 0 ≤ ((img.width : ℚ) - area.width) / 2
    linarith
  · show 0 ≤ ((img.height : ℚ) - area.height) / 2
    linarith
  · show ((img.width : ℚ) - area.width) / 2 + area.width ≤ (img.width : ℚ)
    linarith
  · show ((img.height : ℚ) - area.height) / 2 + area.height ≤ (img.height : ℚ)
    linarith

theorem centerCrop_eq (a : Session) (img : ImageExtent)
    (himg : a.state.originalImage = some img) :
    centerCrop a =
      Except.ok
        { a with cropEditor :=
            { a.cropEditor with
              cropArea :=
                { a.cropEditor.cropArea with
                  x := ((img.width : ℚ) - a.cropEditor.cropArea.width) / 2
                  y := ((img.height : ℚ) - a.cropEditor.cropArea.height) / 2 } } } := by
  unfold centerCrop
  simp only [himg]

theorem onCropMouseMove_valid (img : ImageExtent) (a : Session) (x y : ℚ)
    (h : CropSessionValid img a) :
    ∃ a', onCropMouseMove x y a = Except.ok a' ∧ CropSessionValid img a' ∧
      a'.state = a.state ∧ a'.cropEditor.currentIndex = a.cropEditor.currentIndex := by
  obtain ⟨himg, horig, hwork⟩ := h
  by_cases hdrag : a.cropEditor.dragging = true
  · exact ⟨_, onCropMouseMove_dragging a x y img hdrag himg,
      ⟨himg, horig, areaValid_moveArea img _ _ _ hwork⟩, rfl, rfl⟩
  · have hdrag' : a.cropEditor.dragging = false := by simpa using hdrag
    cases hres : a.cropEditor.resizing with
    | none =>
      refine ⟨a, ?_, ⟨himg, horig, hwork⟩, rfl, rfl⟩
      unfold onCropMouseMove
      rw [if_pos ⟨hdrag', hres⟩]
    | some r =>
      exact ⟨_, onCropMouseMove_resizing a x y img r hdrag' hres himg,
        ⟨himg, horig, areaValid_resizeArea img r _ _ _ hwork⟩, rfl, rfl⟩

theorem onCropMouseDown_keeps (x y : ℚ) (a : Session) :
    (onCropMouseDown x y a).state = a.state ∧
      (onCropMouseDown x y a).cropEditor.originalArea = a.cropEditor.originalArea ∧
      (onCropMouseDown x y a).cropEditor.cropArea = a.cropEditor.cropArea ∧
      (onCropMouseDown x y a).cropEditor.currentIndex = a.cropEditor.currentIndex := by
  unfold onCropMouseDown
  split <;> exact ⟨rfl, rfl, rfl, rfl⟩

theorem cropStep_valid (img : ImageExtent) (a : Session) (e : CropEvent)
    (h : CropSessionValid img a) :
    CropSessionValid img (cropStep a e) ∧ (cropStep a e).state = a.state ∧
      (cropStep a e).cropEditor.currentIndex = a.cropEditor.currentIndex := by
  cases e with
  | mouseDown x y =>
    obtain ⟨h1, h2, h3, h4⟩ := onCropMouseDown_keeps x y a
    refine ⟨?_, h1, h4⟩
    show CropSessionValid img (onCropMouseDown x y a)
    unfold CropSessionValid
    rw [h1, h2, h3]
    exact h
  | mouseMove x y =>
    obtain ⟨a', h1, h2, h3, h4⟩ := onCropMouseMove_valid img a x y h
    simp only [cropStep, h1]
    exact ⟨h2, h3, h4⟩
  | mouseUp =>
    obtain ⟨himg, horig, hwork⟩ := h
    exact ⟨⟨himg, horig, hwork⟩, rfl, rfl⟩
  | reset =>
    obtain ⟨himg, horig, hwork⟩ := h
    exact ⟨⟨himg, horig, horig⟩, rfl, rfl⟩
  | center =>
    obtain ⟨himg, horig, hwork⟩ := h
    simp only [cropStep, centerCrop_eq a img himg]
    exact ⟨⟨himg, horig, areaValid_center img _ hwork⟩, trivial, trivial⟩

theorem cropSteps_valid (img : ImageExtent) (events : List CropEvent) (a : Session)
    (h : CropSessionValid img a) :
    CropSessionValid img (events.foldl cropStep a) ∧
      (events.foldl cropStep a).state = a.state ∧
      (events.foldl cropStep a).cropEditor.currentIndex = a.cropEditor.currentIndex := by
  induction events generalizing a with
  | nil => exact ⟨h, rfl, rfl⟩
  | cons e rest ih =>
    obtain ⟨h1, h2, h3⟩ := cropStep_valid img a e h
    obtain ⟨k1, k2, k3⟩ := ih (cropStep a e) h1
    exact ⟨k1, k2.trans h2, k3.trans h3⟩

/-! ## Auxiliary lemmas: pointer events of the main canvas -/

theorem initializeCenterLines_of_image (s : State) (img : ImageExtent)
    (himg : s.originalImage = some img) :
    ∃ cw ch, initializeCenterLines s =
      { s with
        centerLinesX :=
          (List.range s.cols).map fun (i : Nat) =>
            ((i : ℚ) + 0.5) * (img.width : ℚ) / (s.cols : ℚ)
        centerLinesY :=
          (List.range s.rows).map fun (i : Nat) =>
            ((i : ℚ) + 0.5) * (img.height : ℚ) / (s.rows : ℚ)
        cellWidth := cw, cellHeight := ch } := by
  unfold initializeCenterLines
  simp only [himg]
  exact autoCalculateCellSize_eq _

theorem displayImage_of_image (clientWidth : ℚ) (s : State) (img : ImageExtent)
    (himg : s.originalImage = some img) :
    displayImage clientWidth s =
      { s with
        scale := min (min ((clientWidth - 40) / (img.width : ℚ)) (600 / (img.height : ℚ))) 1
        canvasWidth :=
          ((⌊(img.width : ℚ) *
            min (min ((clientWidth - 40) / (img.width : ℚ)) (600 / (img.height : ℚ))) 1⌋ : Int) : ℚ)
        canvasHeight :=
          ((⌊(img.height : ℚ) *
            min (min ((clientWidth - 40) / (img.width : ℚ)) (600 / (img.height : ℚ))) 1⌋ : Int) : ℚ) } := by
  unfold displayImage
  simp only [himg]

theorem modeButtonClick_of_image (m : Mode) (s : State) (img : ImageExtent)
    (himg : s.originalImage = some img) :
    modeButtonClick m s = initializeCenterLines { s with mode := m } := by
  unfold modeButtonClick
  simp only [himg]

theorem loadedCenterline_fields :
    loadedCenterline.state.originalImage = some ⟨100, 100⟩ ∧
    loadedCenterline.state.mode = Mode.centerline ∧
    loadedCenterline.state.centerLinesX = [25 / 2, 75 / 2, 125 / 2, 175 / 2] ∧
    loadedCenterline.state.scale = 1 ∧
    loadedCenterline.state.dragging = none ∧
    loadedCenterline.state.hovered = none ∧
    loadedCenterline.lastMoveTime = 0 ∧
    loadedCenterline.currentHovered = none := by
  obtain ⟨cw, ch, h1⟩ := initializeCenterLines_of_image
    { initialState with originalImage := some ⟨100, 100⟩, disabledCells := ∅ } ⟨100, 100⟩ rfl
  have h2 : (step (Event.imageLoaded ⟨100, 100⟩ 840) initialSession).state =
      displayImage 840
        (initializeCenterLines
          { initialState with originalImage := some ⟨100, 100⟩, disabledCells := ∅ }) := rfl
  rw [h1, displayImage_of_image 840 _ ⟨100, 100⟩ rfl] at h2
  have h3 : loadedCenterline.state =
      modeButtonClick Mode.centerline
        (step (Event.imageLoaded ⟨100, 100⟩ 840) initialSession).state := rfl
  rw [h2, modeButtonClick_of_image Mode.centerline _ ⟨100, 100⟩ rfl] at h3
  obtain ⟨cw', ch', h4⟩ := initializeCenterLines_of_image
    { ({ ({ ({ initialState with
              originalImage := some ⟨100, 100⟩, disabledCells := ∅ } : State) with
            centerLinesX :=
              (List.range initialState.cols).map fun (i : Nat) =>
                ((i : ℚ) + 0.5) * ((100 : Nat) : ℚ) / (initialState.cols : ℚ)
            centerLinesY :=
              (List.range initialState.rows).map fun (i : Nat) =>
                ((i : ℚ) + 0.5) * ((100 : Nat) : ℚ) / (initialState.rows : ℚ)
            cellWidth := cw, cellHeight := ch } : State) with
          scale := min (min ((840 - 40) / ((100 : Nat) : ℚ)) (600 / ((100 : Nat) : ℚ))) 1
          canvasWidth :=
            ((⌊((100 : Nat) : ℚ) *
              min (min ((840 - 40) / ((100 : Nat) : ℚ)) (600 / ((100 : Nat) : ℚ))) 1⌋ : Int) : ℚ)
          canvasHeight :=
            ((⌊((100 : Nat) : ℚ) *
              min (min ((840 - 40) / ((100 : Nat) : ℚ)) (600 / ((100 : Nat) : ℚ))) 1⌋ : Int) : ℚ) } :
        State) with mode := Mode.centerline } ⟨100, 100⟩ rfl
  rw [h4] at h3
  rw [h3]
  refine ⟨rfl, rfl, ?_, ?_, rfl, rfl, rfl, rfl⟩
  · simp [initialState, List.range_succ]
    norm_num
  · simp
    norm_num

theorem findLineAtPosition_of_x (s : State) (x y : ℚ) (i : Nat)
    (hmode : s.mode = Mode.centerline)
    (h : (s.centerLinesX.findIdx? fun c => decide (|x - c * s.scale| < 15)) = some i) :
    findLineAtPosition s x y = some { type := Axis.x, index := i } := by
  unfold findLineAtPosition
  rw [if_neg (by simp [hmode])]
  simp only [h]

theorem mouseMove_hover (now x y : ℚ) (a : Session) (img : ImageExtent)
    (hnow : ¬ now - a.lastMoveTime < 16) (himg : a.state.originalImage = some img)
    (hdrag : a.state.dragging = none) (hmode : a.state.mode = Mode.centerline)
    (hne : findLineAtPosition a.state x y ≠ a.currentHovered) :
    mouseMove now x y a =
      { a with
        lastMoveTime := now, currentHovered := findLineAtPosition a.state x y
        state := { a.state with hovered := findLineAtPosition a.state x y } } := by
  unfold mouseMove
  rw [if_neg hnow]
  simp only [himg, hdrag]
  rw [if_neg (by simp [hmode]), if_pos hne]

theorem mouseDown_on_line (x y : ℚ) (a : Session) (img : ImageExtent) (line : Line)
    (himg : a.state.originalImage = some img) (hmode : a.state.mode = Mode.centerline)
    (hline : findLineAtPosition a.state x y = some line) :
    mouseDown x y a =
      { a with state := { a.state with dragging := some line }, isDragging := true } := by
  unfold mouseDown
  simp only [himg, hmode, hline, if_true]

theorem reachable_loadedCenterline : Reachable loadedCenterline :=
  Reachable.step _ _ (Reachable.step _ _ (Reachable.start initialSession rfl rfl)
    (fun _ => rfl)) (fun _ => rfl)

theorem hoveringLine_eq :
    hoveringLine =
      { loadedCenterline with
        lastMoveTime := 100, currentHovered := some { type := Axis.x, index := 1 }
        state :=
          { loadedCenterline.state with hovered := some { type := Axis.x, index := 1 } } } ∧
    findLineAtPosition hoveringLine.state 40 20 = some { type := Axis.x, index := 1 } := by
  obtain ⟨himg, hmode, hlines, hscale, hdrag, -, htime, hcur⟩ := loadedCenterline_fields
  have hfind : findLineAtPosition loadedCenterline.state 40 20 =
      some { type := Axis.x, index := 1 } := by
    apply findLineAtPosition_of_x _ _ _ _ hmode
    rw [hlines, hscale]
    simp [List.findIdx?_cons]
    norm_num [abs_lt]
  have hmove : hoveringLine = mouseMove 100 40 20 loadedCenterline := rfl
  rw [hmove, mouseMove_hover 100 40 20 loadedCenterline ⟨100, 100⟩
    (by rw [htime]; norm_num) himg hdrag hmode (by rw [hfind, hcur]; simp), hfind]
  refine ⟨rfl, ?_⟩
  apply findLineAtPosition_of_x _ _ _ _ hmode
  show (loadedCenterline.state.centerLinesX.findIdx?
    fun c => decide (|40 - c * loadedCenterline.state.scale| < 15)) = some 1
  rw [hlines, hscale]
  simp [List.findIdx?_cons]
  norm_num [abs_lt]

theorem mouseMove_keeps (now x y : ℚ) (a : Session) :
    (mouseMove now x y a).isDragging = a.isDragging ∧
    (mouseMove now x y a).state.disabledCells = a.state.disabledCells ∧
    (mouseMove now x y a).state.originalImage = a.state.originalImage ∧
    (mouseMove now x y a).state.mode = a.state.mode := by
  unfold mouseMove
  split
  · exact ⟨rfl, rfl, rfl, rfl⟩
  · simp only
    split
    · exact ⟨rfl, rfl, rfl, rfl⟩
    · split
      · split <;> exact ⟨rfl, rfl, rfl, rfl⟩
      · split
        · exact ⟨rfl, rfl, rfl, rfl⟩
        · split <;> exact ⟨rfl, rfl, rfl, rfl⟩

theorem mouseMoves_keeps (moves : List (ℚ × ℚ × ℚ)) (a : Session) :
    (mouseMoves moves a).isDragging = a.isDragging ∧
    (mouseMoves moves a).state.disabledCells = a.state.disabledCells ∧
    (mouseMoves moves a).state.originalImage = a.state.originalImage ∧
    (mouseMoves moves a).state.mode = a.state.mode := by
  induction moves generalizing a with
  | nil => exact ⟨rfl, rfl, rfl, rfl⟩
  | cons m rest ih =>
    obtain ⟨h1, h2, h3, h4⟩ := mouseMove_keeps m.1 m.2.1 m.2.2 a
    obtain ⟨k1, k2, k3, k4⟩ := ih (mouseMove m.1 m.2.1 m.2.2 a)
    exact ⟨k1.trans h1, k2.trans h2, k3.trans h3, k4.trans h4⟩

theorem mouseUp_keeps (a : Session) :
    (mouseUp a).isDragging = a.isDragging ∧
    (mouseUp a).state.disabledCells = a.state.disabledCells ∧
    (mouseUp a).state.originalImage = a.state.originalImage ∧
    (mouseUp a).state.mode = a.state.mode := by
  unfold mouseUp
  split <;> exact ⟨rfl, rfl, rfl, rfl⟩

theorem mouseDown_off_line (x y : ℚ) (a : Session)
    (hline : findLineAtPosition a.state x y = none) : mouseDown x y a = a := by
  unfold mouseDown
  split
  · rfl
  · split
    · simp only [hline]
    · rfl

theorem dragGesture_keeps (x y : ℚ) (moves : List (ℚ × ℚ × ℚ)) (a : Session) :
    (dragGesture x y moves a).isDragging = (mouseDown x y a).isDragging ∧
    (dragGesture x y moves a).state.disabledCells = (mouseDown x y a).state.disabledCells ∧
    (dragGesture x y moves a).state.originalImage = (mouseDown x y a).state.originalImage ∧
    (dragGesture x y moves a).state.mode = (mouseDown x y a).state.mode := by
  obtain ⟨h1, h2, h3, h4⟩ := mouseUp_keeps (mouseMoves moves (mouseDown x y a))
  obtain ⟨k1, k2, k3, k4⟩ := mouseMoves_keeps moves (mouseDown x y a)
  exact ⟨h1.trans k1, h2.trans k2, h3.trans k3, h4.trans k4⟩

theorem click_off_line (x y : ℚ) (a : Session) (img : ImageExtent)
    (hflag : a.isDragging = false) (himg : a.state.originalImage = some img)
    (hline : findLineAtPosition a.state x y = none) :
    (click x y a).state.disabledCells =
      if 0 ≤ findCellAtPosition a.state x y then
        toggleDisabled a.state.disabledCells (findCellAtPosition a.state x y).toNat
      else a.state.disabledCells := by
  unfold click
  rw [if_neg (by simp [hflag])]
  simp only [himg, hline]
  rw [if_neg (by simp)]
  simp only [ge_iff_le]
  split <;> rfl

theorem idleLines_line :
    findLineAtPosition idleLines.state 25 50 = some { type := Axis.x, index := 0 } := by
  apply findLineAtPosition_of_x _ _ _ _ rfl
  simp [idleLines, initialState, List.findIdx?_cons]

theorem afterDragClick_off_line :
    findLineAtPosition afterDragClick.state 50 10 = none := by
  have hdown := mouseDown_on_line 25 50 idleLines ⟨100, 100⟩ _ rfl rfl idleLines_line
  have h : afterDragClick.state.mode = Mode.centerline ∧
      afterDragClick.state.centerLinesX = [30, 75] ∧
      afterDragClick.state.centerLinesY = [50] ∧ afterDragClick.state.scale = 1 := by
    simp only [afterDragClick, afterDrag, dragGesture, mouseMoves, List.foldl, hdown]
    simp [mouseMove, mouseUp, click, idleLines, initialSession, initialState, jsArrayWrite]
    norm_num
  obtain ⟨h1, h2, h3, h4⟩ := h
  unfold findLineAtPosition
  rw [if_neg (by simp [h1]), h2, h3, h4]
  simp [List.findIdx?_cons]
  norm_num [abs_lt]

theorem afterDragClick_cell : findCellAtPosition afterDragClick.state 50 10 = 0 := by
  have hdown := mouseDown_on_line 25 50 idleLines ⟨100, 100⟩ _ rfl rfl idleLines_line
  have h : afterDragClick.state =
      { idleLines.state with centerLinesX := [30, 75] } := by
    simp only [afterDragClick, afterDrag, dragGesture, mouseMoves, List.foldl, hdown]
    simp [mouseMove, mouseUp, click, idleLines, initialSession, initialState, jsArrayWrite]
    norm_num
  rw [h]
  simp [findCellAtPosition, idleLines, initialState, linePairs, List.findIdx?_cons]
  norm_num

/-! ## Auxiliary lemmas: the uniform tiling -/

theorem uniform_areas_getElem? (s : State) (img : ImageExtent)
    (hmode : s.mode = Mode.uniform) (himg : s.originalImage = some img)
    (hnone : ∀ k, s.customAreas k = none) :
    ∃ areas, getCropAreas s = some areas ∧ areas.length = s.rows * s.cols ∧
      (∀ k, k < s.rows * s.cols →
        areas[k]? = some (uniformCell img s (k / s.cols) (k % s.cols))) ∧
      ∀ row col, row < s.rows → col < s.cols →
        areas[row * s.cols + col]? = some (uniformCell img s row col) := by
  obtain ⟨areas, h1, h2, h3⟩ := getCropAreas_getElem? s img himg
  have hcount : cellCount s = s.rows * s.cols := by simp only [cellCount, hmode]
  rw [hcount] at h2 h3
  have hk : ∀ k, k < s.rows * s.cols →
      areas[k]? = some (uniformCell img s (k / s.cols) (k % s.cols)) := by
    intro k hk
    rw [h3 k hk, hnone k]
    simp only [computedArea, hmode, Option.getD_none]
  refine ⟨areas, h1, h2, hk, ?_⟩
  intro row col hrow hcol
  have hlt : row * s.cols + col < s.rows * s.cols := by
    calc row * s.cols + col < row * s.cols + s.cols := by omega
      _ = (row + 1) * s.cols := by ring
      _ ≤ s.rows * s.cols := Nat.mul_le_mul_right _ hrow
  rw [hk _ hlt]
  have hdiv : (row * s.cols + col) / s.cols = row := by
    rw [Nat.add_comm, Nat.add_mul_div_right _ _ (by omega), Nat.div_eq_of_lt hcol, Nat.zero_add]
  have hmod : (row * s.cols + col) % s.cols = col := by
    rw [Nat.add_comm, Nat.add_mul_mod_self_right, Nat.mod_eq_of_lt hcol]
  rw [hdiv, hmod]

theorem sum_map_eq_of_const {α : Type} (l : List α) (f : α → ℚ) (c : ℚ)
    (h : ∀ a ∈ l, f a = c) : (l.map f).sum = (l.length : ℚ) * c := by
  induction l with
  | nil => simp
  | cons a t ih =>
    rw [List.map_cons, List.sum_cons, h a (List.mem_cons_self _ _),
      ih (fun b hb => h b (List.mem_cons_of_mem _ hb)), List.length_cons]
    push_cast
    ring

theorem floor_div_lt_count (extent p : ℚ) (n : Nat) (hn : 0 < n) (h0 : 0 ≤ p)
    (hlt : p < extent) :
    0 < extent / (n : ℚ) ∧
      ((⌊p / (extent / (n : ℚ))⌋.toNat : Nat) : Int) = ⌊p / (extent / (n : ℚ))⌋ ∧
      ⌊p / (extent / (n : ℚ))⌋.toNat < n := by
  have hn' : (0 : ℚ) < (n : ℚ) := by exact_mod_cast hn
  have hext : 0 < extent := lt_of_le_of_lt h0 hlt
  have hcw : 0 < extent / (n : ℚ) := div_pos hext hn'
  have hnonneg : 0 ≤ ⌊p / (extent / (n : ℚ))⌋ := Int.floor_nonneg.2 (div_nonneg h0 hcw.le)
  have hlt' : p / (extent / (n : ℚ)) < (n : ℚ) := by
    rw [div_lt_iff₀ hcw]
    have : (n : ℚ) * (extent / (n : ℚ)) = extent := by field_simp
    rw [this]
    exact hlt
  have hfl : ⌊p / (extent / (n : ℚ))⌋ < (n : Int) := by
    rw [Int.floor_lt]
    exact_mod_cast hlt'
  refine ⟨hcw, Int.toNat_of_nonneg hnonneg, ?_⟩
  omega

/-! ## Auxiliary lemmas: cells of the automatic size -/

theorem axis_cells_fit (lines : List ℚ) (extent : ℚ) (hne : lines ≠ [])
    (hinc : lines.Pairwise fun a b => a < b)
    (hin : ∀ c ∈ lines, 0 < c ∧ c < extent) :
    ∃ m, axisMinDist lines extent = some m ∧ 0 < m ∧
      (0 : ℚ) ≤ ((⌊m * 0.95⌋ : Int) : ℚ) ∧ ((⌊m * 0.95⌋ : Int) : ℚ) ≤ m ∧
      (∀ c ∈ lines, 0 ≤ c - ((⌊m * 0.95⌋ : Int) : ℚ) / 2 ∧
        c + ((⌊m * 0.95⌋ : Int) : ℚ) / 2 ≤ extent) ∧
      ∀ (i : Nat) (a b : ℚ), lines[i]? = some a → lines[i + 1]? = some b →
        a + ((⌊m * 0.95⌋ : Int) : ℚ) / 2 ≤ b - ((⌊m * 0.95⌋ : Int) : ℚ) / 2 := by
  obtain ⟨m, hm, hgap, hfirst, hlast, hattained⟩ := axisMinDist_spec lines extent hne
  have hidx : ∀ (i j : Nat) (a b : ℚ), i < j → lines[i]? = some a → lines[j]? = some b →
      a < b := by
    intro i j a b hij ha hb
    obtain ⟨hi, rfl⟩ := List.getElem?_eq_some_iff.1 ha
    obtain ⟨hj, rfl⟩ := List.getElem?_eq_some_iff.1 hb
    exact List.pairwise_iff_getElem.1 hinc i j hi hj hij
  have hmem : ∀ (i : Nat) (a : ℚ), lines[i]? = some a → a ∈ lines := fun i a ha =>
    List.mem_iff_getElem?.2 ⟨i, ha⟩
  have hpos : 0 < m := by
    rcases hattained with ⟨i, a, b, ha, hb, rfl⟩ | ⟨a, ha, rfl⟩ | ⟨b, hb, rfl⟩
    · have := hidx i (i + 1) a b (by omega) ha hb
      linarith
    · have := (hin a (List.mem_of_mem_head? ha)).1
      linarith
    · have := (hin b (List.mem_of_mem_getLast? hb)).2
      linarith
  have hfl : ((⌊m * 0.95⌋ : Int) : ℚ) ≤ m * 0.95 := Int.floor_le _
  have hnonneg : (0 : ℚ) ≤ ((⌊m * 0.95⌋ : Int) : ℚ) := by
    have : 0 ≤ ⌊m * 0.95⌋ := Int.floor_nonneg.2 (by positivity)
    exact_mod_cast this
  have hle : ((⌊m * 0.95⌋ : Int) : ℚ) ≤ m := by
    have : m * 0.95 ≤ m := by
      norm_num
      linarith
    linarith
  obtain ⟨first, hf⟩ : ∃ a, lines.head? = some a := by
    cases lines with
    | nil => exact absurd rfl hne
    | cons a t => exact ⟨a, rfl⟩
  obtain ⟨last, hl⟩ : ∃ b, lines.getLast? = some b := by
    cases h : lines.getLast? with
    | none => exact absurd (List.getLast?_eq_none_iff.1 h) hne
    | some b => exact ⟨b, rfl⟩
  have hf0 : lines[0]? = some first := by
    rw [← hf, List.head?_eq_getElem?]
  have hl0 : lines[lines.length - 1]? = some last := by
    rw [← hl, List.getLast?_eq_getElem?]
  refine ⟨m, hm, hpos, hnonneg, hle, ?_, ?_⟩
  · intro c hc
    obtain ⟨k, hk⟩ := List.mem_iff_getElem?.1 hc
    have hklt : k < lines.length := (List.getElem?_eq_some_iff.1 hk).1
    have h1 : first ≤ c := by
      rcases Nat.eq_zero_or_pos k with h0 | h0
      · subst h0
        rw [hf0] at hk
        exact le_of_eq (Option.some.inj hk)
      · exact (hidx 0 k first c h0 hf0 hk).le
    have h2 : c ≤ last := by
      rcases Nat.lt_or_ge k (lines.length - 1) with h0 | h0
      · exact (hidx k (lines.length - 1) c last h0 hk hl0).le
      · have hk' : k = lines.length - 1 := by omega
        subst hk'
        rw [hl0] at hk
        exact le_of_eq (Option.some.inj hk).symm
    have h3 := hfirst first hf
    have h4 := hlast last hl
    constructor <;> linarith
  · intro i a b ha hb
    have := hgap i a b ha hb
    linarith

theorem evenLines_getElem? (n : Nat) (extent : ℚ) (i : Nat) (a : ℚ)
    (h : ((List.range n).map fun (i : Nat) => ((i : ℚ) + 0.5) * extent / (n : ℚ))[i]? =
      some a) :
    i < n ∧ a = ((i : ℚ) + 0.5) * extent / (n : ℚ) := by
  rw [List.getElem?_map] at h
  cases hr : (List.range n)[i]? with
  | none =>
    rw [hr] at h
    cases h
  | some k =>
    rw [hr] at h
    obtain ⟨hlt, hk⟩ := List.getElem?_eq_some_iff.1 hr
    rw [List.getElem_range] at hk
    subst hk
    rw [List.length_range] at hlt
    exact ⟨hlt, (Option.some.inj h).symm⟩

theorem evenLines_minDist (n : Nat) (extent : ℚ) (hn : 0 < n) :
    axisMinDist ((List.range n).map fun (i : Nat) => ((i : ℚ) + 0.5) * extent / (n : ℚ))
      extent = some (extent / (n : ℚ)) := by
  have hn' : (n : ℚ) ≠ 0 := by exact_mod_cast hn.ne'
  have hne : ((List.range n).map fun (i : Nat) => ((i : ℚ) + 0.5) * extent / (n : ℚ)) ≠ [] := by
    intro h
    have := congrArg List.length h
    simp at this
    omega
  obtain ⟨m, hm, -, -, -, hattained⟩ := axisMinDist_spec _ extent hne
  rw [hm]
  congr 1
  rcases hattained with ⟨i, a, b, ha, hb, rfl⟩ | ⟨a, ha, rfl⟩ | ⟨b, hb, rfl⟩
  · obtain ⟨-, rfl⟩ := evenLines_getElem? n extent i a ha
    obtain ⟨-, rfl⟩ := evenLines_getElem? n extent (i + 1) b hb
    push_cast
    field_simp
    ring
  · rw [List.head?_eq_getElem?] at ha
    obtain ⟨-, rfl⟩ := evenLines_getElem? n extent 0 a ha
    push_cast
    field_simp
    norm_num
    ring
  · rw [List.getLast?_eq_getElem?] at hb
    obtain ⟨-, rfl⟩ := evenLines_getElem? n extent _ b hb
    simp only [List.length_map, List.length_range]
    rw [Nat.cast_sub (by omega)]
    push_cast
    field_simp
    ring

theorem evenLines_inside (n : Nat) (extent : ℚ) (hext : 0 < extent) :
    (((List.range n).map fun (i : Nat) => ((i : ℚ) + 0.5) * extent / (n : ℚ)).Pairwise
      fun a b => a < b) ∧
    ∀ c ∈ ((List.range n).map fun (i : Nat) => ((i : ℚ) + 0.5) * extent / (n : ℚ)),
      0 < c ∧ c < extent := by
  constructor
  · rw [List.pairwise_iff_getElem]
    intro i j hi hj hij
    obtain ⟨hi', h1⟩ := evenLines_getElem? n extent i _ (List.getElem?_eq_getElem hi)
    obtain ⟨hj', h2⟩ := evenLines_getElem? n extent j _ (List.getElem?_eq_getElem hj)
    rw [h1, h2]
    have hn' : (0 : ℚ) < (n : ℚ) := by exact_mod_cast (by omega : 0 < n)
    have hij' : (i : ℚ) < (j : ℚ) := by exact_mod_cast hij
    apply div_lt_div_of_pos_right _ hn'
    nlinarith
  · intro c hc
    obtain ⟨k, hk⟩ := List.mem_iff_getElem?.1 hc
    obtain ⟨hlt, rfl⟩ := evenLines_getElem? n extent k c hk
    have hn' : (0 : ℚ) < (n : ℚ) := by exact_mod_cast (by omega : 0 < n)
    have hk' : (k : ℚ) + 1 ≤ (n : ℚ) := by exact_mod_cast hlt
    constructor
    · positivity
    · rw [div_lt_iff₀ hn']
      nlinarith

theorem autoCalculateCellSize_fit (s : State) (img : ImageExtent)
    (himg : s.originalImage = some img)
    (hx : s.centerLinesX ≠ []) (hy : s.centerLinesY ≠ [])
    (hxinc : s.centerLinesX.Pairwise fun a b => a < b)
    (hyinc : s.centerLinesY.Pairwise fun a b => a < b)
    (hxin : ∀ c ∈ s.centerLinesX, 0 < c ∧ c < (img.width : ℚ))
    (hyin : ∀ c ∈ s.centerLinesY, 0 < c ∧ c < (img.height : ℚ)) :
    CellsFit img (autoCalculateCellSize s) := by
  obtain ⟨mx, hmx, -, -, -, hfx, hgx⟩ := axis_cells_fit _ _ hx hxinc hxin
  obtain ⟨my, hmy, -, -, -, hfy, hgy⟩ := axis_cells_fit _ _ hy hyinc hyin
  have hs := autoCalculateCellSize_of_lines s img himg hx
  simp only [hmx, hmy] at hs
  rw [hs]
  refine ⟨hfx, hfy, hgx, hgy, ?_⟩
  intro cy hcy cx hcx
  obtain ⟨h1, h2⟩ := hfx cx hcx
  obtain ⟨h3, h4⟩ := hfy cy hcy
  simp only [centerLineCell]
  rw [min_eq_right (by linarith), max_eq_right h1, min_eq_right (by linarith), max_eq_right h3]

theorem initializeCenterLines_even (s : State) (img : ImageExtent)
    (himg : s.originalImage = some img) (hcols : 0 < s.cols) (hrows : 0 < s.rows) :
    initializeCenterLines s =
      { s with
        centerLinesX :=
          (List.range s.cols).map fun (i : Nat) =>
            ((i : ℚ) + 0.5) * (img.width : ℚ) / (s.cols : ℚ)
        centerLinesY :=
          (List.range s.rows).map fun (i : Nat) =>
            ((i : ℚ) + 0.5) * (img.height : ℚ) / (s.rows : ℚ)
        cellWidth := ((⌊0.95 * (img.width : ℚ) / (s.cols : ℚ)⌋ : Int) : ℚ)
        cellHeight := ((⌊0.95 * (img.height : ℚ) / (s.rows : ℚ)⌋ : Int) : ℚ) } := by
  have h : initializeCenterLines s =
      autoCalculateCellSize
        { s with
          centerLinesX :=
            (List.range s.cols).map fun (i : Nat) =>
              ((i : ℚ) + 0.5) * (img.width : ℚ) / (s.cols : ℚ)
          centerLinesY :=
            (List.range s.rows).map fun (i : Nat) =>
              ((i : ℚ) + 0.5) * (img.height : ℚ) / (s.rows : ℚ) } := by
    unfold initializeCenterLines
    simp only [himg]
  rw [h]
  have key : ∀ s1 : State, s1.originalImage = some img →
      s1.centerLinesX =
        ((List.range s.cols).map fun (i : Nat) =>
          ((i : ℚ) + 0.5) * (img.width : ℚ) / (s.cols : ℚ)) →
      s1.centerLinesY =
        ((List.range s.rows).map fun (i : Nat) =>
          ((i : ℚ) + 0.5) * (img.height : ℚ) / (s.rows : ℚ)) →
      autoCalculateCellSize s1 =
        { s1 with
          cellWidth := ((⌊0.95 * (img.width : ℚ) / (s.cols : ℚ)⌋ : Int) : ℚ)
          cellHeight := ((⌊0.95 * (img.height : ℚ) / (s.rows : ℚ)⌋ : Int) : ℚ) } := by
    intro s1 himg1 hx1 hy1
    have hne : s1.centerLinesX ≠ [] := by
      intro hnil
      have := congrArg List.length (hx1.symm.trans hnil)
      simp at this
      omega
    rw [autoCalculateCellSize_of_lines s1 img himg1 hne, hx1, hy1]
    simp only [evenLines_minDist s.cols (img.width : ℚ) hcols,
      evenLines_minDist s.rows (img.height : ℚ) hrows]
    have e1 : (img.width : ℚ) / (s.cols : ℚ) * 0.95 =
        0.95 * (img.width : ℚ) / (s.cols : ℚ) := by
      ring
    have e2 : (img.height : ℚ) / (s.rows : ℚ) * 0.95 =
        0.95 * (img.height : ℚ) / (s.rows : ℚ) := by
      ring
    rw [e1, e2]
  exact key _ himg rfl rfl

/-! ## Auxiliary lemmas: the toggle of a click -/

theorem mem_toggleDisabled (d : Finset Nat) (i j : Nat) :
    j ∈ toggleDisabled d i ↔ (j = i ∧ i ∉ d) ∨ (j ≠ i ∧ j ∈ d) := by
  unfold toggleDisabled
  split
  · next h =>
    rw [Finset.mem_erase]
    constructor
    · rintro ⟨h1, h2⟩
      exact Or.inr ⟨h1, h2⟩
    · rintro (⟨_, h2⟩ | ⟨h1, h2⟩)
      · exact absurd h h2
      · exact ⟨h1, h2⟩
  · next h =>
    rw [Finset.mem_insert]
    constructor
    · rintro (h1 | h1)
      · exact Or.inl ⟨h1, h⟩
      · exact Or.inr ⟨fun hji => h (hji ▸ h1), h1⟩
    · rintro (⟨h1, _⟩ | ⟨_, h2⟩)
      · exact Or.inl h1
      · exact Or.inr h2

theorem toggledAt_click_off_line (x y : ℚ) (a : Session) (img : ImageExtent)
    (hflag : a.isDragging = false) (himg : a.state.originalImage = some img)
    (hline : findLineAtPosition a.state x y = none) :
    ToggledAt a.state.disabledCells (click x y a).state.disabledCells
      (findCellAtPosition a.state x y) := by
  have h := click_off_line x y a img hflag himg hline
  constructor
  · intro hcell
    rw [h, if_pos hcell]
    refine ⟨?_, ?_⟩
    · rw [mem_toggleDisabled]
      constructor
      · rintro (⟨_, h2⟩ | ⟨h1, _⟩)
        · exact h2
        · exact absurd rfl h1
      · intro h2
        exact Or.inl ⟨rfl, h2⟩
    · intro j hj
      rw [mem_toggleDisabled]
      constructor
      · rintro (⟨h1, _⟩ | ⟨_, h2⟩)
        · exact absurd h1 hj
        · exact h2
      · intro h2
        exact Or.inr ⟨hj, h2⟩
  · intro hcell
    rw [h, if_neg (by omega)]

/-! ## Auxiliary lemmas: a regeneration in the middle of a drag -/

theorem mouseMove_drag_x (now x y : ℚ) (a : Session) (img : ImageExtent) (i : Nat)
    (hnow : ¬ now - a.lastMoveTime < 16) (himg : a.state.originalImage = some img)
    (hdrag : a.state.dragging = some { type := Axis.x, index := i }) :
    (mouseMove now x y a).state =
      { a.state with
        centerLinesX := jsArrayWrite a.state.centerLinesX i
          (max 10 (min ((img.width : ℚ) - 10) (x / a.state.scale))) } := by
  unfold mouseMove
  rw [if_neg hnow]
  simp only [himg, hdrag]

theorem pressedLastLine_eq :
    pressedLastLine =
      { loadedCenterline with
        state :=
          { loadedCenterline.state with dragging := some { type := Axis.x, index := 3 } }
        isDragging := true } := by
  obtain ⟨himg, hmode, hlines, hscale, -, -, -, -⟩ := loadedCenterline_fields
  have hfind : findLineAtPosition loadedCenterline.state 87 20 =
      some { type := Axis.x, index := 3 } := by
    apply findLineAtPosition_of_x _ _ _ _ hmode
    rw [hlines, hscale]
    simp [List.findIdx?_cons]
    norm_num [abs_lt]
  exact mouseDown_on_line 87 20 loadedCenterline ⟨100, 100⟩ _ himg hmode hfind

theorem regeneratedWhilePressed_fields :
    regeneratedWhilePressed.state.originalImage = some ⟨100, 100⟩ ∧
    regeneratedWhilePressed.state.mode = Mode.centerline ∧
    regeneratedWhilePressed.state.rows = 6 ∧
    regeneratedWhilePressed.state.cols = 3 ∧
    regeneratedWhilePressed.state.centerLinesX.length = 3 ∧
    regeneratedWhilePressed.state.centerLinesY.length = 6 ∧
    regeneratedWhilePressed.state.dragging = some { type := Axis.x, index := 3 } ∧
    regeneratedWhilePressed.lastMoveTime = 0 := by
  obtain ⟨himg, hmode, -, -, -, -, htime, -⟩ := loadedCenterline_fields
  have hrows : loadedCenterline.state.rows = 6 := rfl
  have hstate : regeneratedWhilePressed.state =
      initializeCenterLines
        { pressedLastLine.state with
          cols := clampCount (some 3), disabledCells := ∅, customAreas := fun _ => none } := rfl
  have hclamp : clampCount (some 3) = 3 := by decide
  rw [pressedLastLine_eq, hclamp] at hstate
  obtain ⟨cw, ch, h⟩ := initializeCenterLines_of_image
    { ({ loadedCenterline.state with
          dragging := some { type := Axis.x, index := 3 } } : State) with
      cols := 3, disabledCells := ∅, customAreas := fun _ => none } ⟨100, 100⟩ himg
  rw [h] at hstate
  have htime' : regeneratedWhilePressed.lastMoveTime = loadedCenterline.lastMoveTime := by
    show (step (Event.gridControl (GridControl.colsInput (some 3)))
      pressedLastLine).lastMoveTime = _
    rw [pressedLastLine_eq]
    rfl
  rw [hstate]
  refine ⟨himg, hmode, hrows, rfl, by simp, ?_, rfl, htime'.trans htime⟩
  simp [hrows]

theorem staleDrag_fields :
    staleDrag.state.originalImage = some ⟨100, 100⟩ ∧
    staleDrag.state.mode = Mode.centerline ∧
    staleDrag.state.rows = 6 ∧ staleDrag.state.cols = 3 ∧
    staleDrag.state.centerLinesX.length = 4 ∧ staleDrag.state.centerLinesY.length = 6 := by
  obtain ⟨himg, hmode, hrows, hcols, hx, hy, hdrag, htime⟩ := regeneratedWhilePressed_fields
  have h : staleDrag.state = _ :=
    mouseMove_drag_x 200 50 20 regeneratedWhilePressed ⟨100, 100⟩ 3
      (by rw [htime]; norm_num) himg hdrag
  rw [h]
  refine ⟨himg, hmode, hrows, hcols, ?_, hy⟩
  show (jsArrayWrite regeneratedWhilePressed.state.centerLinesX 3 _).length = 4
  rw [← hx, jsArrayWrite_of_eq]
  simp [hx]

/-! ## Auxiliary lemmas: opening the crop editor -/

theorem openCropEditor_of_area (index : Nat) (innerWidth innerHeight : ℚ) (a : Session)
    (img : ImageExtent) (areas : List CropArea) (area : CropArea)
    (himg : a.state.originalImage = some img) (hen : index ∉ a.state.disabledCells)
    (hareas : getCropAreas a.state = some areas) (hidx : areas[index]? = some area) :
    openCropEditor index innerWidth innerHeight a =
      { a with cropEditor :=
          { a.cropEditor with
            currentIndex := (index : Int)
            originalArea := area
            cropArea := area
            scale :=
              min (min (min 800 (innerWidth * 0.8) / (img.width : ℚ))
                (min 600 (innerHeight * 0.6) / (img.height : ℚ))) 1 } } := by
  unfold openCropEditor
  simp only [himg, hareas, hidx]
  rw [if_neg hen]

theorem smallCellOpened_eq :
    smallCellOpened =
      { smallCellSession with cropEditor :=
          { smallCellSession.cropEditor with
            currentIndex := 0, originalArea := ⟨0, 0, 10, 10⟩, cropArea := ⟨0, 0, 10, 10⟩,
            scale := 1 } } := by
  obtain ⟨areas, h1, -, -, h2⟩ :=
    uniform_areas_getElem? uniform10x10 ⟨100, 100⟩ rfl rfl (fun _ => rfl)
  have h0 : areas[0]? = some (uniformCell ⟨100, 100⟩ uniform10x10 0 0) := by
    have := h2 0 0 (by decide) (by decide)
    simpa using this
  have hcell : uniformCell ⟨100, 100⟩ uniform10x10 0 0 = ⟨0, 0, 10, 10⟩ := by
    simp [uniformCell, uniform10x10, initialState]
    norm_num
  rw [hcell] at h0
  have h := openCropEditor_of_area 0 1000 1000 smallCellSession ⟨100, 100⟩ areas _ rfl
    (by simp [smallCellSession, uniform10x10, initialState]) h1 h0
  have hscale : min (min (min 800 ((1000 : ℚ) * 0.8) / ((100 : Nat) : ℚ))
      (min 600 ((1000 : ℚ) * 0.6) / ((100 : Nat) : ℚ))) 1 = 1 := by
    norm_num
  rw [show smallCellOpened = openCropEditor 0 1000 1000 smallCellSession from rfl, h]
  simp only [hscale]
  rfl

theorem smallCellPressed_eq :
    smallCellPressed =
      { smallCellOpened with cropEditor :=
          { smallCellOpened.cropEditor with
            resizing := some Handle.nw, lastMouse := (2, 2) } } := by
  have hce : smallCellOpened.cropEditor =
      { currentIndex := 0, originalArea := ⟨0, 0, 10, 10⟩, cropArea := ⟨0, 0, 10, 10⟩,
        dragging := false, resizing := none, lastMouse := (0, 0), scale := 1 } := by
    rw [smallCellOpened_eq]
    rfl
  have hh : getCropHandle smallCellOpened.cropEditor 2 2 = some Handle.nw := by
    rw [hce]
    have hf : ((cropHandles
          { currentIndex := 0, originalArea := ⟨0, 0, 10, 10⟩, cropArea := ⟨0, 0, 10, 10⟩,
            dragging := false, resizing := none, lastMouse := (0, 0), scale := 1 }).find?
        fun h => decide (|(2 : ℚ) - h.2.1| < 12 ∧ |(2 : ℚ) - h.2.2| < 12)) =
        some (Handle.nw, (0 : ℚ) * 1, (0 : ℚ) * 1) :=
      find?_eq_some_of_first _ _ 0 _ rfl (by norm_num [abs_lt])
        (fun j hj => absurd hj (Nat.not_lt_zero j))
    unfold getCropHandle
    simp only [hf]
  show onCropMouseDown 2 2 smallCellOpened = _
  unfold onCropMouseDown
  simp only [hh]

/-! ## Auxiliary lemmas: binary64 rounding -/

theorem roundHalfEven_eq (q : ℚ) (m : Int) (h1 : (m : ℚ) - 1 / 2 < q)
    (h2 : q < (m : ℚ) + 1 / 2) : roundHalfEven q = m := by
  unfold roundHalfEven
  simp only
  by_cases hq : (m : ℚ) ≤ q
  · have hf : ⌊q⌋ = m := by
      rw [Int.floor_eq_iff]
      exact ⟨hq, by linarith⟩
    rw [hf, if_pos (by linarith)]
  · have hf : ⌊q⌋ = m - 1 := by
      rw [Int.floor_eq_iff]
      push_cast
      exact ⟨by linarith, by linarith [not_le.1 hq]⟩
    rw [hf]
    push_cast
    rw [if_neg (by linarith), if_pos (by linarith)]
    ring

theorem roundHalfEven_tie_down (q : ℚ) (m : Int) (h : q = (m : ℚ) + 1 / 2)
    (he : m % 2 = 0) : roundHalfEven q = m := by
  have hf : ⌊q⌋ = m := by
    rw [Int.floor_eq_iff]
    exact ⟨by linarith, by linarith⟩
  unfold roundHalfEven
  simp only
  rw [hf, if_neg (by linarith), if_neg (by linarith), if_pos he]

theorem roundHalfEven_tie_up (q : ℚ) (m : Int) (h : q = (m : ℚ) - 1 / 2)
    (he : m % 2 = 0) : roundHalfEven q = m := by
  have hf : ⌊q⌋ = m - 1 := by
    rw [Int.floor_eq_iff]
    push_cast
    exact ⟨by linarith, by linarith⟩
  unfold roundHalfEven
  simp only
  rw [hf]
  push_cast
  rw [if_neg (by linarith), if_neg (by linarith), if_neg (by omega)]
  ring

/-- The value of `fl q` from the binade `[2^k, 2^(k+1))` of `|q|` and the
rounding `m` of `q / 2^(k-52)`. -/
theorem fl_eq (q : ℚ) (k m : Int) (h1 : (2 : ℚ) ^ k ≤ |q|) (h2 : |q| < (2 : ℚ) ^ (k + 1))
    (h3 : roundHalfEven (q / (2 : ℚ) ^ (k - 52)) = m) :
    fl q = (m : ℚ) * (2 : ℚ) ^ (k - 52) := by
  have hpos : 0 < |q| := lt_of_lt_of_le (by positivity) h1
  have hq : q ≠ 0 := abs_pos.1 hpos
  have hlog : Int.log 2 |q| = k := by
    apply le_antisymm
    · have h2' : |q| < ((2 : Nat) : ℚ) ^ (k + 1) := by exact_mod_cast h2
      have := (@Int.lt_zpow_iff_log_lt ℚ _ _ 2 (by norm_num) (k + 1) |q| hpos).1 h2'
      omega
    · have h1' : ((2 : Nat) : ℚ) ^ k ≤ |q| := by exact_mod_cast h1
      exact (@Int.zpow_le_iff_le_log ℚ _ _ 2 (by norm_num) k |q| hpos).1 h1'
  unfold fl
  rw [if_neg hq]
  simp only [hlog]
  rw [h3]

theorem fl_146_div_5 :
    fl (((146 : Nat) : ℚ) / ((5 : Nat) : ℚ)) =
      8219069319951155 / 281474976710656 := by
  rw [fl_eq (((146 : Nat) : ℚ) / ((5 : Nat) : ℚ)) 4 8219069319951155
    (by norm_num [abs_of_pos]) (by norm_num [abs_of_pos])
    (roundHalfEven_eq _ _ (by norm_num) (by norm_num))]
  norm_num

theorem fl_100_div_1 : fl (((100 : Nat) : ℚ) / ((1 : Nat) : ℚ)) = 100 := by
  rw [fl_eq (((100 : Nat) : ℚ) / ((1 : Nat) : ℚ)) 6 7036874417766400
    (by norm_num [abs_of_pos]) (by norm_num [abs_of_pos])
    (roundHalfEven_eq _ _ (by norm_num) (by norm_num))]
  norm_num

theorem fl_col1_146 :
    fl (((1 : Nat) : ℚ) * (8219069319951155 / 281474976710656)) =
      8219069319951155 / 281474976710656 := by
  rw [fl_eq (((1 : Nat) : ℚ) * (8219069319951155 / 281474976710656)) 4 8219069319951155
    (by norm_num [abs_of_pos]) (by norm_num [abs_of_pos])
    (roundHalfEven_eq _ _ (by norm_num) (by norm_num))]
  norm_num

theorem fl_w_sum :
    fl (8219069319951155 / 281474976710656 + 8219069319951155 / 281474976710656) =
      8219069319951155 / 140737488355328 := by
  rw [fl_eq (8219069319951155 / 281474976710656 + 8219069319951155 / 281474976710656) 5 8219069319951155
    (by norm_num [abs_of_pos]) (by norm_num [abs_of_pos])
    (roundHalfEven_eq _ _ (by norm_num) (by norm_num))]
  norm_num

theorem fl_w_bound :
    fl (8219069319951155 / 140737488355328 - 20) =
      5404319552844595 / 140737488355328 := by
  rw [fl_eq (8219069319951155 / 140737488355328 - 20) 5 5404319552844595
    (by norm_num [abs_of_pos]) (by norm_num [abs_of_pos])
    (roundHalfEven_eq _ _ (by norm_num) (by norm_num))]
  norm_num

theorem fl_w_moved :
    fl (8219069319951155 / 281474976710656 + -3) =
      7374644389819187 / 281474976710656 := by
  rw [fl_eq (8219069319951155 / 281474976710656 + -3) 4 7374644389819187
    (by norm_num [abs_of_pos]) (by norm_num [abs_of_pos])
    (roundHalfEven_eq _ _ (by norm_num) (by norm_num))]
  norm_num

theorem fl_w_width :
    fl (8219069319951155 / 140737488355328 - 7374644389819187 / 281474976710656) =
      2265873562520781 / 70368744177664 := by
  rw [fl_eq (8219069319951155 / 140737488355328 - 7374644389819187 / 281474976710656) 5 4531747125041562
    (by norm_num [abs_of_pos]) (by norm_num [abs_of_pos])
    (roundHalfEven_tie_up _ _ (by norm_num) (by decide))]
  norm_num

theorem fl_w_edge :
    fl (7374644389819187 / 281474976710656 + 2265873562520781 / 70368744177664) =
      2054767329987789 / 35184372088832 := by
  rw [fl_eq (7374644389819187 / 281474976710656 + 2265873562520781 / 70368744177664) 5 8219069319951156
    (by norm_num [abs_of_pos]) (by norm_num [abs_of_pos])
    (roundHalfEven_tie_up _ _ (by norm_num) (by decide))]
  norm_num

theorem initialLineFl_19_100_0 :
    initialLineFl 0 19 100 = 740723622922779 / 281474976710656 := by
  have h1 : fl (((0 : Nat) : ℚ) + 0.5) = 1 / 2 := by
    rw [fl_eq (((0 : Nat) : ℚ) + 0.5) (-1) 4503599627370496
      (by norm_num [abs_of_pos]) (by norm_num [abs_of_pos])
      (roundHalfEven_eq _ _ (by norm_num) (by norm_num))]
    norm_num
  have h2 : fl (1 / 2 * ((100 : Nat) : ℚ)) = 50 := by
    rw [fl_eq (1 / 2 * ((100 : Nat) : ℚ)) 5 7036874417766400
      (by norm_num [abs_of_pos]) (by norm_num [abs_of_pos])
      (roundHalfEven_eq _ _ (by norm_num) (by norm_num))]
    norm_num
  have h3 : fl (50 / ((19 : Nat) : ℚ)) = 740723622922779 / 281474976710656 := by
    rw [fl_eq (50 / ((19 : Nat) : ℚ)) 1 5925788983382232
      (by norm_num [abs_of_pos]) (by norm_num [abs_of_pos])
      (roundHalfEven_eq _ _ (by norm_num) (by norm_num))]
    norm_num
  simp only [initialLineFl, h1, h2, h3]

theorem initialLineFl_19_100_1 :
    initialLineFl 1 19 100 = 8888683475073347 / 1125899906842624 := by
  have h1 : fl (((1 : Nat) : ℚ) + 0.5) = 3 / 2 := by
    rw [fl_eq (((1 : Nat) : ℚ) + 0.5) 0 6755399441055744
      (by norm_num [abs_of_pos]) (by norm_num [abs_of_pos])
      (roundHalfEven_eq _ _ (by norm_num) (by norm_num))]
    norm_num
  have h2 : fl (3 / 2 * ((100 : Nat) : ℚ)) = 150 := by
    rw [fl_eq (3 / 2 * ((100 : Nat) : ℚ)) 7 5277655813324800
      (by norm_num [abs_of_pos]) (by norm_num [abs_of_pos])
      (roundHalfEven_eq _ _ (by norm_num) (by norm_num))]
    norm_num
  have h3 : fl (150 / ((19 : Nat) : ℚ)) = 8888683475073347 / 1125899906842624 := by
    rw [fl_eq (150 / ((19 : Nat) : ℚ)) 2 8888683475073347
      (by norm_num [abs_of_pos]) (by norm_num [abs_of_pos])
      (roundHalfEven_eq _ _ (by norm_num) (by norm_num))]
    norm_num
  simp only [initialLineFl, h1, h2, h3]

theorem initialLineFl_19_100_2 :
    initialLineFl 2 19 100 = 7407236229227789 / 562949953421312 := by
  have h1 : fl (((2 : Nat) : ℚ) + 0.5) = 5 / 2 := by
    rw [fl_eq (((2 : Nat) : ℚ) + 0.5) 1 5629499534213120
      (by norm_num [abs_of_pos]) (by norm_num [abs_of_pos])
      (roundHalfEven_eq _ _ (by norm_num) (by norm_num))]
    norm_num
  have h2 : fl (5 / 2 * ((100 : Nat) : ℚ)) = 250 := by
    rw [fl_eq (5 / 2 * ((100 : Nat) : ℚ)) 7 8796093022208000
      (by norm_num [abs_of_pos]) (by norm_num [abs_of_pos])
      (roundHalfEven_eq _ _ (by norm_num) (by norm_num))]
    norm_num
  have h3 : fl (250 / ((19 : Nat) : ℚ)) = 7407236229227789 / 562949953421312 := by
    rw [fl_eq (250 / ((19 : Nat) : ℚ)) 3 7407236229227789
      (by norm_num [abs_of_pos]) (by norm_num [abs_of_pos])
      (roundHalfEven_eq _ _ (by norm_num) (by norm_num))]
    norm_num
  simp only [initialLineFl, h1, h2, h3]

theorem initialLineFl_19_100_3 :
    initialLineFl 3 19 100 = 5185065360459453 / 281474976710656 := by
  have h1 : fl (((3 : Nat) : ℚ) + 0.5) = 7 / 2 := by
    rw [fl_eq (((3 : Nat) : ℚ) + 0.5) 1 7881299347898368
      (by norm_num [abs_of_pos]) (by norm_num [abs_of_pos])
      (roundHalfEven_eq _ _ (by norm_num) (by norm_num))]
    norm_num
  have h2 : fl (7 / 2 * ((100 : Nat) : ℚ)) = 350 := by
    rw [fl_eq (7 / 2 * ((100 : Nat) : ℚ)) 8 6157265115545600
      (by norm_num [abs_of_pos]) (by norm_num [abs_of_pos])
      (roundHalfEven_eq _ _ (by norm_num) (by norm_num))]
    norm_num
  have h3 : fl (350 / ((19 : Nat) : ℚ)) = 5185065360459453 / 281474976710656 := by
    rw [fl_eq (350 / ((19 : Nat) : ℚ)) 4 5185065360459453
      (by norm_num [abs_of_pos]) (by norm_num [abs_of_pos])
      (roundHalfEven_eq _ _ (by norm_num) (by norm_num))]
    norm_num
  simp only [initialLineFl, h1, h2, h3]

theorem initialLineFl_19_100_4 :
    initialLineFl 4 19 100 = 6666512606305011 / 281474976710656 := by
  have h1 : fl (((4 : Nat) : ℚ) + 0.5) = 9 / 2 := by
    rw [fl_eq (((4 : Nat) : ℚ) + 0.5) 2 5066549580791808
      (by norm_num [abs_of_pos]) (by norm_num [abs_of_pos])
      (roundHalfEven_eq _ _ (by norm_num) (by norm_num))]
    norm_num
  have h2 : fl (9 / 2 * ((100 : Nat) : ℚ)) = 450 := by
    rw [fl_eq (9 / 2 * ((100 : Nat) : ℚ)) 8 7916483719987200
      (by norm_num [abs_of_pos]) (by norm_num [abs_of_pos])
      (roundHalfEven_eq _ _ (by norm_num) (by norm_num))]
    norm_num
  have h3 : fl (450 / ((19 : Nat) : ℚ)) = 6666512606305011 / 281474976710656 := by
    rw [fl_eq (450 / ((19 : Nat) : ℚ)) 4 6666512606305011
      (by norm_num [abs_of_pos]) (by norm_num [abs_of_pos])
      (roundHalfEven_eq _ _ (by norm_num) (by norm_num))]
    norm_num
  simp only [initialLineFl, h1, h2, h3]

theorem initialLineFl_19_100_5 :
    initialLineFl 5 19 100 = 1018494981518821 / 35184372088832 := by
  have h1 : fl (((5 : Nat) : ℚ) + 0.5) = 11 / 2 := by
    rw [fl_eq (((5 : Nat) : ℚ) + 0.5) 2 6192449487634432
      (by norm_num [abs_of_pos]) (by norm_num [abs_of_pos])
      (roundHalfEven_eq _ _ (by norm_num) (by norm_num))]
    norm_num
  have h2 : fl (11 / 2 * ((100 : Nat) : ℚ)) = 550 := by
    rw [fl_eq (11 / 2 * ((100 : Nat) : ℚ)) 9 4837851162214400
      (by norm_num [abs_of_pos]) (by norm_num [abs_of_pos])
      (roundHalfEven_eq _ _ (by norm_num) (by norm_num))]
    norm_num
  have h3 : fl (550 / ((19 : Nat) : ℚ)) = 1018494981518821 / 35184372088832 := by
    rw [fl_eq (550 / ((19 : Nat) : ℚ)) 4 8147959852150568
      (by norm_num [abs_of_pos]) (by norm_num [abs_of_pos])
      (roundHalfEven_eq _ _ (by norm_num) (by norm_num))]
    norm_num
  simp only [initialLineFl, h1, h2, h3]

theorem initialLineFl_19_100_6 :
    initialLineFl 6 19 100 = 4814703548998063 / 140737488355328 := by
  have h1 : fl (((6 : Nat) : ℚ) + 0.5) = 13 / 2 := by
    rw [fl_eq (((6 : Nat) : ℚ) + 0.5) 2 7318349394477056
      (by norm_num [abs_of_pos]) (by norm_num [abs_of_pos])
      (roundHalfEven_eq _ _ (by norm_num) (by norm_num))]
    norm_num
  have h2 : fl (13 / 2 * ((100 : Nat) : ℚ)) = 650 := by
    rw [fl_eq (13 / 2 * ((100 : Nat) : ℚ)) 9 5717460464435200
      (by norm_num [abs_of_pos]) (by norm_num [abs_of_pos])
      (roundHalfEven_eq _ _ (by norm_num) (by norm_num))]
    norm_num
  have h3 : fl (650 / ((19 : Nat) : ℚ)) = 4814703548998063 / 140737488355328 := by
    rw [fl_eq (650 / ((19 : Nat) : ℚ)) 5 4814703548998063
      (by norm_num [abs_of_pos]) (by norm_num [abs_of_pos])
      (roundHalfEven_eq _ _ (by norm_num) (by norm_num))]
    norm_num
  simp only [initialLineFl, h1, h2, h3]

theorem initialLineFl_19_100_7 :
    initialLineFl 7 19 100 = 2777713585960421 / 70368744177664 := by
  have h1 : fl (((7 : Nat) : ℚ) + 0.5) = 15 / 2 := by
    rw [fl_eq (((7 : Nat) : ℚ) + 0.5) 2 8444249301319680
      (by norm_num [abs_of_pos]) (by norm_num [abs_of_pos])
      (roundHalfEven_eq _ _ (by norm_num) (by norm_num))]
    norm_num
  have h2 : fl (15 / 2 * ((100 : Nat) : ℚ)) = 750 := by
    rw [fl_eq (15 / 2 * ((100 : Nat) : ℚ)) 9 6597069766656000
      (by norm_num [abs_of_pos]) (by norm_num [abs_of_pos])
      (roundHalfEven_eq _ _ (by norm_num) (by norm_num))]
    norm_num
  have h3 : fl (750 / ((19 : Nat) : ℚ)) = 2777713585960421 / 70368744177664 := by
    rw [fl_eq (750 / ((19 : Nat) : ℚ)) 5 5555427171920842
      (by norm_num [abs_of_pos]) (by norm_num [abs_of_pos])
      (roundHalfEven_eq _ _ (by norm_num) (by norm_num))]
    norm_num
  simp only [initialLineFl, h1, h2, h3]

theorem initialLineFl_19_100_8 :
    initialLineFl 8 19 100 = 6296150794843621 / 140737488355328 := by
  have h1 : fl (((8 : Nat) : ℚ) + 0.5) = 17 / 2 := by
    rw [fl_eq (((8 : Nat) : ℚ) + 0.5) 3 4785074604081152
      (by norm_num [abs_of_pos]) (by norm_num [abs_of_pos])
      (roundHalfEven_eq _ _ (by norm_num) (by norm_num))]
    norm_num
  have h2 : fl (17 / 2 * ((100 : Nat) : ℚ)) = 850 := by
    rw [fl_eq (17 / 2 * ((100 : Nat) : ℚ)) 9 7476679068876800
      (by norm_num [abs_of_pos]) (by norm_num [abs_of_pos])
      (roundHalfEven_eq _ _ (by norm_num) (by norm_num))]
    norm_num
  have h3 : fl (850 / ((19 : Nat) : ℚ)) = 6296150794843621 / 140737488355328 := by
    rw [fl_eq (850 / ((19 : Nat) : ℚ)) 5 6296150794843621
      (by norm_num [abs_of_pos]) (by norm_num [abs_of_pos])
      (roundHalfEven_eq _ _ (by norm_num) (by norm_num))]
    norm_num
  simp only [initialLineFl, h1, h2, h3]

theorem initialLineFl_19_100_9 :
    initialLineFl 9 19 100 = 50 := by
  have h1 : fl (((9 : Nat) : ℚ) + 0.5) = 19 / 2 := by
    rw [fl_eq (((9 : Nat) : ℚ) + 0.5) 3 5348024557502464
      (by norm_num [abs_of_pos]) (by norm_num [abs_of_pos])
      (roundHalfEven_eq _ _ (by norm_num) (by norm_num))]
    norm_num
  have h2 : fl (19 / 2 * ((100 : Nat) : ℚ)) = 950 := by
    rw [fl_eq (19 / 2 * ((100 : Nat) : ℚ)) 9 8356288371097600
      (by norm_num [abs_of_pos]) (by norm_num [abs_of_pos])
      (roundHalfEven_eq _ _ (by norm_num) (by norm_num))]
    norm_num
  have h3 : fl (950 / ((19 : Nat) : ℚ)) = 50 := by
    rw [fl_eq (950 / ((19 : Nat) : ℚ)) 5 7036874417766400
      (by norm_num [abs_of_pos]) (by norm_num [abs_of_pos])
      (roundHalfEven_eq _ _ (by norm_num) (by norm_num))]
    norm_num
  simp only [initialLineFl, h1, h2, h3]

theorem initialLineFl_19_100_10 :
    initialLineFl 10 19 100 = 7777598040689179 / 140737488355328 := by
  have h1 : fl (((10 : Nat) : ℚ) + 0.5) = 21 / 2 := by
    rw [fl_eq (((10 : Nat) : ℚ) + 0.5) 3 5910974510923776
      (by norm_num [abs_of_pos]) (by norm_num [abs_of_pos])
      (roundHalfEven_eq _ _ (by norm_num) (by norm_num))]
    norm_num
  have h2 : fl (21 / 2 * ((100 : Nat) : ℚ)) = 1050 := by
    rw [fl_eq (21 / 2 * ((100 : Nat) : ℚ)) 10 4617948836659200
      (by norm_num [abs_of_pos]) (by norm_num [abs_of_pos])
      (roundHalfEven_eq _ _ (by norm_num) (by norm_num))]
    norm_num
  have h3 : fl (1050 / ((19 : Nat) : ℚ)) = 7777598040689179 / 140737488355328 := by
    rw [fl_eq (1050 / ((19 : Nat) : ℚ)) 5 7777598040689179
      (by norm_num [abs_of_pos]) (by norm_num [abs_of_pos])
      (roundHalfEven_eq _ _ (by norm_num) (by norm_num))]
    norm_num
  simp only [initialLineFl, h1, h2, h3]

theorem initialLineFl_19_100_11 :
    initialLineFl 11 19 100 = 4259160831805979 / 70368744177664 := by
  have h1 : fl (((11 : Nat) : ℚ) + 0.5) = 23 / 2 := by
    rw [fl_eq (((11 : Nat) : ℚ) + 0.5) 3 6473924464345088
      (by norm_num [abs_of_pos]) (by norm_num [abs_of_pos])
      (roundHalfEven_eq _ _ (by norm_num) (by norm_num))]
    norm_num
  have h2 : fl (23 / 2 * ((100 : Nat) : ℚ)) = 1150 := by
    rw [fl_eq (23 / 2 * ((100 : Nat) : ℚ)) 10 5057753487769600
      (by norm_num [abs_of_pos]) (by norm_num [abs_of_pos])
      (roundHalfEven_eq _ _ (by norm_num) (by norm_num))]
    norm_num
  have h3 : fl (1150 / ((19 : Nat) : ℚ)) = 4259160831805979 / 70368744177664 := by
    rw [fl_eq (1150 / ((19 : Nat) : ℚ)) 5 8518321663611958
      (by norm_num [abs_of_pos]) (by norm_num [abs_of_pos])
      (roundHalfEven_eq _ _ (by norm_num) (by norm_num))]
    norm_num
  simp only [initialLineFl, h1, h2, h3]

theorem initialLineFl_19_100_12 :
    initialLineFl 12 19 100 = 578690330408421 / 8796093022208 := by
  have h1 : fl (((12 : Nat) : ℚ) + 0.5) = 25 / 2 := by
    rw [fl_eq (((12 : Nat) : ℚ) + 0.5) 3 7036874417766400
      (by norm_num [abs_of_pos]) (by norm_num [abs_of_pos])
      (roundHalfEven_eq _ _ (by norm_num) (by norm_num))]
    norm_num
  have h2 : fl (25 / 2 * ((100 : Nat) : ℚ)) = 1250 := by
    rw [fl_eq (25 / 2 * ((100 : Nat) : ℚ)) 10 5497558138880000
      (by norm_num [abs_of_pos]) (by norm_num [abs_of_pos])
      (roundHalfEven_eq _ _ (by norm_num) (by norm_num))]
    norm_num
  have h3 : fl (1250 / ((19 : Nat) : ℚ)) = 578690330408421 / 8796093022208 := by
    rw [fl_eq (1250 / ((19 : Nat) : ℚ)) 6 4629522643267368
      (by norm_num [abs_of_pos]) (by norm_num [abs_of_pos])
      (roundHalfEven_eq _ _ (by norm_num) (by norm_num))]
    norm_num
  simp only [initialLineFl, h1, h2, h3]

theorem initialLineFl_19_100_13 :
    initialLineFl 13 19 100 = 2499942227364379 / 35184372088832 := by
  have h1 : fl (((13 : Nat) : ℚ) + 0.5) = 27 / 2 := by
    rw [fl_eq (((13 : Nat) : ℚ) + 0.5) 3 7599824371187712
      (by norm_num [abs_of_pos]) (by norm_num [abs_of_pos])
      (roundHalfEven_eq _ _ (by norm_num) (by norm_num))]
    norm_num
  have h2 : fl (27 / 2 * ((100 : Nat) : ℚ)) = 1350 := by
    rw [fl_eq (27 / 2 * ((100 : Nat) : ℚ)) 10 5937362789990400
      (by norm_num [abs_of_pos]) (by norm_num [abs_of_pos])
      (roundHalfEven_eq _ _ (by norm_num) (by norm_num))]
    norm_num
  have h3 : fl (1350 / ((19 : Nat) : ℚ)) = 2499942227364379 / 35184372088832 := by
    rw [fl_eq (1350 / ((19 : Nat) : ℚ)) 6 4999884454728758
      (by norm_num [abs_of_pos]) (by norm_num [abs_of_pos])
      (roundHalfEven_eq _ _ (by norm_num) (by norm_num))]
    norm_num
  simp only [initialLineFl, h1, h2, h3]

theorem initialLineFl_19_100_14 :
    initialLineFl 14 19 100 = 5370246266190147 / 70368744177664 := by
  have h1 : fl (((14 : Nat) : ℚ) + 0.5) = 29 / 2 := by
    rw [fl_eq (((14 : Nat) : ℚ) + 0.5) 3 8162774324609024
      (by norm_num [abs_of_pos]) (by norm_num [abs_of_pos])
      (roundHalfEven_eq _ _ (by norm_num) (by norm_num))]
    norm_num
  have h2 : fl (29 / 2 * ((100 : Nat) : ℚ)) = 1450 := by
    rw [fl_eq (29 / 2 * ((100 : Nat) : ℚ)) 10 6377167441100800
      (by norm_num [abs_of_pos]) (by norm_num [abs_of_pos])
      (roundHalfEven_eq _ _ (by norm_num) (by norm_num))]
    norm_num
  have h3 : fl (1450 / ((19 : Nat) : ℚ)) = 5370246266190147 / 70368744177664 := by
    rw [fl_eq (1450 / ((19 : Nat) : ℚ)) 6 5370246266190147
      (by norm_num [abs_of_pos]) (by norm_num [abs_of_pos])
      (roundHalfEven_eq _ _ (by norm_num) (by norm_num))]
    norm_num
  simp only [initialLineFl, h1, h2, h3]

theorem initialLineFl_19_100_15 :
    initialLineFl 15 19 100 = 5740608077651537 / 70368744177664 := by
  have h1 : fl (((15 : Nat) : ℚ) + 0.5) = 31 / 2 := by
    rw [fl_eq (((15 : Nat) : ℚ) + 0.5) 3 8725724278030336
      (by norm_num [abs_of_pos]) (by norm_num [abs_of_pos])
      (roundHalfEven_eq _ _ (by norm_num) (by norm_num))]
    norm_num
  have h2 : fl (31 / 2 * ((100 : Nat) : ℚ)) = 1550 := by
    rw [fl_eq (31 / 2 * ((100 : Nat) : ℚ)) 10 6816972092211200
      (by norm_num [abs_of_pos]) (by norm_num [abs_of_pos])
      (roundHalfEven_eq _ _ (by norm_num) (by norm_num))]
    norm_num
  have h3 : fl (1550 / ((19 : Nat) : ℚ)) = 5740608077651537 / 70368744177664 := by
    rw [fl_eq (1550 / ((19 : Nat) : ℚ)) 6 5740608077651537
      (by norm_num [abs_of_pos]) (by norm_num [abs_of_pos])
      (roundHalfEven_eq _ _ (by norm_num) (by norm_num))]
    norm_num
  simp only [initialLineFl, h1, h2, h3]

theorem initialLineFl_19_100_16 :
    initialLineFl 16 19 100 = 3055484944556463 / 35184372088832 := by
  have h1 : fl (((16 : Nat) : ℚ) + 0.5) = 33 / 2 := by
    rw [fl_eq (((16 : Nat) : ℚ) + 0.5) 4 4644337115725824
      (by norm_num [abs_of_pos]) (by norm_num [abs_of_pos])
      (roundHalfEven_eq _ _ (by norm_num) (by norm_num))]
    norm_num
  have h2 : fl (33 / 2 * ((100 : Nat) : ℚ)) = 1650 := by
    rw [fl_eq (33 / 2 * ((100 : Nat) : ℚ)) 10 7256776743321600
      (by norm_num [abs_of_pos]) (by norm_num [abs_of_pos])
      (roundHalfEven_eq _ _ (by norm_num) (by norm_num))]
    norm_num
  have h3 : fl (1650 / ((19 : Nat) : ℚ)) = 3055484944556463 / 35184372088832 := by
    rw [fl_eq (1650 / ((19 : Nat) : ℚ)) 6 6110969889112926
      (by norm_num [abs_of_pos]) (by norm_num [abs_of_pos])
      (roundHalfEven_eq _ _ (by norm_num) (by norm_num))]
    norm_num
  simp only [initialLineFl, h1, h2, h3]

theorem initialLineFl_19_100_17 :
    initialLineFl 17 19 100 = 1620332925143579 / 17592186044416 := by
  have h1 : fl (((17 : Nat) : ℚ) + 0.5) = 35 / 2 := by
    rw [fl_eq (((17 : Nat) : ℚ) + 0.5) 4 4925812092436480
      (by norm_num [abs_of_pos]) (by norm_num [abs_of_pos])
      (roundHalfEven_eq _ _ (by norm_num) (by norm_num))]
    norm_num
  have h2 : fl (35 / 2 * ((100 : Nat) : ℚ)) = 1750 := by
    rw [fl_eq (35 / 2 * ((100 : Nat) : ℚ)) 10 7696581394432000
      (by norm_num [abs_of_pos]) (by norm_num [abs_of_pos])
      (roundHalfEven_eq _ _ (by norm_num) (by norm_num))]
    norm_num
  have h3 : fl (1750 / ((19 : Nat) : ℚ)) = 1620332925143579 / 17592186044416 := by
    rw [fl_eq (1750 / ((19 : Nat) : ℚ)) 6 6481331700574316
      (by norm_num [abs_of_pos]) (by norm_num [abs_of_pos])
      (roundHalfEven_eq _ _ (by norm_num) (by norm_num))]
    norm_num
  simp only [initialLineFl, h1, h2, h3]

theorem initialLineFl_19_100_18 :
    initialLineFl 18 19 100 = 6851693512035705 / 70368744177664 := by
  have h1 : fl (((18 : Nat) : ℚ) + 0.5) = 37 / 2 := by
    rw [fl_eq (((18 : Nat) : ℚ) + 0.5) 4 5207287069147136
      (by norm_num [abs_of_pos]) (by norm_num [abs_of_pos])
      (roundHalfEven_eq _ _ (by norm_num) (by norm_num))]
    norm_num
  have h2 : fl (37 / 2 * ((100 : Nat) : ℚ)) = 1850 := by
    rw [fl_eq (37 / 2 * ((100 : Nat) : ℚ)) 10 8136386045542400
      (by norm_num [abs_of_pos]) (by norm_num [abs_of_pos])
      (roundHalfEven_eq _ _ (by norm_num) (by norm_num))]
    norm_num
  have h3 : fl (1850 / ((19 : Nat) : ℚ)) = 6851693512035705 / 70368744177664 := by
    rw [fl_eq (1850 / ((19 : Nat) : ℚ)) 6 6851693512035705
      (by norm_num [abs_of_pos]) (by norm_num [abs_of_pos])
      (roundHalfEven_eq _ _ (by norm_num) (by norm_num))]
    norm_num
  simp only [initialLineFl, h1, h2, h3]

theorem gapFl_19_100_0 :
    fl (8888683475073347 / 1125899906842624 - 740723622922779 / 281474976710656) =
      5925788983382231 / 1125899906842624 := by
  rw [fl_eq (8888683475073347 / 1125899906842624 - 740723622922779 / 281474976710656) 2 5925788983382231
    (by norm_num [abs_of_pos]) (by norm_num [abs_of_pos])
    (roundHalfEven_eq _ _ (by norm_num) (by norm_num))]
  norm_num

theorem gapFl_19_100_1 :
    fl (7407236229227789 / 562949953421312 - 8888683475073347 / 1125899906842624) =
      5925788983382231 / 1125899906842624 := by
  rw [fl_eq (7407236229227789 / 562949953421312 - 8888683475073347 / 1125899906842624) 2 5925788983382231
    (by norm_num [abs_of_pos]) (by norm_num [abs_of_pos])
    (roundHalfEven_eq _ _ (by norm_num) (by norm_num))]
  norm_num

theorem gapFl_19_100_2 :
    fl (5185065360459453 / 281474976710656 - 7407236229227789 / 562949953421312) =
      2962894491691117 / 562949953421312 := by
  rw [fl_eq (5185065360459453 / 281474976710656 - 7407236229227789 / 562949953421312) 2 5925788983382234
    (by norm_num [abs_of_pos]) (by norm_num [abs_of_pos])
    (roundHalfEven_eq _ _ (by norm_num) (by norm_num))]
  norm_num

theorem gapFl_19_100_3 :
    fl (6666512606305011 / 281474976710656 - 5185065360459453 / 281474976710656) =
      740723622922779 / 140737488355328 := by
  rw [fl_eq (6666512606305011 / 281474976710656 - 5185065360459453 / 281474976710656) 2 5925788983382232
    (by norm_num [abs_of_pos]) (by norm_num [abs_of_pos])
    (roundHalfEven_eq _ _ (by norm_num) (by norm_num))]
  norm_num

theorem gapFl_19_100_4 :
    fl (1018494981518821 / 35184372088832 - 6666512606305011 / 281474976710656) =
      1481447245845557 / 281474976710656 := by
  rw [fl_eq (1018494981518821 / 35184372088832 - 6666512606305011 / 281474976710656) 2 5925788983382228
    (by norm_num [abs_of_pos]) (by norm_num [abs_of_pos])
    (roundHalfEven_eq _ _ (by norm_num) (by norm_num))]
  norm_num

theorem gapFl_19_100_5 :
    fl (4814703548998063 / 140737488355328 - 1018494981518821 / 35184372088832) =
      740723622922779 / 140737488355328 := by
  rw [fl_eq (4814703548998063 / 140737488355328 - 1018494981518821 / 35184372088832) 2 5925788983382232
    (by norm_num [abs_of_pos]) (by norm_num [abs_of_pos])
    (roundHalfEven_eq _ _ (by norm_num) (by norm_num))]
  norm_num

theorem gapFl_19_100_6 :
    fl (2777713585960421 / 70368744177664 - 4814703548998063 / 140737488355328) =
      740723622922779 / 140737488355328 := by
  rw [fl_eq (2777713585960421 / 70368744177664 - 4814703548998063 / 140737488355328) 2 5925788983382232
    (by norm_num [abs_of_pos]) (by norm_num [abs_of_pos])
    (roundHalfEven_eq _ _ (by norm_num) (by norm_num))]
  norm_num

theorem gapFl_19_100_7 :
    fl (6296150794843621 / 140737488355328 - 2777713585960421 / 70368744177664) =
      740723622922779 / 140737488355328 := by
  rw [fl_eq (6296150794843621 / 140737488355328 - 2777713585960421 / 70368744177664) 2 5925788983382232
    (by norm_num [abs_of_pos]) (by norm_num [abs_of_pos])
    (roundHalfEven_eq _ _ (by norm_num) (by norm_num))]
  norm_num

theorem gapFl_19_100_8 :
    fl (50 - 6296150794843621 / 140737488355328) =
      740723622922779 / 140737488355328 := by
  rw [fl_eq (50 - 6296150794843621 / 140737488355328) 2 5925788983382232
    (by norm_num [abs_of_pos]) (by norm_num [abs_of_pos])
    (roundHalfEven_eq _ _ (by norm_num) (by norm_num))]
  norm_num

theorem gapFl_19_100_9 :
    fl (7777598040689179 / 140737488355328 - 50) =
      740723622922779 / 140737488355328 := by
  rw [fl_eq (7777598040689179 / 140737488355328 - 50) 2 5925788983382232
    (by norm_num [abs_of_pos]) (by norm_num [abs_of_pos])
    (roundHalfEven_eq _ _ (by norm_num) (by norm_num))]
  norm_num

theorem gapFl_19_100_10 :
    fl (4259160831805979 / 70368744177664 - 7777598040689179 / 140737488355328) =
      740723622922779 / 140737488355328 := by
  rw [fl_eq (4259160831805979 / 70368744177664 - 7777598040689179 / 140737488355328) 2 5925788983382232
    (by norm_num [abs_of_pos]) (by norm_num [abs_of_pos])
    (roundHalfEven_eq _ _ (by norm_num) (by norm_num))]
  norm_num

theorem gapFl_19_100_11 :
    fl (578690330408421 / 8796093022208 - 4259160831805979 / 70368744177664) =
      370361811461389 / 70368744177664 := by
  rw [fl_eq (578690330408421 / 8796093022208 - 4259160831805979 / 70368744177664) 2 5925788983382224
    (by norm_num [abs_of_pos]) (by norm_num [abs_of_pos])
    (roundHalfEven_eq _ _ (by norm_num) (by norm_num))]
  norm_num

theorem gapFl_19_100_12 :
    fl (2499942227364379 / 35184372088832 - 578690330408421 / 8796093022208) =
      185180905730695 / 35184372088832 := by
  rw [fl_eq (2499942227364379 / 35184372088832 - 578690330408421 / 8796093022208) 2 5925788983382240
    (by norm_num [abs_of_pos]) (by norm_num [abs_of_pos])
    (roundHalfEven_eq _ _ (by norm_num) (by norm_num))]
  norm_num

theorem gapFl_19_100_13 :
    fl (5370246266190147 / 70368744177664 - 2499942227364379 / 35184372088832) =
      370361811461389 / 70368744177664 := by
  rw [fl_eq (5370246266190147 / 70368744177664 - 2499942227364379 / 35184372088832) 2 5925788983382224
    (by norm_num [abs_of_pos]) (by norm_num [abs_of_pos])
    (roundHalfEven_eq _ _ (by norm_num) (by norm_num))]
  norm_num

theorem gapFl_19_100_14 :
    fl (5740608077651537 / 70368744177664 - 5370246266190147 / 70368744177664) =
      185180905730695 / 35184372088832 := by
  rw [fl_eq (5740608077651537 / 70368744177664 - 5370246266190147 / 70368744177664) 2 5925788983382240
    (by norm_num [abs_of_pos]) (by norm_num [abs_of_pos])
    (roundHalfEven_eq _ _ (by norm_num) (by norm_num))]
  norm_num

theorem gapFl_19_100_15 :
    fl (3055484944556463 / 35184372088832 - 5740608077651537 / 70368744177664) =
      370361811461389 / 70368744177664 := by
  rw [fl_eq (3055484944556463 / 35184372088832 - 5740608077651537 / 70368744177664) 2 5925788983382224
    (by norm_num [abs_of_pos]) (by norm_num [abs_of_pos])
    (roundHalfEven_eq _ _ (by norm_num) (by norm_num))]
  norm_num

theorem gapFl_19_100_16 :
    fl (1620332925143579 / 17592186044416 - 3055484944556463 / 35184372088832) =
      185180905730695 / 35184372088832 := by
  rw [fl_eq (1620332925143579 / 17592186044416 - 3055484944556463 / 35184372088832) 2 5925788983382240
    (by norm_num [abs_of_pos]) (by norm_num [abs_of_pos])
    (roundHalfEven_eq _ _ (by norm_num) (by norm_num))]
  norm_num

theorem gapFl_19_100_17 :
    fl (6851693512035705 / 70368744177664 - 1620332925143579 / 17592186044416) =
      370361811461389 / 70368744177664 := by
  rw [fl_eq (6851693512035705 / 70368744177664 - 1620332925143579 / 17592186044416) 2 5925788983382224
    (by norm_num [abs_of_pos]) (by norm_num [abs_of_pos])
    (roundHalfEven_eq _ _ (by norm_num) (by norm_num))]
  norm_num

theorem firstFl_19_100 :
    fl (740723622922779 / 281474976710656 * 2) =
      740723622922779 / 140737488355328 := by
  rw [fl_eq (740723622922779 / 281474976710656 * 2) 2 5925788983382232
    (by norm_num [abs_of_pos]) (by norm_num [abs_of_pos])
    (roundHalfEven_eq _ _ (by norm_num) (by norm_num))]
  norm_num

theorem lastFl_19_100 :
    fl (100 - 6851693512035705 / 70368744177664) =
      185180905730695 / 70368744177664 := by
  rw [fl_eq (100 - 6851693512035705 / 70368744177664) 1 5925788983382240
    (by norm_num [abs_of_pos]) (by norm_num [abs_of_pos])
    (roundHalfEven_eq _ _ (by norm_num) (by norm_num))]
  norm_num

theorem lastTwiceFl_19_100 :
    fl (185180905730695 / 70368744177664 * 2) =
      185180905730695 / 35184372088832 := by
  rw [fl_eq (185180905730695 / 70368744177664 * 2) 2 5925788983382240
    (by norm_num [abs_of_pos]) (by norm_num [abs_of_pos])
    (roundHalfEven_eq _ _ (by norm_num) (by norm_num))]
  norm_num

theorem fl_095 : fl (0.95) = 4278419646001971 / 4503599627370496 := by
  rw [fl_eq (0.95) (-1) 8556839292003942
    (by norm_num [abs_of_pos]) (by norm_num [abs_of_pos])
    (roundHalfEven_eq _ _ (by norm_num) (by norm_num))]
  norm_num

theorem scaledFl_19_100 :
    fl (370361811461389 / 70368744177664 * (4278419646001971 / 4503599627370496)) =
      5629499534213113 / 1125899906842624 := by
  rw [fl_eq (370361811461389 / 70368744177664 * (4278419646001971 / 4503599627370496)) 2 5629499534213113
    (by norm_num [abs_of_pos]) (by norm_num [abs_of_pos])
    (roundHalfEven_eq _ _ (by norm_num) (by norm_num))]
  norm_num

theorem initialLinesFl_19_100 :
    initialLinesFl 19 100 =
      [740723622922779 / 281474976710656, 8888683475073347 / 1125899906842624,
      7407236229227789 / 562949953421312, 5185065360459453 / 281474976710656,
      6666512606305011 / 281474976710656, 1018494981518821 / 35184372088832,
      4814703548998063 / 140737488355328, 2777713585960421 / 70368744177664,
      6296150794843621 / 140737488355328, 50, 7777598040689179 / 140737488355328,
      4259160831805979 / 70368744177664, 578690330408421 / 8796093022208,
      2499942227364379 / 35184372088832, 5370246266190147 / 70368744177664,
      5740608077651537 / 70368744177664, 3055484944556463 / 35184372088832,
      1620332925143579 / 17592186044416, 6851693512035705 / 70368744177664] := by
  have hr : List.range 19 = [0, 1, 2, 3, 4, 5, 6, 7, 8, 9, 10, 11, 12, 13, 14, 15, 16, 17, 18] := by
    decide
  simp only [initialLinesFl, hr, List.map_cons, List.map_nil,
    initialLineFl_19_100_0, initialLineFl_19_100_1, initialLineFl_19_100_2,
    initialLineFl_19_100_3, initialLineFl_19_100_4, initialLineFl_19_100_5,
    initialLineFl_19_100_6, initialLineFl_19_100_7, initialLineFl_19_100_8,
    initialLineFl_19_100_9, initialLineFl_19_100_10, initialLineFl_19_100_11,
    initialLineFl_19_100_12, initialLineFl_19_100_13, initialLineFl_19_100_14,
    initialLineFl_19_100_15, initialLineFl_19_100_16, initialLineFl_19_100_17,
    initialLineFl_19_100_18]

theorem axisMinDistFl_19_100 :
    axisMinDistFl (initialLinesFl 19 100) 100 = some (370361811461389 / 70368744177664) := by
  rw [initialLinesFl_19_100]
  simp only [axisMinDistFl, List.tail_cons, List.zipWith_cons_cons, List.zipWith_nil_right,
    List.head?_cons, List.getLast?_cons_cons, List.getLast?_singleton, List.foldl_cons,
    List.foldl_nil, jsMin,
    gapFl_19_100_0, gapFl_19_100_1, gapFl_19_100_2, gapFl_19_100_3, gapFl_19_100_4,
    gapFl_19_100_5, gapFl_19_100_6, gapFl_19_100_7, gapFl_19_100_8, gapFl_19_100_9,
    gapFl_19_100_10, gapFl_19_100_11, gapFl_19_100_12, gapFl_19_100_13, gapFl_19_100_14,
    gapFl_19_100_15, gapFl_19_100_16, gapFl_19_100_17, firstFl_19_100, lastFl_19_100,
    lastTwiceFl_19_100]
  norm_num

theorem autoCellSizeFl_19_100 : autoCellSizeFl (initialLinesFl 19 100) 100 = some 4 := by
  rw [autoCellSizeFl, axisMinDistFl_19_100]
  simp only [Option.map_some', fl_095, scaledFl_19_100]
  norm_num [Int.floor_eq_iff]

theorem fl_100_div_4 : fl (((100 : Nat) : ℚ) / ((4 : Nat) : ℚ)) = 25 := by
  rw [fl_eq (((100 : Nat) : ℚ) / ((4 : Nat) : ℚ)) 4 7036874417766400
    (by norm_num [abs_of_pos]) (by norm_num [abs_of_pos])
    (roundHalfEven_eq _ _ (by norm_num) (by norm_num))]
  norm_num

theorem fl_100_div_6 :
    fl (((100 : Nat) : ℚ) / ((6 : Nat) : ℚ)) =
      4691249611844267 / 281474976710656 := by
  rw [fl_eq (((100 : Nat) : ℚ) / ((6 : Nat) : ℚ)) 4 4691249611844267
    (by norm_num [abs_of_pos]) (by norm_num [abs_of_pos])
    (roundHalfEven_eq _ _ (by norm_num) (by norm_num))]
  norm_num

theorem fl_row5_100 :
    fl (((5 : Nat) : ℚ) * (4691249611844267 / 281474976710656)) =
      2932031007402667 / 35184372088832 := by
  rw [fl_eq (((5 : Nat) : ℚ) * (4691249611844267 / 281474976710656)) 6 5864062014805334
    (by norm_num [abs_of_pos]) (by norm_num [abs_of_pos])
    (roundHalfEven_eq _ _ (by norm_num) (by norm_num))]
  norm_num

theorem fl_260_div_14 : fl (260 / ((14 : Nat) : ℚ)) = 5227392424626469 / 281474976710656 := by
  rw [fl_eq (260 / ((14 : Nat) : ℚ)) 4 5227392424626469
    (by norm_num [abs_of_pos]) (by norm_num [abs_of_pos])
    (roundHalfEven_eq _ _ (by norm_num) (by norm_num))]
  norm_num

theorem fl_100_div_one : fl (100 / ((1 : Nat) : ℚ)) = 100 := by
  rw [fl_eq (100 / ((1 : Nat) : ℚ)) 6 7036874417766400
    (by norm_num [abs_of_pos]) (by norm_num [abs_of_pos])
    (roundHalfEven_eq _ _ (by norm_num) (by norm_num))]
  norm_num

theorem fl_130_div_cell :
    fl (130 / (5227392424626469 / 281474976710656)) =
      7881299347898367 / 1125899906842624 := by
  rw [fl_eq (130 / (5227392424626469 / 281474976710656)) 2 7881299347898367
    (by norm_num [abs_of_pos]) (by norm_num [abs_of_pos])
    (roundHalfEven_eq _ _ (by norm_num) (by norm_num))]
  norm_num

theorem fl_50_div_cell : fl (50 / 100) = 1 / 2 := by
  rw [fl_eq (50 / 100) (-1) 4503599627370496
    (by norm_num [abs_of_pos]) (by norm_num [abs_of_pos])
    (roundHalfEven_eq _ _ (by norm_num) (by norm_num))]
  norm_num

/-! ## Geometry model: claims C1 to C3 -/

/-- C1. In uniform mode, with an image of extent `W × H` loaded and no
override at the cell, `getCropAreas` returns at position `row * cols + col`
the rectangle `{col * (W / cols), row * (H / rows), W / cols, H / rows}`; for a
100×100 image and a 2×2 grid without overrides it returns
`[{0,0,50,50}, {50,0,50,50}, {0,50,50,50}, {50,50,50,50}]`. -/
theorem getCropAreas_uniform_cell :
    (∀ (s : State) (img : ImageExtent) (row col : Nat),
      s.mode = Mode.uniform → s.originalImage = some img →
      s.customAreas (row * s.cols + col) = none → row < s.rows → col < s.cols →
      ∃ areas, getCropAreas s = some areas ∧
        areas[row * s.cols + col]? = some
          { x := (col : ℚ) * ((img.width : ℚ) / (s.cols : ℚ)),
            y := (row : ℚ) * ((img.height : ℚ) / (s.rows : ℚ)),
            width := (img.width : ℚ) / (s.cols : ℚ),
            height := (img.height : ℚ) / (s.rows : ℚ) }) ∧
    (∀ s : State, s.mode = Mode.uniform → s.originalImage = some ⟨100, 100⟩ →
      s.rows = 2 → s.cols = 2 → (∀ i, s.customAreas i = none) →
      getCropAreas s =
        some [⟨0, 0, 50, 50⟩, ⟨50, 0, 50, 50⟩, ⟨0, 50, 50, 50⟩, ⟨50, 50, 50, 50⟩]) := by
  refine ⟨?_, ?_⟩
  · intro s img row col hmode himg hno hrow hcol
    refine ⟨_, getCropAreas_of_uniform s img hmode himg, ?_⟩
    have h := getElem?_flatMap_map
      (fun row col => match s.customAreas (row * s.cols + col) with
        | some a => a
        | none => uniformCell img s row col)
      (List.range s.rows) (List.range s.cols) row col (by simpa using hcol)
    simp only [List.length_range] at h
    rw [h]
    simp [List.getElem?_range, hrow, hcol, hno, uniformCell]
  · intro s hmode himg hrows hcols hno
    simp [getCropAreas, hmode, himg, hrows, hcols, hno, uniformCell, List.range_succ,
      List.flatMap]
    norm_num

/-- Witness of C1 on the 2×2 grid over a 100×100 image. -/
theorem getCropAreas_uniform_cell_witness :
    getCropAreas uniform2x2 =
      some [⟨0, 0, 50, 50⟩, ⟨50, 0, 50, 50⟩, ⟨0, 50, 50, 50⟩, ⟨50, 50, 50, 50⟩] :=
  getCropAreas_uniform_cell.2 uniform2x2 rfl rfl rfl rfl (fun _ => rfl)

/-- C2. In center-line mode, with an image of extent `W × H` loaded and no
override at the cell, `getCropAreas` returns at the row-major position of the
pair (`j`-th Y line `cy`, `i`-th X line `cx`) the rectangle of size
`cellWidth × cellHeight` with `x = max 0 (min (W - cellWidth) (cx - cellWidth/2))`
and `y = max 0 (min (H - cellHeight) (cy - cellHeight/2))`; with `cx = 10` and
`cellWidth = 60` in a 100-wide image, `x` is `0`. -/
theorem getCropAreas_centerline_cell :
    (∀ (s : State) (img : ImageExtent) (j i : Nat) (cy cx : ℚ),
      s.mode = Mode.centerline → s.originalImage = some img →
      s.centerLinesY[j]? = some cy → s.centerLinesX[i]? = some cx →
      s.customAreas (j * s.centerLinesX.length + i) = none →
      ∃ areas, getCropAreas s = some areas ∧
        areas[j * s.centerLinesX.length + i]? = some
          { x := max 0 (min ((img.width : ℚ) - s.cellWidth) (cx - s.cellWidth / 2)),
            y := max 0 (min ((img.height : ℚ) - s.cellHeight) (cy - s.cellHeight / 2)),
            width := s.cellWidth,
            height := s.cellHeight }) ∧
    (∀ (s : State) (img : ImageExtent) (cy : ℚ),
      s.mode = Mode.centerline → s.originalImage = some img → img.width = 100 →
      s.cellWidth = 60 → s.centerLinesX = [10] → s.centerLinesY = [cy] →
      s.customAreas 0 = none →
      ∃ a, getCropAreas s = some [a] ∧ a.x = 0 ∧ a.width = 60) := by
  have key : ∀ (s : State) (img : ImageExtent) (j i : Nat) (cy cx : ℚ),
      s.mode = Mode.centerline → s.originalImage = some img →
      s.centerLinesY[j]? = some cy → s.centerLinesX[i]? = some cx →
      s.customAreas (j * s.centerLinesX.length + i) = none →
      ∃ areas, getCropAreas s = some areas ∧
        areas[j * s.centerLinesX.length + i]? = some
          { x := max 0 (min ((img.width : ℚ) - s.cellWidth) (cx - s.cellWidth / 2)),
            y := max 0 (min ((img.height : ℚ) - s.cellHeight) (cy - s.cellHeight / 2)),
            width := s.cellWidth,
            height := s.cellHeight } := by
    intro s img j i cy cx hmode himg hcy hcx hno
    have hne : s.mode ≠ Mode.uniform := by rw [hmode]; decide
    refine ⟨_, getCropAreas_of_not_uniform s img hne himg, ?_⟩
    have hi : i < s.centerLinesX.length := by
      rcases List.getElem?_eq_some.1 hcx with ⟨h, _⟩
      exact h
    rw [List.getElem?_map, List.getElem?_enum, linePairs_getElem? s j i hi, hcy, hcx]
    simp [hno, centerLineCell]
  refine ⟨key, ?_⟩
  intro s img cy hmode himg hw hcw hX hY hno
  have hne : s.mode ≠ Mode.uniform := by rw [hmode]; decide
  refine ⟨centerLineCell img s cy 10, ?_, ?_, ?_⟩
  · rw [getCropAreas_of_not_uniform s img hne himg]
    simp [linePairs, hX, hY, hno, List.enum]
  · simp [centerLineCell, hcw, hw]
    norm_num
  · simp [centerLineCell, hcw]

/-- Witness of C2: the single cell of `centerNearEdge` is shifted to `x = 0`
and keeps its width of 60. -/
theorem getCropAreas_centerline_cell_witness :
    ∃ a, getCropAreas centerNearEdge = some [a] ∧ a.x = 0 ∧ a.width = 60 :=
  getCropAreas_centerline_cell.2 centerNearEdge ⟨100, 100⟩ 50 rfl rfl rfl rfl rfl rfl rfl

/-- C3, counterexample. A center-line cell of 200×200 (at least 10 on both
sides) on a 100×100 image is pinned at the origin and reaches beyond the right
and bottom edges of the image. In uniform mode the bound fails in binary64: on
a 100×100 image under the default grid of six rows the cell height is
16.666666666666668, the last row starts at 83.33333333333334, and the sum of
the two stored values exceeds 100. -/
theorem getCropAreas_oversized_cell_outside :
    oversizedCell.originalImage = some ⟨100, 100⟩ ∧
    oversizedCell.mode = Mode.centerline ∧
    0 < oversizedCell.rows ∧ 0 < oversizedCell.cols ∧
    10 ≤ oversizedCell.cellWidth ∧ 10 ≤ oversizedCell.cellHeight ∧
    (∀ i, oversizedCell.customAreas i = none) ∧
    getCropAreas oversizedCell = some [⟨0, 0, 200, 200⟩] ∧
    ¬ ((0 : ℚ) + 200 ≤ ((100 : Nat) : ℚ)) ∧
    uniformCellFl ⟨100, 100⟩ defaultGrid 5 0 =
      ⟨0, 2932031007402667 / 35184372088832, 25, 4691249611844267 / 281474976710656⟩ ∧
    ¬ ((2932031007402667 / 35184372088832 + 4691249611844267 / 281474976710656 : ℚ) ≤
      ((100 : Nat) : ℚ)) := by
  refine ⟨rfl, rfl, by decide, by decide, ?_, ?_, fun _ => rfl, ?_, by norm_num, ?_,
    by norm_num⟩
  · simp [oversizedCell]; norm_num
  · simp [oversizedCell]; norm_num
  · rw [getCropAreas_of_not_uniform oversizedCell ⟨100, 100⟩ (by decide) rfl]
    simp [linePairs, oversizedCell, initialState, List.enum, centerLineCell]
    norm_num
  · simp only [uniformCellFl, defaultGrid, initialState, fl_100_div_4, fl_100_div_6,
      fl_row5_100]
    simp [fl]

/-- C3, amended. Over exact arithmetic, with an image loaded and no override,
every rectangle of `getCropAreas` lies within the image (`0 ≤ x`, `0 ≤ y`,
`x + width ≤ W`, `y + height ≤ H`) in uniform mode, and outside uniform mode
whenever the cell size does not exceed the image (`cellWidth ≤ W` and
`cellHeight ≤ H`). Outside uniform mode every rectangle has the size
`cellWidth × cellHeight`; a cell wider than the image is pinned at `x = 0` and
reaches beyond the right edge, a cell higher than the image is pinned at
`y = 0` and reaches beyond the bottom edge. -/
theorem getCropAreas_within_image (s : State) (img : ImageExtent)
    (himg : s.originalImage = some img) (hno : ∀ i, s.customAreas i = none) :
    ((s.mode = Mode.uniform ∨
        (s.cellWidth ≤ (img.width : ℚ) ∧ s.cellHeight ≤ (img.height : ℚ))) →
      ∃ areas, getCropAreas s = some areas ∧
        ∀ a ∈ areas, 0 ≤ a.x ∧ 0 ≤ a.y ∧
          a.x + a.width ≤ (img.width : ℚ) ∧ a.y + a.height ≤ (img.height : ℚ)) ∧
    (s.mode ≠ Mode.uniform →
      ∃ areas, getCropAreas s = some areas ∧
        ∀ a ∈ areas, a.width = s.cellWidth ∧ a.height = s.cellHeight ∧
          ((img.width : ℚ) < s.cellWidth → a.x = 0 ∧ (img.width : ℚ) < a.x + a.width) ∧
          ((img.height : ℚ) < s.cellHeight →
            a.y = 0 ∧ (img.height : ℚ) < a.y + a.height)) := by
  constructor
  · intro hsize
    by_cases hmode : s.mode = Mode.uniform
    · refine ⟨_, getCropAreas_of_uniform s img hmode himg, ?_⟩
      intro a ha
      simp only [List.mem_flatMap, List.mem_map, List.mem_range, hno] at ha
      obtain ⟨row, hrow, col, hcol, rfl⟩ := ha
      have hW : (0 : ℚ) ≤ (img.width : ℚ) := Nat.cast_nonneg _
      have hH : (0 : ℚ) ≤ (img.height : ℚ) := Nat.cast_nonneg _
      have hc : (0 : ℚ) < (s.cols : ℚ) := by
        exact_mod_cast Nat.lt_of_le_of_lt (Nat.zero_le _) hcol
      have hr : (0 : ℚ) < (s.rows : ℚ) := by
        exact_mod_cast Nat.lt_of_le_of_lt (Nat.zero_le _) hrow
      have hc1 : (col : ℚ) + 1 ≤ (s.cols : ℚ) := by exact_mod_cast hcol
      have hr1 : (row : ℚ) + 1 ≤ (s.rows : ℚ) := by exact_mod_cast hrow
      have hcw : 0 ≤ (img.width : ℚ) / (s.cols : ℚ) := div_nonneg hW hc.le
      have hch : 0 ≤ (img.height : ℚ) / (s.rows : ℚ) := div_nonneg hH hr.le
      have hwe : (img.width : ℚ) / (s.cols : ℚ) * (s.cols : ℚ) = (img.width : ℚ) :=
        div_mul_cancel₀ _ hc.ne'
      have hhe : (img.height : ℚ) / (s.rows : ℚ) * (s.rows : ℚ) = (img.height : ℚ) :=
        div_mul_cancel₀ _ hr.ne'
      refine ⟨by simp only [uniformCell]; positivity, by simp only [uniformCell]; positivity,
        ?_, ?_⟩
      · simp only [uniformCell]
        nlinarith [mul_le_mul_of_nonneg_left hc1 hcw]
      · simp only [uniformCell]
        nlinarith [mul_le_mul_of_nonneg_left hr1 hch]
    · obtain ⟨hw, hh⟩ := hsize.resolve_left hmode
      refine ⟨_, getCropAreas_of_not_uniform s img hmode himg, ?_⟩
      intro a ha
      simp only [List.mem_map, hno] at ha
      obtain ⟨p, _, rfl⟩ := ha
      simp only [centerLineCell]
      refine ⟨le_max_left _ _, le_max_left _ _, ?_, ?_⟩
      · have : max 0 (min ((img.width : ℚ) - s.cellWidth) (p.2.2 - s.cellWidth / 2)) ≤
            (img.width : ℚ) - s.cellWidth :=
          max_le (by linarith) (min_le_left _ _)
        linarith
      · have : max 0 (min ((img.height : ℚ) - s.cellHeight) (p.2.1 - s.cellHeight / 2)) ≤
            (img.height : ℚ) - s.cellHeight :=
          max_le (by linarith) (min_le_left _ _)
        linarith
  · intro hmode
    refine ⟨_, getCropAreas_of_not_uniform s img hmode himg, ?_⟩
    intro a ha
    simp only [List.mem_map, hno] at ha
    obtain ⟨p, _, rfl⟩ := ha
    simp only [centerLineCell]
    refine ⟨trivial, trivial, ?_, ?_⟩
    · intro hw
      have hx : max 0 (min ((img.width : ℚ) - s.cellWidth) (p.2.2 - s.cellWidth / 2)) = 0 :=
        max_eq_left ((min_le_left _ _).trans (by linarith))
      rw [hx]
      exact ⟨rfl, by linarith⟩
    · intro hh
      have hy : max 0 (min ((img.height : ℚ) - s.cellHeight) (p.2.1 - s.cellHeight / 2)) = 0 :=
        max_eq_left ((min_le_left _ _).trans (by linarith))
      rw [hy]
      exact ⟨rfl, by linarith⟩

/-- Witness of C3 (amended): `centerNearEdge`, whose 60×60 cell fits the
100×100 image, and `oversizedCell`, whose 200×200 cell does not. -/
theorem getCropAreas_within_image_witness :
    (∃ areas, getCropAreas centerNearEdge = some areas ∧
      ∀ a ∈ areas, 0 ≤ a.x ∧ 0 ≤ a.y ∧
        a.x + a.width ≤ ((100 : Nat) : ℚ) ∧ a.y + a.height ≤ ((100 : Nat) : ℚ)) ∧
    oversizedCell.mode ≠ Mode.uniform ∧
    ∃ areas, getCropAreas oversizedCell = some areas ∧
      ∀ a ∈ areas, a.width = oversizedCell.cellWidth ∧ a.height = oversizedCell.cellHeight ∧
        (((100 : Nat) : ℚ) < oversizedCell.cellWidth →
          a.x = 0 ∧ ((100 : Nat) : ℚ) < a.x + a.width) ∧
        (((100 : Nat) : ℚ) < oversizedCell.cellHeight →
          a.y = 0 ∧ ((100 : Nat) : ℚ) < a.y + a.height) :=
  ⟨(getCropAreas_within_image centerNearEdge ⟨100, 100⟩ rfl (fun _ => rfl)).1
      (Or.inr ⟨by simp [centerNearEdge]; norm_num, by simp [centerNearEdge]; norm_num⟩),
    by decide,
    (getCropAreas_within_image oversizedCell ⟨100, 100⟩ rfl (fun _ => rfl)).2 (by decide)⟩

/-! ## Number of cells: claim C4 -/

/-- The count invariant under the reading that a drag is one gesture (the
lines are not regenerated between its `mousedown` and its `mouseup`): in
every such reachable session with an image loaded, `centerLinesX` has `cols`
entries, `centerLinesY` has `rows` entries, and `getCropAreas` returns exactly
`rows * cols` rectangles, whatever the mode. -/
theorem getCropAreas_length_of_gestures (a : Session) (h : Reachable a) (img : ImageExtent)
    (himg : a.state.originalImage = some img) :
    a.state.centerLinesX.length = a.state.cols ∧
    a.state.centerLinesY.length = a.state.rows ∧
    ∃ areas, getCropAreas a.state = some areas ∧
      areas.length = a.state.rows * a.state.cols := by
  obtain ⟨hx, hy⟩ := (linesMatch_of_reachable h).1 (by rw [himg]; exact Option.some_ne_none img)
  refine ⟨hx, hy, ?_⟩
  by_cases hmode : a.state.mode = Mode.uniform
  · refine ⟨_, getCropAreas_of_uniform a.state img hmode himg, ?_⟩
    have hl := length_flatMap_map
      (fun row col => match a.state.customAreas (row * a.state.cols + col) with
        | some c => c
        | none => uniformCell img a.state row col)
      (List.range a.state.rows) (List.range a.state.cols)
    simpa using hl
  · refine ⟨_, getCropAreas_of_not_uniform a.state img hmode himg, ?_⟩
    rw [List.length_map, List.enum_length, linePairs_length, hx, hy]

/-- C4, at the failing input. A 100×100 image is loaded under the default
grid of six rows and four columns and the mode switched to center lines; the
last X line (index 3) is pressed, the column input is set to `3` while the
line is held, and the pointer moves. The column change regenerates three X
lines and leaves `state.dragging` at index 3, so the pointer-move writes
`centerLinesX[3]` past the end: the session is reachable, has six rows and
three columns, four X lines, and `getCropAreas` returns 24 rectangles, not
`rows * cols = 18`. -/
theorem gridChange_during_drag_breaks_count :
    ReachableAnyOrder staleDrag ∧
    staleDrag.state.originalImage = some ⟨100, 100⟩ ∧
    staleDrag.state.rows = 6 ∧ staleDrag.state.cols = 3 ∧
    regeneratedWhilePressed.state.centerLinesX.length = 3 ∧
    regeneratedWhilePressed.state.dragging = some { type := Axis.x, index := 3 } ∧
    staleDrag.state.centerLinesX.length = 4 ∧
    (∃ areas, getCropAreas staleDrag.state = some areas ∧ areas.length = 24) ∧
    staleDrag.state.rows * staleDrag.state.cols = 18 := by
  obtain ⟨himg, hmode, hrows, hcols, hx, hy⟩ := staleDrag_fields
  obtain ⟨-, -, -, -, hx0, -, hdrag, -⟩ := regeneratedWhilePressed_fields
  have hstart : ReachableAnyOrder initialSession := ReachableAnyOrder.start _ rfl rfl
  have hreach : ReachableAnyOrder staleDrag :=
    ReachableAnyOrder.step _ _ (ReachableAnyOrder.step _ _ (ReachableAnyOrder.step _ _
      (ReachableAnyOrder.step _ _ (ReachableAnyOrder.step _ _ hstart))))
  refine ⟨hreach, himg, hrows, hcols, hx0, hdrag, hx, ?_, by rw [hrows, hcols]⟩
  refine ⟨_, getCropAreas_of_not_uniform staleDrag.state ⟨100, 100⟩ (by rw [hmode]; decide)
    himg, ?_⟩
  rw [List.length_map, List.enum_length, linePairs_length, hx, hy]

/-! ## Overrides: claim C5 -/

/-- C5. Let `i` be the index of a cell of the current layout and let
`saveCrop` store the working area `A` as the override of `i`. Then
`getCropAreas` returns `A` at `i` and the same rectangle as before at every
other index; and in the state from which the override of `i` is removed
again, `getCropAreas` returns at `i` the rectangle it returns when there is
no override at all, that is the one the geometry model computes for `i`. -/
theorem saveCrop_override_roundtrip (a : Session) (img : ImageExtent) (i : Nat)
    (before : List CropArea)
    (himg : a.state.originalImage = some img)
    (hidx : a.cropEditor.currentIndex = (i : Int))
    (hbefore : getCropAreas a.state = some before)
    (hi : i < before.length) :
    (∃ after, getCropAreas (saveCrop a).state = some after ∧
      after.length = before.length ∧
      after[i]? = some a.cropEditor.cropArea ∧
      ∀ j, j ≠ i → after[j]? = before[j]?) ∧
    (∃ cleared computed,
      getCropAreas
        { (saveCrop a).state with
          customAreas := Function.update (saveCrop a).state.customAreas i none } =
        some cleared ∧
      getCropAreas { (saveCrop a).state with customAreas := fun _ => none } = some computed ∧
      i < computed.length ∧
      cleared[i]? = computed[i]?) := by
  obtain ⟨l₀, h₀, hlen₀, hget₀⟩ := getCropAreas_getElem? a.state img himg
  rw [hbefore] at h₀
  cases h₀
  rw [saveCrop_state a i hidx]
  rw [hlen₀] at hi
  constructor
  · obtain ⟨l₁, h₁, hlen₁, hget₁⟩ := getCropAreas_getElem?
      { a.state with
        customAreas := Function.update a.state.customAreas i (some a.cropEditor.cropArea) }
      img himg
    have hcount : cellCount { a.state with
        customAreas := Function.update a.state.customAreas i (some a.cropEditor.cropArea) } =
        cellCount a.state := rfl
    rw [hcount] at hlen₁ hget₁
    refine ⟨l₁, h₁, by rw [hlen₁, hlen₀], ?_, ?_⟩
    · rw [hget₁ i hi]
      simp
    · intro j hj
      by_cases hjlt : j < cellCount a.state
      · rw [hget₁ j hjlt, hget₀ j hjlt]
        simp only [Function.update_noteq hj]
        rfl
      · rw [List.getElem?_eq_none (by omega), List.getElem?_eq_none (by omega)]
  · obtain ⟨l₂, h₂, hlen₂, hget₂⟩ := getCropAreas_getElem?
      { a.state with
        customAreas := Function.update
          (Function.update a.state.customAreas i (some a.cropEditor.cropArea)) i none }
      img himg
    obtain ⟨l₃, h₃, hlen₃, hget₃⟩ := getCropAreas_getElem?
      { a.state with customAreas := fun _ => none } img himg
    have hc₂ : cellCount { a.state with
        customAreas := Function.update
          (Function.update a.state.customAreas i (some a.cropEditor.cropArea)) i none } =
        cellCount a.state := rfl
    have hc₃ : cellCount { a.state with customAreas := fun _ => none } = cellCount a.state :=
      rfl
    rw [hc₂] at hget₂
    rw [hc₃] at hlen₃ hget₃
    refine ⟨l₂, l₃, h₂, h₃, by rw [hlen₃]; exact hi, ?_⟩
    rw [hget₂ i hi, hget₃ i hi]
    simp only [Function.update_same, Option.getD_none]
    rfl

/-- Witness of C5: saving the working area `{10, 10, 30, 30}` for cell `1` of
the 2×2 grid over a 100×100 image. -/
theorem saveCrop_override_roundtrip_witness :
    (∃ after, getCropAreas (saveCrop editingSession).state = some after ∧
      after.length =
        [(⟨0, 0, 50, 50⟩ : CropArea), ⟨50, 0, 50, 50⟩, ⟨0, 50, 50, 50⟩, ⟨50, 50, 50, 50⟩].length ∧
      after[1]? = some editingSession.cropEditor.cropArea ∧
      ∀ j, j ≠ 1 → after[j]? =
        [(⟨0, 0, 50, 50⟩ : CropArea), ⟨50, 0, 50, 50⟩, ⟨0, 50, 50, 50⟩, ⟨50, 50, 50, 50⟩][j]?) ∧
    (∃ cleared computed,
      getCropAreas
        { (saveCrop editingSession).state with
          customAreas := Function.update (saveCrop editingSession).state.customAreas 1 none } =
        some cleared ∧
      getCropAreas { (saveCrop editingSession).state with customAreas := fun _ => none } =
        some computed ∧
      1 < computed.length ∧
      cleared[1]? = computed[1]?) :=
  saveCrop_override_roundtrip editingSession ⟨100, 100⟩ 1
    [⟨0, 0, 50, 50⟩, ⟨50, 0, 50, 50⟩, ⟨0, 50, 50, 50⟩, ⟨50, 50, 50, 50⟩]
    rfl rfl getCropAreas_uniform2x2 (by decide)

/-! ## Topology changes: claims C6 and C7 -/

/-- C6. Every grid control (row or column slider, row or column number
input, quick-grid button), and `onGridSettingsChange` itself, leaves the
override map `customAreas` and the disabled set empty, whatever they held
before. -/
theorem gridControl_clears_overrides (c : GridControl) (s : State) :
    ((gridControl c s).disabledCells = ∅ ∧ ∀ i, (gridControl c s).customAreas i = none) ∧
    ((onGridSettingsChange s).disabledCells = ∅ ∧
      ∀ i, (onGridSettingsChange s).customAreas i = none) := by
  have key : ∀ t : State, (onGridSettingsChange t).disabledCells = ∅ ∧
      ∀ i, (onGridSettingsChange t).customAreas i = none := by
    intro t
    unfold onGridSettingsChange
    obtain ⟨lx, ly, cw, ch, h, _, _⟩ :=
      initializeCenterLines_eq { t with disabledCells := ∅, customAreas := fun _ => none }
    rw [h]
    exact ⟨rfl, fun _ => rfl⟩
  refine ⟨?_, key s⟩
  cases c <;> exact key _

/-- C7, at the failing input. The mode button stores the new mode and, with
an image loaded, regenerates the center lines and the cell size by
`initializeCenterLines`; it leaves the disabled set and the override map
`customAreas` exactly as they were, as well as the row and column counts. On
a state with cell `0` disabled and overridden the switch to center-line mode
leaves cell `0` disabled and its override in place, where the sibling
`onGridSettingsChange` empties both. -/
theorem modeButtonClick_preserves_edits (m : Mode) (s : State) :
    (modeButtonClick m s).mode = m ∧
    (modeButtonClick m s).disabledCells = s.disabledCells ∧
    (modeButtonClick m s).customAreas = s.customAreas ∧
    (modeButtonClick m s).rows = s.rows ∧ (modeButtonClick m s).cols = s.cols ∧
    (modeButtonClick m s =
      match s.originalImage with
      | some _ => initializeCenterLines { s with mode := m }
      | none => { s with mode := m }) ∧
    (editedState.mode = Mode.uniform ∧
      0 ∈ (modeButtonClick Mode.centerline editedState).disabledCells ∧
      (modeButtonClick Mode.centerline editedState).customAreas 0 = some ⟨5, 5, 40, 40⟩ ∧
      (onGridSettingsChange editedState).disabledCells = ∅ ∧
      (onGridSettingsChange editedState).customAreas 0 = none) := by
  obtain ⟨lx, ly, cw, ch, h, _, _⟩ := modeButtonClick_eq m s
  obtain ⟨lx', ly', cw', ch', h', _, _⟩ := modeButtonClick_eq Mode.centerline editedState
  have hgrid : (onGridSettingsChange editedState).disabledCells = ∅ ∧
      (onGridSettingsChange editedState).customAreas 0 = none := by
    unfold onGridSettingsChange
    obtain ⟨lx2, ly2, cw2, ch2, h2, _, _⟩ :=
      initializeCenterLines_eq
        { editedState with disabledCells := ∅, customAreas := fun _ => none }
    rw [h2]
    exact ⟨rfl, rfl⟩
  refine ⟨by rw [h], by rw [h], by rw [h], by rw [h], by rw [h], rfl, rfl, ?_, ?_, hgrid.1,
    hgrid.2⟩
  · rw [h']
    simp [editedState]
  · rw [h']
    rfl

/-! ## Disabled cells and export list: claims C8 and C9 -/

/-- C8. The toggle of the click listener, applied twice to the same index,
restores the disabled set; one toggle of `i` flips the membership of `i` and
of no other index. On the canvas: a click changes the membership of no index
but the cell found under the pointer, and two clicks at the same point, none
of them the click that ends a drag, restore the session. -/
theorem toggleDisabled_twice :
    (∀ (d : Finset Nat) (i : Nat),
      toggleDisabled (toggleDisabled d i) i = d ∧
      (i ∈ toggleDisabled d i ↔ i ∉ d) ∧
      ∀ j, j ≠ i → (j ∈ toggleDisabled d i ↔ j ∈ d)) ∧
    (∀ (a : Session) (x y : ℚ) (j : Nat), (j : Int) ≠ findCellAtPosition a.state x y →
      (j ∈ (click x y a).state.disabledCells ↔ j ∈ a.state.disabledCells)) ∧
    (∀ (a : Session) (x y : ℚ), a.isDragging = false → click x y (click x y a) = a) := by
  have htwice : ∀ (d : Finset Nat) (i : Nat), toggleDisabled (toggleDisabled d i) i = d := by
    intro d i
    unfold toggleDisabled
    by_cases h : i ∈ d
    · simp [h]
    · simp [h]
  have hother : ∀ (d : Finset Nat) (i j : Nat), j ≠ i →
      (j ∈ toggleDisabled d i ↔ j ∈ d) := by
    intro d i j hj
    unfold toggleDisabled
    by_cases h : i ∈ d
    · simp [h, hj]
    · simp [h, hj]
  refine ⟨fun d i => ⟨htwice d i, ?_, fun j hj => hother d i j hj⟩, ?_, ?_⟩
  · unfold toggleDisabled
    by_cases h : i ∈ d
    · simp [h]
    · simp [h]
  · intro a x y j hj
    unfold click
    split
    · exact Iff.rfl
    · split
      · exact Iff.rfl
      · split
        · exact Iff.rfl
        · simp only
          split
          · next hge =>
            apply hother
            intro hji
            apply hj
            rw [hji]
            exact Int.toNat_of_nonneg hge
          · exact Iff.rfl
  · intro a x y hdrag
    have hclick : ∀ b : Session, b.isDragging = false →
        click x y b =
          if b.state.originalImage.isSome ∧
              ¬ (b.state.mode = Mode.centerline ∧ (findLineAtPosition b.state x y).isSome) ∧
              findCellAtPosition b.state x y ≥ 0 then
            ({ b with state := { b.state with disabledCells :=
                (toggleDisabled b.state.disabledCells (findCellAtPosition b.state x y).toNat) } } :
              Session)
          else b := by
      intro b hb
      unfold click
      rw [if_neg (by simp [hb])]
      split
      · next himg => simp [himg]
      · next img himg =>
        by_cases hline : b.state.mode = Mode.centerline ∧
            (findLineAtPosition b.state x y).isSome
        · simp only [hline, and_self, if_true, not_true_eq_false, false_and, and_false,
            if_false]
        · by_cases hge : findCellAtPosition b.state x y ≥ 0
          · simp only [hline, hge, himg, Option.isSome_some, if_false, if_true, not_false_eq_true,
              and_self]
          · simp only [hline, hge, if_false, and_false]
    rw [hclick a hdrag]
    split
    · next hP =>
      have h2 := hclick
        ({ a with state := { a.state with disabledCells :=
            (toggleDisabled a.state.disabledCells (findCellAtPosition a.state x y).toNat) } } :
          Session) hdrag
      refine h2.trans ((if_pos ?_).trans ?_)
      · exact hP
      · show ({ a with state := { a.state with disabledCells :=
          (toggleDisabled (toggleDisabled a.state.disabledCells
            (findCellAtPosition a.state x y).toNat) (findCellAtPosition a.state x y).toNat) } } :
            Session) = a
        rw [htwice]
    · next hP => rw [hclick a hdrag, if_neg hP]

/-- Witness of C8: two clicks at `(10, 10)` on the loaded uniform grid. -/
theorem toggleDisabled_twice_witness :
    click 10 10 (click 10 10 loadedUniform) = loadedUniform :=
  toggleDisabled_twice.2.2 loadedUniform 10 10 rfl

/-- The loop of `generatePreviews` over indices that all have an area: it
ends without throwing and pushes, in order, one entry per index that is not
disabled. -/
theorem previewLoop_ok (cropAreas : List CropArea) (d : Finset Nat) (l : List Nat) :
    ∀ acc : List CroppedImage, (∀ idx ∈ l, idx < cropAreas.length) →
      ∃ out, previewLoop cropAreas d l acc = Except.ok (acc ++ out) ∧
        out.map (fun c => c.index) =
          (l.filter fun idx => decide (idx ∉ d)).map (fun idx => idx + 1) ∧
        ∀ c ∈ out, 1 ≤ c.index ∧ c.index - 1 ∉ d ∧ cropAreas[c.index - 1]? = some c.area := by
  induction l with
  | nil =>
    intro acc _
    exact ⟨[], by simp [previewLoop], rfl, fun c hc => by cases hc⟩
  | cons idx rest ih =>
    intro acc hall
    have hrest : ∀ k ∈ rest, k < cropAreas.length :=
      fun k hk => hall k (List.mem_cons_of_mem idx hk)
    have hidx : idx < cropAreas.length := hall idx (List.mem_cons_self idx rest)
    by_cases hd : idx ∈ d
    · obtain ⟨out, h1, h2, h3⟩ := ih acc hrest
      refine ⟨out, ?_, ?_, h3⟩
      · rw [previewLoop, if_pos hd, h1]
      · rw [h2, List.filter_cons_of_neg (by simpa using hd)]
    · obtain ⟨out, h1, h2, h3⟩ :=
        ih (acc ++ [{ area := cropAreas[idx], index := idx + 1 }]) hrest
      refine ⟨{ area := cropAreas[idx], index := idx + 1 } :: out, ?_, ?_, ?_⟩
      · rw [previewLoop, if_neg hd, List.getElem?_eq_getElem hidx]
        simp only
        rw [h1, List.append_assoc]
        rfl
      · rw [List.filter_cons_of_pos (by simpa using hd), List.map_cons, List.map_cons, h2]
      · intro c hc
        rcases List.mem_cons.1 hc with rfl | hc
        · exact ⟨Nat.le_add_left 1 idx, by simpa using hd, by simp⟩
        · exact h3 c hc

/-- C9. With an image loaded and one area per cell (`getCropAreas` returns
`rows * cols` rectangles), `generatePreviews` returns, and the export list
`croppedImages` it leaves holds, in ascending order of index, exactly one
entry for each cell index `idx < rows * cols` that is not disabled, labelled
`idx + 1` and carrying the effective area `getCropAreas()[idx]`; no disabled
index has an entry. -/
theorem generatePreviews_croppedImages (s : State) (img : ImageExtent)
    (cropAreas : List CropArea)
    (himg : s.originalImage = some img)
    (hareas : getCropAreas s = some cropAreas)
    (hlen : cropAreas.length = s.rows * s.cols) :
    ∃ s', generatePreviews s = Except.ok s' ∧
      s'.croppedImages.map (fun c => c.index) =
        ((List.range (s.rows * s.cols)).filter fun idx => decide (idx ∉ s.disabledCells)).map
          (fun idx => idx + 1) ∧
      (∀ c ∈ s'.croppedImages,
        1 ≤ c.index ∧ c.index - 1 ∉ s.disabledCells ∧
          cropAreas[c.index - 1]? = some c.area) ∧
      s'.disabledCells = s.disabledCells ∧ s'.customAreas = s.customAreas := by
  have hareas' : getCropAreas { s with croppedImages := [] } = some cropAreas := hareas
  obtain ⟨out, h1, h2, h3⟩ := previewLoop_ok cropAreas s.disabledCells
    (List.range (s.rows * s.cols)) []
    (fun idx hidx => by rw [hlen]; exact List.mem_range.1 hidx)
  refine ⟨{ s with croppedImages := out }, ?_, h2, h3, rfl, rfl⟩
  unfold generatePreviews
  split
  · next hnone => rw [himg] at hnone; cases hnone
  · simp only [hareas', h1]
    rfl

/-- Witness of C9: the 2×2 grid over a 100×100 image with cell `1`
disabled. -/
theorem generatePreviews_croppedImages_witness :
    ∃ s', generatePreviews oneDisabled = Except.ok s' ∧
      s'.croppedImages.map (fun c => c.index) =
        ((List.range (oneDisabled.rows * oneDisabled.cols)).filter
          fun idx => decide (idx ∉ oneDisabled.disabledCells)).map (fun idx => idx + 1) ∧
      (∀ c ∈ s'.croppedImages,
        1 ≤ c.index ∧ c.index - 1 ∉ oneDisabled.disabledCells ∧
          [(⟨0, 0, 50, 50⟩ : CropArea), ⟨50, 0, 50, 50⟩, ⟨0, 50, 50, 50⟩,
            ⟨50, 50, 50, 50⟩][c.index - 1]? = some c.area) ∧
      s'.disabledCells = oneDisabled.disabledCells ∧
      s'.customAreas = oneDisabled.customAreas :=
  generatePreviews_croppedImages oneDisabled ⟨100, 100⟩
    [⟨0, 0, 50, 50⟩, ⟨50, 0, 50, 50⟩, ⟨0, 50, 50, 50⟩, ⟨50, 50, 50, 50⟩]
    rfl getCropAreas_uniform2x2 (by decide)

/-! ## Dragging a center line: claim C10 -/

/-- C10, counterexample. On a 15×15 image the interval `[10, width - 10]` is
empty; a pointer-move at source `x = 7` while the X line is dragged stores
`10`, which is above `width - 10 = 5`, and so does a pointer-move at source
`x = 10^9`, which was to store `width - 10`. -/
theorem mouseMove_tiny_image_outside_inset :
    tinyImageDrag.state.originalImage = some ⟨15, 15⟩ ∧
    tinyImageDrag.state.dragging = some { type := Axis.x, index := 0 } ∧
    (mouseMove 100 7 7 tinyImageDrag).state.centerLinesX = [10] ∧
    (mouseMove 100 (10 ^ 9) 7 tinyImageDrag).state.centerLinesX = [10] ∧
    ¬ ((10 : ℚ) ≤ ((15 : Nat) : ℚ) - 10) := by
  refine ⟨rfl, rfl, ?_, ?_, by norm_num⟩
  · simp [mouseMove, tinyImageDrag, initialSession, initialState, jsArrayWrite]
    norm_num
  · simp [mouseMove, tinyImageDrag, initialSession, initialState, jsArrayWrite]
    norm_num

/-- C10, amended. Let a pointer-move be processed by the listener (at least
16 ms after the last processed one) with an image loaded and a nonzero
display scale, while X line `i` is being dragged. The listener writes at
`centerLinesX[i]` the value `v = max 10 (min (width - 10) (x / scale))` and
leaves `centerLinesY` untouched. `v` is at least `10`. For an image at least
20 wide `v` lies in `[10, width - 10]`, is `10` when the source position is at
most `10` and `width - 10` when it is at least `width - 10`. For an image
narrower than 20 `v` is `10`, which is above `width - 10`. When `i` is an
index of the array, entry `i` becomes `v`, no other entry changes and the
length is kept. The same holds for a dragged Y line with the image height. -/
theorem mouseMove_drag_clamped (a : Session) (now x y : ℚ) (img : ImageExtent) (i : Nat)
    (hnow : ¬ (now - a.lastMoveTime < 16))
    (himg : a.state.originalImage = some img)
    (_hscale : a.state.scale ≠ 0) :
    (a.state.dragging = some { type := Axis.x, index := i } →
      ∃ v, v = max 10 (min ((img.width : ℚ) - 10) (x / a.state.scale)) ∧
        (mouseMove now x y a).state.centerLinesX = jsArrayWrite a.state.centerLinesX i v ∧
        (mouseMove now x y a).state.centerLinesY = a.state.centerLinesY ∧
        10 ≤ v ∧
        (20 ≤ img.width →
          v ≤ (img.width : ℚ) - 10 ∧
          (x / a.state.scale ≤ 10 → v = 10) ∧
          ((img.width : ℚ) - 10 ≤ x / a.state.scale → v = (img.width : ℚ) - 10)) ∧
        (img.width < 20 → v = 10 ∧ (img.width : ℚ) - 10 < v) ∧
        (i < a.state.centerLinesX.length →
          (mouseMove now x y a).state.centerLinesX = a.state.centerLinesX.set i v ∧
          (mouseMove now x y a).state.centerLinesX[i]? = some v ∧
          (∀ j, j ≠ i →
            (mouseMove now x y a).state.centerLinesX[j]? = a.state.centerLinesX[j]?) ∧
          (mouseMove now x y a).state.centerLinesX.length = a.state.centerLinesX.length)) ∧
    (a.state.dragging = some { type := Axis.y, index := i } →
      ∃ v, v = max 10 (min ((img.height : ℚ) - 10) (y / a.state.scale)) ∧
        (mouseMove now x y a).state.centerLinesY = jsArrayWrite a.state.centerLinesY i v ∧
        (mouseMove now x y a).state.centerLinesX = a.state.centerLinesX ∧
        10 ≤ v ∧
        (20 ≤ img.height →
          v ≤ (img.height : ℚ) - 10 ∧
          (y / a.state.scale ≤ 10 → v = 10) ∧
          ((img.height : ℚ) - 10 ≤ y / a.state.scale → v = (img.height : ℚ) - 10)) ∧
        (img.height < 20 → v = 10 ∧ (img.height : ℚ) - 10 < v) ∧
        (i < a.state.centerLinesY.length →
          (mouseMove now x y a).state.centerLinesY = a.state.centerLinesY.set i v ∧
          (mouseMove now x y a).state.centerLinesY[i]? = some v ∧
          (∀ j, j ≠ i →
            (mouseMove now x y a).state.centerLinesY[j]? = a.state.centerLinesY[j]?) ∧
          (mouseMove now x y a).state.centerLinesY.length = a.state.centerLinesY.length)) := by
  have hclamp : ∀ (w : Nat) (t : ℚ),
      10 ≤ max 10 (min ((w : ℚ) - 10) t) ∧
      (20 ≤ w →
        max 10 (min ((w : ℚ) - 10) t) ≤ (w : ℚ) - 10 ∧
        (t ≤ 10 → max 10 (min ((w : ℚ) - 10) t) = 10) ∧
        ((w : ℚ) - 10 ≤ t → max 10 (min ((w : ℚ) - 10) t) = (w : ℚ) - 10)) ∧
      (w < 20 →
        max 10 (min ((w : ℚ) - 10) t) = 10 ∧ (w : ℚ) - 10 < max 10 (min ((w : ℚ) - 10) t)) := by
    intro w t
    refine ⟨le_max_left _ _, ?_, ?_⟩
    · intro hw
      have hw' : (10 : ℚ) ≤ (w : ℚ) - 10 := by
        have : (20 : ℚ) ≤ (w : ℚ) := by exact_mod_cast hw
        linarith
      refine ⟨max_le hw' (min_le_left _ _), ?_, ?_⟩
      · intro ht
        rw [min_eq_right (le_trans ht hw'), max_eq_left ht]
      · intro ht
        rw [min_eq_left ht, max_eq_right hw']
    · intro hw
      have hw' : (w : ℚ) - 10 < 10 := by
        have : (w : ℚ) < 20 := by exact_mod_cast hw
        linarith
      have hv : max 10 (min ((w : ℚ) - 10) t) = 10 :=
        max_eq_left ((min_le_left _ _).trans hw'.le)
      rw [hv]
      exact ⟨rfl, hw'⟩
  have hset : ∀ (l : List ℚ) (v : ℚ), i < l.length →
      jsArrayWrite l i v = l.set i v ∧ (jsArrayWrite l i v)[i]? = some v ∧
      (∀ j, j ≠ i → (jsArrayWrite l i v)[j]? = l[j]?) ∧
      (jsArrayWrite l i v).length = l.length := by
    intro l v hi
    rw [jsArrayWrite_of_lt l i v hi]
    refine ⟨rfl, by simp [List.getElem?_set, hi], ?_, by simp⟩
    intro j hj
    simp [List.getElem?_set, Ne.symm hj]
  constructor
  · intro hdrag
    have hmove : (mouseMove now x y a).state =
        { a.state with centerLinesX := (jsArrayWrite a.state.centerLinesX i
            (max 10 (min ((img.width : ℚ) - 10) (x / a.state.scale)))) } := by
      unfold mouseMove
      rw [if_neg hnow]
      simp only [himg, hdrag]
    obtain ⟨h1, h2, h3⟩ := hclamp img.width (x / a.state.scale)
    refine ⟨_, rfl, by rw [hmove], by rw [hmove], h1, h2, h3, ?_⟩
    intro hi
    rw [hmove]
    exact hset _ _ hi
  · intro hdrag
    have hmove : (mouseMove now x y a).state =
        { a.state with centerLinesY := (jsArrayWrite a.state.centerLinesY i
            (max 10 (min ((img.height : ℚ) - 10) (y / a.state.scale)))) } := by
      unfold mouseMove
      rw [if_neg hnow]
      simp only [himg, hdrag]
    obtain ⟨h1, h2, h3⟩ := hclamp img.height (y / a.state.scale)
    refine ⟨_, rfl, by rw [hmove], by rw [hmove], h1, h2, h3, ?_⟩
    intro hi
    rw [hmove]
    exact hset _ _ hi

/-- Witness of C10 (amended): the first X line of `draggingFirstLine` dragged
to source `x = -1000` on a 100×100 image. -/
theorem mouseMove_drag_clamped_witness :
    ∃ v, v = max 10 (min (((100 : Nat) : ℚ) - 10) (-1000 / draggingFirstLine.state.scale)) ∧
      (mouseMove 100 (-1000) 50 draggingFirstLine).state.centerLinesY =
        draggingFirstLine.state.centerLinesY ∧
      10 ≤ v ∧ v ≤ ((100 : Nat) : ℚ) - 10 ∧
      (-1000 / draggingFirstLine.state.scale ≤ 10 → v = 10) ∧
      (mouseMove 100 (-1000) 50 draggingFirstLine).state.centerLinesX =
        draggingFirstLine.state.centerLinesX.set 0 v ∧
      (mouseMove 100 (-1000) 50 draggingFirstLine).state.centerLinesX[0]? = some v ∧
      (∀ j, j ≠ 0 →
        (mouseMove 100 (-1000) 50 draggingFirstLine).state.centerLinesX[j]? =
          draggingFirstLine.state.centerLinesX[j]?) ∧
      (mouseMove 100 (-1000) 50 draggingFirstLine).state.centerLinesX.length =
        draggingFirstLine.state.centerLinesX.length := by
  obtain ⟨v, hv, -, hy, h10, hwide, -, hidx⟩ :=
    (mouseMove_drag_clamped draggingFirstLine 100 (-1000) 50 ⟨100, 100⟩ 0
      (by simp [draggingFirstLine, initialSession]; norm_num) rfl
      (by simp [draggingFirstLine, initialState])).1 rfl
  obtain ⟨hle, hlow, -⟩ := hwide (by decide)
  obtain ⟨k1, k2, k3, k4⟩ := hidx (by decide)
  exact ⟨v, hv, hy, h10, hle, hlow, k1, k2, k3, k4⟩

/-! ## Hit tests: claims C11 to C14 -/

/-- C11. In center-line mode `findLineAtPosition` returns the X line of
smallest index `i` with `|x - centerLinesX[i] * scale| < 15` when there is
one; otherwise the Y line of smallest index `j` with
`|y - centerLinesY[j] * scale| < 15` when there is one; otherwise no hit. A
point within tolerance of an X line resolves to an X line whatever its
distance to the Y lines. In uniform mode there is no hit. -/
theorem findLineAtPosition_first_hit (s : State) (x y : ℚ) :
    (s.mode = Mode.centerline →
      (∀ (i : Nat) (c : ℚ), s.centerLinesX[i]? = some c → |x - c * s.scale| < 15 →
        (∀ j, j < i → ∀ c', s.centerLinesX[j]? = some c' → ¬ |x - c' * s.scale| < 15) →
        findLineAtPosition s x y = some { type := Axis.x, index := i }) ∧
      ((∀ c ∈ s.centerLinesX, ¬ |x - c * s.scale| < 15) →
        ∀ (j : Nat) (c : ℚ), s.centerLinesY[j]? = some c → |y - c * s.scale| < 15 →
        (∀ k, k < j → ∀ c', s.centerLinesY[k]? = some c' → ¬ |y - c' * s.scale| < 15) →
        findLineAtPosition s x y = some { type := Axis.y, index := j }) ∧
      ((∀ c ∈ s.centerLinesX, ¬ |x - c * s.scale| < 15) →
        (∀ c ∈ s.centerLinesY, ¬ |y - c * s.scale| < 15) →
        findLineAtPosition s x y = none) ∧
      ((∃ c ∈ s.centerLinesX, |x - c * s.scale| < 15) →
        ∃ i, findLineAtPosition s x y = some { type := Axis.x, index := i })) ∧
    (s.mode = Mode.uniform → findLineAtPosition s x y = none) := by
  constructor
  · intro hmode
    have hdef : findLineAtPosition s x y =
        match s.centerLinesX.findIdx? fun c => decide (|x - c * s.scale| < 15) with
        | some i => some { type := Axis.x, index := i }
        | none =>
          match s.centerLinesY.findIdx? fun c => decide (|y - c * s.scale| < 15) with
          | some i => some { type := Axis.y, index := i }
          | none => none := by
      unfold findLineAtPosition
      rw [if_neg (by simp [hmode])]
    refine ⟨?_, ?_, ?_, ?_⟩
    · intro i c hc hhit hfirst
      rw [hdef, findIdx?_eq_some_of_first _ _ i c hc (by simpa using hhit)
        (fun j hj b hb => by simpa using hfirst j hj b hb)]
    · intro hnox j c hc hhit hfirst
      rw [hdef, findIdx?_eq_none_of_forall _ _ (fun c hc => by simpa using hnox c hc),
        findIdx?_eq_some_of_first _ _ j c hc (by simpa using hhit)
          (fun k hk b hb => by simpa using hfirst k hk b hb)]
    · intro hnox hnoy
      rw [hdef, findIdx?_eq_none_of_forall _ _ (fun c hc => by simpa using hnox c hc),
        findIdx?_eq_none_of_forall _ _ (fun c hc => by simpa using hnoy c hc)]
    · rintro ⟨c, hc, hhit⟩
      rw [hdef]
      cases hfind : s.centerLinesX.findIdx? fun c => decide (|x - c * s.scale| < 15) with
      | some i => exact ⟨i, rfl⟩
      | none =>
        rw [List.findIdx?_eq_none_iff] at hfind
        have := hfind c hc
        simp at this
        exact absurd hhit (not_lt.2 this)
  · intro hmode
    unfold findLineAtPosition
    rw [if_pos (by simp [hmode])]

/-- Witness of C11: in `draggingFirstLine` (X lines at 25 and 75, Y line at
50, scale 1) the display point `(30, 55)` is equally close to the first X line
and to the Y line, and resolves to the X line. -/
theorem findLineAtPosition_first_hit_witness :
    findLineAtPosition draggingFirstLine.state 30 55 = some { type := Axis.x, index := 0 } :=
  ((findLineAtPosition_first_hit draggingFirstLine.state 30 55).1 rfl).1 0 25 rfl
    (by simp [draggingFirstLine, initialState]; norm_num [abs_lt])
    (fun j hj => absurd hj (Nat.not_lt_zero j))

/-- C12, counterexample. The state `flooredCanvas` is a 300×200 image under
2 rows and 1 column whose canvas, 100×66 at scale `1/3`, is what
`displayImage` computes in a container 140 px wide. At the display point
`(10, 33)` the direct division of `findCellAtPosition` gives row
`floor(33 / 33) = 1`, cell `1`, while the source-space point
`(30, 99)` lies in the computed rectangle of cell `0`, rows `[0, 100)`. In
binary64 the direct division can also differ on an exact canvas: on a 260×100
image with 14 columns at scale 1 the cell extent is 18.571428571428573 and
the quotient `130 / cellW` is 6.999999999999999, so the display point
`(130, 50)` is cell `6`, where the exact quotient gives cell `7`. -/
theorem findCellAtPosition_floored_canvas_differs :
    displayImage 140 { flooredCanvas with scale := 1, canvasWidth := 0, canvasHeight := 0 } =
      flooredCanvas ∧
    flooredCanvas.mode = Mode.uniform ∧
    findCellAtPosition flooredCanvas 10 33 = 1 ∧
    hitCellScan flooredCanvas 10 33 = 0 ∧
    uniformHitFl wideCanvas 130 50 = 6 ∧
    findCellAtPosition wideCanvas 130 50 = 7 := by
  refine ⟨?_, rfl, ?_, ?_, ?_, ?_⟩
  · simp [displayImage, flooredCanvas, initialState]
    norm_num [Int.floor_eq_iff]
  · simp [findCellAtPosition, flooredCanvas, initialState]
    norm_num [Int.floor_eq_iff]
  · simp [hitCellScan, getCropAreas, flooredCanvas, initialState, uniformCell, List.range_succ,
      List.flatMap, List.findIdx?_cons]
    norm_num
  · simp only [uniformHitFl, wideCanvas, initialState, fl_260_div_14, fl_100_div_one,
      fl_130_div_cell, fl_50_div_cell]
    norm_num [Int.floor_eq_iff]
  · simp [findCellAtPosition, wideCanvas, initialState]
    norm_num [Int.floor_eq_iff]

/-- C12, amended. Over exact arithmetic, in uniform mode, with an image
loaded, a positive display scale and a canvas that is exactly the scaled image
(`canvasWidth = W * scale` and `canvasHeight = H * scale`, nothing lost by
`Math.floor` in `displayImage`), the direct division of `findCellAtPosition`
returns what the linear scan over the computed rectangles returns at the
source-space point `point / scale`: the same cell index, or `-1` for both. -/
theorem findCellAtPosition_uniform_eq_scan (s : State) (img : ImageExtent) (x y : ℚ)
    (hmode : s.mode = Mode.uniform) (himg : s.originalImage = some img)
    (hscale : 0 < s.scale)
    (hcw : s.canvasWidth = (img.width : ℚ) * s.scale)
    (hch : s.canvasHeight = (img.height : ℚ) * s.scale) :
    findCellAtPosition s x y = hitCellScan s x y := by
  obtain ⟨areas, hareas, hlen, hget⟩ := computed_uniform_areas s img hmode himg
  have hscan : hitCellScan s x y =
      match areas.findIdx? fun a =>
          decide (a.x ≤ x / s.scale ∧ x / s.scale < a.x + a.width ∧
            a.y ≤ y / s.scale ∧ y / s.scale < a.y + a.height) with
      | some index => (index : Int)
      | none => -1 := by
    unfold hitCellScan
    simp only [hareas]
  have hdirect : findCellAtPosition s x y =
      if s.canvasWidth / (s.cols : ℚ) = 0 ∨ s.canvasHeight / (s.rows : ℚ) = 0 then -1
      else
        if ⌊x / (s.canvasWidth / (s.cols : ℚ))⌋ ≥ 0 ∧
            ⌊x / (s.canvasWidth / (s.cols : ℚ))⌋ < (s.cols : Int) ∧
            ⌊y / (s.canvasHeight / (s.rows : ℚ))⌋ ≥ 0 ∧
            ⌊y / (s.canvasHeight / (s.rows : ℚ))⌋ < (s.rows : Int) then
          ⌊y / (s.canvasHeight / (s.rows : ℚ))⌋ * (s.cols : Int) +
            ⌊x / (s.canvasWidth / (s.cols : ℚ))⌋
        else -1 := by
    unfold findCellAtPosition
    simp only [himg, hmode]
  have hmem : ∀ a ∈ areas, ∃ k, k < s.rows * s.cols ∧
      a = uniformCell img s (k / s.cols) (k % s.cols) := by
    intro a ha
    obtain ⟨k, hk⟩ := List.mem_iff_getElem?.1 ha
    have hklt : k < s.rows * s.cols := by
      rw [← hlen]
      exact (List.getElem?_eq_some.1 hk).1
    rw [hget k hklt] at hk
    exact ⟨k, hklt, (Option.some.inj hk).symm⟩
  rw [hscan, hdirect]
  by_cases hdeg : s.cols = 0 ∨ s.rows = 0 ∨ img.width = 0 ∨ img.height = 0
  · have hzero : s.canvasWidth / (s.cols : ℚ) = 0 ∨ s.canvasHeight / (s.rows : ℚ) = 0 := by
      rcases hdeg with h | h | h | h
      · left; rw [h]; simp
      · right; rw [h]; simp
      · left; rw [hcw, h]; simp
      · right; rw [hch, h]; simp
    rw [if_pos hzero, findIdx?_eq_none_of_forall]
    intro a ha
    obtain ⟨k, hk, rfl⟩ := hmem a ha
    rcases hdeg with h | h | h | h
    · rw [h] at hk; simp at hk
    · rw [h] at hk; simp at hk
    · simp only [uniformCell, h, Nat.cast_zero, zero_div, mul_zero, add_zero, decide_eq_false_iff_not]
      intro hc
      exact absurd hc.2.1 (not_lt.2 hc.1)
    · simp only [uniformCell, h, Nat.cast_zero, zero_div, mul_zero, add_zero, decide_eq_false_iff_not]
      intro hc
      exact absurd hc.2.2.2 (not_lt.2 hc.2.2.1)
  · have hcols : 0 < s.cols := Nat.pos_of_ne_zero fun h => hdeg (Or.inl h)
    have hrows : 0 < s.rows := Nat.pos_of_ne_zero fun h => hdeg (Or.inr (Or.inl h))
    have hW : 0 < img.width := Nat.pos_of_ne_zero fun h => hdeg (Or.inr (Or.inr (Or.inl h)))
    have hH : 0 < img.height := Nat.pos_of_ne_zero fun h => hdeg (Or.inr (Or.inr (Or.inr h)))
    have hcolsq : (0 : ℚ) < (s.cols : ℚ) := by exact_mod_cast hcols
    have hrowsq : (0 : ℚ) < (s.rows : ℚ) := by exact_mod_cast hrows
    have hWq : (0 : ℚ) < (img.width : ℚ) := by exact_mod_cast hW
    have hHq : (0 : ℚ) < (img.height : ℚ) := by exact_mod_cast hH
    have hcwS : (0 : ℚ) < (img.width : ℚ) / (s.cols : ℚ) := div_pos hWq hcolsq
    have hchS : (0 : ℚ) < (img.height : ℚ) / (s.rows : ℚ) := div_pos hHq hrowsq
    have hcellW : s.canvasWidth / (s.cols : ℚ) ≠ 0 := by
      rw [hcw]
      exact (div_pos (mul_pos hWq hscale) hcolsq).ne'
    have hcellH : s.canvasHeight / (s.rows : ℚ) ≠ 0 := by
      rw [hch]
      exact (div_pos (mul_pos hHq hscale) hrowsq).ne'
    have hqx : x / s.scale / ((img.width : ℚ) / (s.cols : ℚ)) =
        x / (s.canvasWidth / (s.cols : ℚ)) := by
      rw [hcw]
      field_simp
      exact Or.inl (mul_comm _ _)
    have hqy : y / s.scale / ((img.height : ℚ) / (s.rows : ℚ)) =
        y / (s.canvasHeight / (s.rows : ℚ)) := by
      rw [hch]
      field_simp
      exact Or.inl (mul_comm _ _)
    have hcontains : ∀ r c : Nat,
        decide ((uniformCell img s r c).x ≤ x / s.scale ∧
          x / s.scale < (uniformCell img s r c).x + (uniformCell img s r c).width ∧
          (uniformCell img s r c).y ≤ y / s.scale ∧
          y / s.scale < (uniformCell img s r c).y + (uniformCell img s r c).height) = true ↔
        (⌊x / (s.canvasWidth / (s.cols : ℚ))⌋ = (c : Int) ∧
          ⌊y / (s.canvasHeight / (s.rows : ℚ))⌋ = (r : Int)) := by
      intro r c
      rw [← hqx, ← hqy, ← cell_contains_iff _ _ hcwS c, ← cell_contains_iff _ _ hchS r]
      simp only [uniformCell, decide_eq_true_eq]
      tauto
    rw [if_neg (by simp [hcellW, hcellH])]
    by_cases hin : ⌊x / (s.canvasWidth / (s.cols : ℚ))⌋ ≥ 0 ∧
        ⌊x / (s.canvasWidth / (s.cols : ℚ))⌋ < (s.cols : Int) ∧
        ⌊y / (s.canvasHeight / (s.rows : ℚ))⌋ ≥ 0 ∧
        ⌊y / (s.canvasHeight / (s.rows : ℚ))⌋ < (s.rows : Int)
    · rw [if_pos hin]
      obtain ⟨hc0, hc1, hr0, hr1⟩ := hin
      obtain ⟨c, hc⟩ := Int.eq_ofNat_of_zero_le hc0
      obtain ⟨r, hr⟩ := Int.eq_ofNat_of_zero_le hr0
      rw [hc] at hc1
      rw [hr] at hr1
      have hclt : c < s.cols := by exact_mod_cast hc1
      have hrlt : r < s.rows := by exact_mod_cast hr1
      have hk0 : r * s.cols + c < s.rows * s.cols := by
        have : (r + 1) * s.cols ≤ s.rows * s.cols := Nat.mul_le_mul_right _ hrlt
        have h2 : (r + 1) * s.cols = r * s.cols + s.cols := by ring
        omega
      have hdiv : (r * s.cols + c) / s.cols = r := by
        rw [Nat.add_comm, Nat.add_mul_div_right _ _ hcols, Nat.div_eq_of_lt hclt, Nat.zero_add]
      have hmod : (r * s.cols + c) % s.cols = c := by
        rw [Nat.add_comm, Nat.add_mul_mod_self_right, Nat.mod_eq_of_lt hclt]
      have hfind := findIdx?_eq_some_of_first
        (fun a : CropArea =>
          decide (a.x ≤ x / s.scale ∧ x / s.scale < a.x + a.width ∧
            a.y ≤ y / s.scale ∧ y / s.scale < a.y + a.height))
        areas (r * s.cols + c) (uniformCell img s r c)
        (by rw [hget _ hk0, hdiv, hmod])
        ((hcontains r c).2 ⟨hc, hr⟩)
        (fun j hj b hb => by
          have hjlt : j < s.rows * s.cols := Nat.lt_trans hj hk0
          rw [hget j hjlt] at hb
          have hb' := (Option.some.inj hb).symm
          subst hb'
          by_contra hne
          have htrue := (hcontains (j / s.cols) (j % s.cols)).1 (by simpa using hne)
          rw [hc, hr] at htrue
          have h1 : c = j % s.cols := by exact_mod_cast htrue.1
          have h2 : r = j / s.cols := by exact_mod_cast htrue.2
          have : j = r * s.cols + c := by
            rw [h1, h2]
            exact (Nat.div_add_mod' j s.cols).symm
          omega)
      rw [hfind, hc, hr]
      push_cast
      ring
    · rw [if_neg hin, findIdx?_eq_none_of_forall]
      intro a ha
      obtain ⟨k, hk, rfl⟩ := hmem a ha
      by_contra hne
      have htrue := (hcontains (k / s.cols) (k % s.cols)).1 (by simpa using hne)
      apply hin
      rw [htrue.1, htrue.2]
      have hmodlt : k % s.cols < s.cols := Nat.mod_lt k hcols
      have hdivlt : k / s.cols < s.rows := (Nat.div_lt_iff_lt_mul hcols).2 hk
      refine ⟨by positivity, by exact_mod_cast hmodlt, by positivity, by exact_mod_cast hdivlt⟩

/-- Witness of C12 (amended) on `exactCanvas`, a 300×200 image at scale `1/2`
on a canvas of 150×100, at the display point `(60, 70)`. -/
theorem findCellAtPosition_uniform_eq_scan_witness :
    findCellAtPosition exactCanvas 60 70 = hitCellScan exactCanvas 60 70 :=
  findCellAtPosition_uniform_eq_scan exactCanvas ⟨300, 200⟩ 60 70 rfl rfl
    (by simp [exactCanvas])
    (by simp [exactCanvas]; norm_num)
    (by simp [exactCanvas]; norm_num)

/-- Counterexample to C13 as stated: in `centerNearEdge` (100×100 image, line
pair at `(10, 50)`, cell 60×60, scale 1) the geometry model computes the
rectangle `{0, 20, 60, 60}`, shifted into the image, and the display point
`(50, 30)` lies in it; `findCellAtPosition` tests the unshifted rectangle
`[-20, 40] × [20, 80]` and returns no hit. -/
theorem findCellAtPosition_ignores_shift :
    centerNearEdge.mode = Mode.centerline ∧
    getCropAreas centerNearEdge = some [⟨0, 20, 60, 60⟩] ∧
    inScaledArea ⟨0, 20, 60, 60⟩ centerNearEdge.scale 50 30 ∧
    findCellAtPosition centerNearEdge 50 30 = -1 := by
  refine ⟨rfl, ?_, ?_, ?_⟩
  · rw [getCropAreas_of_not_uniform centerNearEdge ⟨100, 100⟩ (by decide) rfl]
    simp [linePairs, centerNearEdge, initialState, List.enum, centerLineCell]
    norm_num
  · simp [inScaledArea, centerNearEdge, initialState]
    norm_num
  · simp [findCellAtPosition, linePairs, centerNearEdge, initialState]
    norm_num

/-- C13, amended. In center-line mode with an image loaded,
`findCellAtPosition` returns the first index in canonical order (Y lines
outer, X lines inner) of a cell whose drawn rectangle contains the point: the
rectangle of size `cellWidth × cellHeight` centered on the line pair, scaled
by `state.scale`, edges included and not shifted into the image; it returns
`-1` when there is none. For a cell that needs no shift
(`0 ≤ cx - cellWidth/2`, `cx + cellWidth/2 ≤ W`, same for y) the drawn
rectangle is the scaled rectangle the geometry model computes. The pair of the
`j`-th Y line and the `i`-th X line has index `j * centerLinesX.length + i`. -/
theorem findCellAtPosition_centerline (s : State) (img : ImageExtent) (x y : ℚ)
    (hmode : s.mode = Mode.centerline) (himg : s.originalImage = some img) :
    (∀ (k : Nat) (cy cx : ℚ), (linePairs s)[k]? = some (cy, cx) →
      inCenteredRect s cy cx x y →
      (∀ j, j < k → ∀ cy' cx' : ℚ, (linePairs s)[j]? = some (cy', cx') →
        ¬ inCenteredRect s cy' cx' x y) →
      findCellAtPosition s x y = (k : Int)) ∧
    ((∀ p ∈ linePairs s, ¬ inCenteredRect s p.1 p.2 x y) →
      findCellAtPosition s x y = -1) ∧
    (∀ cy cx : ℚ, 0 ≤ cx - s.cellWidth / 2 → cx + s.cellWidth / 2 ≤ (img.width : ℚ) →
      0 ≤ cy - s.cellHeight / 2 → cy + s.cellHeight / 2 ≤ (img.height : ℚ) →
      (inCenteredRect s cy cx x y ↔ inScaledArea (centerLineCell img s cy cx) s.scale x y)) ∧
    (∀ (j i : Nat) (cy cx : ℚ), s.centerLinesY[j]? = some cy → s.centerLinesX[i]? = some cx →
      (linePairs s)[j * s.centerLinesX.length + i]? = some (cy, cx)) := by
  have hpred : ∀ p : ℚ × ℚ,
      decide (x ≥ p.2 * s.scale - s.cellWidth / 2 * s.scale ∧
        x ≤ p.2 * s.scale - s.cellWidth / 2 * s.scale + s.cellWidth / 2 * s.scale * 2 ∧
        y ≥ p.1 * s.scale - s.cellHeight / 2 * s.scale ∧
        y ≤ p.1 * s.scale - s.cellHeight / 2 * s.scale + s.cellHeight / 2 * s.scale * 2) =
      decide (inCenteredRect s p.1 p.2 x y) := by
    intro p
    have e1 : p.2 * s.scale - s.cellWidth / 2 * s.scale = (p.2 - s.cellWidth / 2) * s.scale := by
      ring
    have e2 : p.2 * s.scale - s.cellWidth / 2 * s.scale + s.cellWidth / 2 * s.scale * 2 =
        (p.2 + s.cellWidth / 2) * s.scale := by ring
    have e3 : p.1 * s.scale - s.cellHeight / 2 * s.scale =
        (p.1 - s.cellHeight / 2) * s.scale := by ring
    have e4 : p.1 * s.scale - s.cellHeight / 2 * s.scale + s.cellHeight / 2 * s.scale * 2 =
        (p.1 + s.cellHeight / 2) * s.scale := by ring
    rw [e2, e4, e1, e3]
    simp only [inCenteredRect, ge_iff_le]
  have hdef : findCellAtPosition s x y =
      match (linePairs s).findIdx? fun p => decide (inCenteredRect s p.1 p.2 x y) with
      | some index => (index : Int)
      | none => -1 := by
    unfold findCellAtPosition
    simp only [himg, hmode]
    rw [show (fun p : ℚ × ℚ =>
        decide (x ≥ p.2 * s.scale - s.cellWidth / 2 * s.scale ∧
          x ≤ p.2 * s.scale - s.cellWidth / 2 * s.scale + s.cellWidth / 2 * s.scale * 2 ∧
          y ≥ p.1 * s.scale - s.cellHeight / 2 * s.scale ∧
          y ≤ p.1 * s.scale - s.cellHeight / 2 * s.scale + s.cellHeight / 2 * s.scale * 2)) =
        fun p => decide (inCenteredRect s p.1 p.2 x y) from funext hpred]
  refine ⟨?_, ?_, ?_, ?_⟩
  rotate_right
  · intro j i cy cx hcy hcx
    rw [linePairs_getElem? s j i (List.getElem?_eq_some.1 hcx).1, hcy, hcx]
    rfl
  · intro k cy cx hk hin hfirst
    rw [hdef, findIdx?_eq_some_of_first _ _ k (cy, cx) hk (by simpa using hin)
      (fun j hj b hb => by simpa using hfirst j hj b.1 b.2 hb)]
  · intro hno
    rw [hdef, findIdx?_eq_none_of_forall _ _ (fun p hp => by simpa using hno p hp)]
  · intro cy cx hx0 hx1 hy0 hy1
    have hx : max 0 (min ((img.width : ℚ) - s.cellWidth) (cx - s.cellWidth / 2)) =
        cx - s.cellWidth / 2 := by
      rw [min_eq_right (by linarith), max_eq_right hx0]
    have hy : max 0 (min ((img.height : ℚ) - s.cellHeight) (cy - s.cellHeight / 2)) =
        cy - s.cellHeight / 2 := by
      rw [min_eq_right (by linarith), max_eq_right hy0]
    simp only [inCenteredRect, inScaledArea, centerLineCell, hx, hy]
    have e1 : cx - s.cellWidth / 2 + s.cellWidth = cx + s.cellWidth / 2 := by ring
    have e2 : cy - s.cellHeight / 2 + s.cellHeight = cy + s.cellHeight / 2 := by ring
    rw [e1, e2]

/-- Witness of C13 (amended): in `draggingFirstLine` (X lines at 25 and 75, Y
line at 50, cells of 47×95, scale 1) the display point `(80, 40)` lies in the
second cell only. -/
theorem findCellAtPosition_centerline_witness :
    findCellAtPosition draggingFirstLine.state 80 40 = ((1 : Nat) : Int) :=
  (findCellAtPosition_centerline draggingFirstLine.state ⟨100, 100⟩ 80 40 rfl rfl).1 1 50 75 rfl
    (by simp [inCenteredRect, draggingFirstLine, initialState]; norm_num)
    (fun j hj cy' cx' hp => by
      have hj0 : j = 0 := by omega
      subst hj0
      have hp' : (cy', cx') = ((50 : ℚ), (25 : ℚ)) := by
        have : (linePairs draggingFirstLine.state)[0]? = some ((50 : ℚ), (25 : ℚ)) := rfl
        rw [this] at hp
        exact (Option.some.inj hp).symm
      cases hp'
      simp [inCenteredRect, draggingFirstLine, initialState]
      norm_num)

/-- C14. The handles of `getCropHandle` are tested in the order nw, ne, sw,
se, n, s, w, e. It returns the first of them whose display position
`(hx, hy)` satisfies `|x - hx| < 12` and `|y - hy| < 12`; if no handle
matches it returns `move` exactly when the point lies in the displayed
working rectangle, edges included, and no hit otherwise. -/
theorem getCropHandle_priority (ce : CropEditor) (x y : ℚ) :
    (cropHandles ce).map (fun h => h.1) =
      [Handle.nw, Handle.ne, Handle.sw, Handle.se, Handle.n, Handle.s, Handle.w, Handle.e] ∧
    (∀ (k : Nat) (h : Handle) (hx hy : ℚ), (cropHandles ce)[k]? = some (h, hx, hy) →
      |x - hx| < 12 → |y - hy| < 12 →
      (∀ j, j < k → ∀ (h' : Handle) (hx' hy' : ℚ), (cropHandles ce)[j]? = some (h', hx', hy') →
        ¬ (|x - hx'| < 12 ∧ |y - hy'| < 12)) →
      getCropHandle ce x y = some h) ∧
    ((∀ h ∈ cropHandles ce, ¬ (|x - h.2.1| < 12 ∧ |y - h.2.2| < 12)) →
      (getCropHandle ce x y = some Handle.move ↔
        (ce.cropArea.x * ce.scale ≤ x ∧
          x ≤ ce.cropArea.x * ce.scale + ce.cropArea.width * ce.scale ∧
          ce.cropArea.y * ce.scale ≤ y ∧
          y ≤ ce.cropArea.y * ce.scale + ce.cropArea.height * ce.scale)) ∧
      (getCropHandle ce x y = some Handle.move ∨ getCropHandle ce x y = none)) := by
  refine ⟨rfl, ?_, ?_⟩
  · intro k h hx hy hk hnx hny hfirst
    have hfind := find?_eq_some_of_first
      (fun h : Handle × ℚ × ℚ => decide (|x - h.2.1| < 12 ∧ |y - h.2.2| < 12))
      (cropHandles ce) k (h, hx, hy) hk (by simp [hnx, hny])
      (fun j hj b hb => by
        have := hfirst j hj b.1 b.2.1 b.2.2 hb
        simpa using this)
    unfold getCropHandle
    simp only [hfind]
  · intro hno
    have hfind : (cropHandles ce).find?
        (fun h : Handle × ℚ × ℚ => decide (|x - h.2.1| < 12 ∧ |y - h.2.2| < 12)) = none := by
      rw [List.find?_eq_none]
      intro h hh
      simpa using hno h hh
    unfold getCropHandle
    simp only [hfind]
    constructor
    · constructor
      · intro hmove
        split at hmove
        · next hin => exact hin
        · cases hmove
      · intro hin
        rw [if_pos hin]
    · split
      · exact Or.inl rfl
      · exact Or.inr rfl

/-- Witness of C14: on the working area `{10, 10, 30, 30}` at scale 1 the
point `(12, 9)` is on the `nw` handle. -/
theorem getCropHandle_priority_witness :
    getCropHandle editingSession.cropEditor 12 9 = some Handle.nw :=
  (getCropHandle_priority editingSession.cropEditor 12 9).2.1 0 Handle.nw
    (editingSession.cropEditor.cropArea.x * editingSession.cropEditor.scale)
    (editingSession.cropEditor.cropArea.y * editingSession.cropEditor.scale) rfl
    (by simp [editingSession, initialSession]; norm_num [abs_lt])
    (by simp [editingSession, initialSession]; norm_num [abs_lt])
    (fun j hj => absurd hj (Nat.not_lt_zero j))

/-! ## Crop editor: claims C15 to C17 -/

/-- C15, counterexample. The working area `{0, 0, 200, 200}` of a cell larger
than the 100×100 image, moved by `(5, 5)`, stays at `{0, 0, 200, 200}` and
reaches beyond the image. -/
theorem onCropMouseMove_oversized_outside :
    oversizedEditing.state.originalImage = some ⟨100, 100⟩ ∧
    oversizedEditing.cropEditor.dragging = true ∧
    onCropMouseMove 5 5 oversizedEditing =
      Except.ok { oversizedEditing with
        cropEditor := { oversizedEditing.cropEditor with lastMouse := (5, 5) } } ∧
    oversizedEditing.cropEditor.cropArea = ⟨0, 0, 200, 200⟩ ∧
    ¬ ((0 : ℚ) + 200 ≤ ((100 : Nat) : ℚ)) := by
  refine ⟨rfl, rfl, ?_, rfl, by norm_num⟩
  simp [onCropMouseMove, oversizedEditing, initialSession, oversizedCell, initialState, moveArea]
  norm_num

/-- C15, amended. A crop-editor move by any source-space delta leaves width
and height unchanged and yields `0 ≤ x` and `0 ≤ y`. For a working area no
wider than the image it yields `x + width ≤ W`, for one no higher than the
image `y + height ≤ H`. A working area wider than the image is pinned at
`x = 0` and reaches beyond the right edge; one higher than the image is
pinned at `y = 0` and reaches beyond the bottom edge. The listener
`onCropMouseMove` applies this move, with the delta of the pointer divided by
the editor scale, whenever a move is under way and an image is loaded. -/
theorem moveArea_within_image (img : ImageExtent) (area : CropArea) (dx dy : ℚ) :
    ((moveArea img area dx dy).width = area.width ∧
      (moveArea img area dx dy).height = area.height ∧
      0 ≤ (moveArea img area dx dy).x ∧ 0 ≤ (moveArea img area dx dy).y) ∧
    (area.width ≤ (img.width : ℚ) →
      (moveArea img area dx dy).x + (moveArea img area dx dy).width ≤ (img.width : ℚ)) ∧
    (area.height ≤ (img.height : ℚ) →
      (moveArea img area dx dy).y + (moveArea img area dx dy).height ≤ (img.height : ℚ)) ∧
    ((img.width : ℚ) < area.width →
      (moveArea img area dx dy).x = 0 ∧
      (img.width : ℚ) < (moveArea img area dx dy).x + (moveArea img area dx dy).width) ∧
    ((img.height : ℚ) < area.height →
      (moveArea img area dx dy).y = 0 ∧
      (img.height : ℚ) < (moveArea img area dx dy).y + (moveArea img area dx dy).height) ∧
    (∀ (a : Session) (x y : ℚ), a.cropEditor.dragging = true →
      a.state.originalImage = some img → a.cropEditor.cropArea = area →
      ∃ a', onCropMouseMove x y a = Except.ok a' ∧
        a'.cropEditor.cropArea =
          moveArea img area ((x - a.cropEditor.lastMouse.1) / a.cropEditor.scale)
            ((y - a.cropEditor.lastMouse.2) / a.cropEditor.scale) ∧
        a'.state = a.state) := by
  refine ⟨?_, ?_, ?_, ?_, ?_, ?_⟩
  · simp only [moveArea]
    exact ⟨trivial, trivial, le_max_left _ _, le_max_left _ _⟩
  · intro hw
    simp only [moveArea]
    have : max 0 (min ((img.width : ℚ) - area.width) (area.x + dx)) ≤
        (img.width : ℚ) - area.width := max_le (by linarith) (min_le_left _ _)
    linarith
  · intro hh
    simp only [moveArea]
    have : max 0 (min ((img.height : ℚ) - area.height) (area.y + dy)) ≤
        (img.height : ℚ) - area.height := max_le (by linarith) (min_le_left _ _)
    linarith
  · intro hw
    simp only [moveArea]
    have hx : max 0 (min ((img.width : ℚ) - area.width) (area.x + dx)) = 0 :=
      max_eq_left ((min_le_left _ _).trans (by linarith))
    rw [hx]
    exact ⟨rfl, by linarith⟩
  · intro hh
    simp only [moveArea]
    have hy : max 0 (min ((img.height : ℚ) - area.height) (area.y + dy)) = 0 :=
      max_eq_left ((min_le_left _ _).trans (by linarith))
    rw [hy]
    exact ⟨rfl, by linarith⟩
  · intro a x y hdrag himg harea
    refine ⟨_, onCropMouseMove_dragging a x y img hdrag himg, ?_, rfl⟩
    rw [← harea]

/-- Witness of C15 (amended): the working area `{10, 10, 30, 30}` in a
100×100 image moved by `(200, -50)`, and the working area `{0, 0, 200, 200}`
moved by `(5, 5)`. -/
theorem moveArea_within_image_witness :
    ((moveArea ⟨100, 100⟩ ⟨10, 10, 30, 30⟩ 200 (-50)).x +
        (moveArea ⟨100, 100⟩ ⟨10, 10, 30, 30⟩ 200 (-50)).width ≤ ((100 : Nat) : ℚ) ∧
      (moveArea ⟨100, 100⟩ ⟨10, 10, 30, 30⟩ 200 (-50)).y +
        (moveArea ⟨100, 100⟩ ⟨10, 10, 30, 30⟩ 200 (-50)).height ≤ ((100 : Nat) : ℚ)) ∧
    ((moveArea ⟨100, 100⟩ ⟨0, 0, 200, 200⟩ 5 5).x = 0 ∧
      ((100 : Nat) : ℚ) < (moveArea ⟨100, 100⟩ ⟨0, 0, 200, 200⟩ 5 5).x +
        (moveArea ⟨100, 100⟩ ⟨0, 0, 200, 200⟩ 5 5).width) ∧
    ∃ a', onCropMouseMove 40 15 movingSession = Except.ok a' ∧
      a'.cropEditor.cropArea =
        moveArea ⟨100, 100⟩ ⟨10, 10, 30, 30⟩
          ((40 - movingSession.cropEditor.lastMouse.1) / movingSession.cropEditor.scale)
          ((15 - movingSession.cropEditor.lastMouse.2) / movingSession.cropEditor.scale) ∧
      a'.state = movingSession.state :=
  ⟨⟨(moveArea_within_image ⟨100, 100⟩ ⟨10, 10, 30, 30⟩ 200 (-50)).2.1 (by norm_num),
      (moveArea_within_image ⟨100, 100⟩ ⟨10, 10, 30, 30⟩ 200 (-50)).2.2.1 (by norm_num)⟩,
    (moveArea_within_image ⟨100, 100⟩ ⟨0, 0, 200, 200⟩ 5 5).2.2.2.1 (by norm_num),
    (moveArea_within_image ⟨100, 100⟩ ⟨10, 10, 30, 30⟩ 200 (-50)).2.2.2.2.2
      movingSession 40 15 rfl rfl rfl⟩

/-- C16, counterexample. In the uniform 10×10 grid over a 100×100 image the
editor is opened on cell `0`, the rectangle `{0, 0, 10, 10}`, which lies
within the image. A pointer-down at the editor point `(2, 2)` takes the `nw`
handle; the pointer-move to `(7, 2)`, a delta of `(5, 0)`, leaves the working
area at `{0, 0, 10, 10}`: its width and its height stay below 20. -/
theorem onCropMouseMove_small_cell_outside :
    smallCellOpened.state.originalImage = some ⟨100, 100⟩ ∧
    smallCellOpened.cropEditor.cropArea = ⟨0, 0, 10, 10⟩ ∧
    smallCellOpened.cropEditor.scale = 1 ∧
    smallCellPressed.cropEditor.dragging = false ∧
    smallCellPressed.cropEditor.resizing = some Handle.nw ∧
    resizeArea ⟨100, 100⟩ Handle.nw ⟨0, 0, 10, 10⟩ 5 0 = ⟨0, 0, 10, 10⟩ ∧
    (∃ a', onCropMouseMove 7 2 smallCellPressed = Except.ok a' ∧
      a'.cropEditor.cropArea = ⟨0, 0, 10, 10⟩) ∧
    ¬ ((20 : ℚ) ≤ 10) := by
  have hres : resizeArea ⟨100, 100⟩ Handle.nw ⟨0, 0, 10, 10⟩ 5 0 = ⟨0, 0, 10, 10⟩ := by
    simp [resizeArea, Handle.includesW, Handle.includesE, Handle.includesN, Handle.includesS]
    norm_num
  have hopen := smallCellOpened_eq
  have hpress := smallCellPressed_eq
  have h1 : smallCellOpened.state.originalImage = some ⟨100, 100⟩ := by rw [hopen]; rfl
  have h2 : smallCellOpened.cropEditor.cropArea = ⟨0, 0, 10, 10⟩ := by rw [hopen]
  have h3 : smallCellOpened.cropEditor.scale = 1 := by rw [hopen]
  have h4 : smallCellPressed.cropEditor.dragging = false := by rw [hpress, hopen]; rfl
  have h5 : smallCellPressed.cropEditor.resizing = some Handle.nw := by rw [hpress]
  have h6 : smallCellPressed.state.originalImage = some ⟨100, 100⟩ := by rw [hpress]; exact h1
  have h7 : smallCellPressed.cropEditor.cropArea = ⟨0, 0, 10, 10⟩ := by rw [hpress]; exact h2
  have h8 : smallCellPressed.cropEditor.lastMouse = (2, 2) := by rw [hpress]
  have h9 : smallCellPressed.cropEditor.scale = 1 := by rw [hpress]; exact h3
  refine ⟨h1, h2, h3, h4, h5, hres, ?_, by norm_num⟩
  refine ⟨_, onCropMouseMove_resizing smallCellPressed 7 2 ⟨100, 100⟩ Handle.nw h4 h5 h6, ?_⟩
  show resizeArea ⟨100, 100⟩ Handle.nw smallCellPressed.cropEditor.cropArea
    ((7 - smallCellPressed.cropEditor.lastMouse.1) / smallCellPressed.cropEditor.scale)
    ((2 - smallCellPressed.cropEditor.lastMouse.2) / smallCellPressed.cropEditor.scale) = _
  rw [h7, h8, h9]
  have e1 : ((7 : ℚ) - ((2 : ℚ), (2 : ℚ)).1) / 1 = 5 := by norm_num
  have e2 : ((2 : ℚ) - ((2 : ℚ), (2 : ℚ)).2) / 1 = 0 := by norm_num
  rw [e1, e2, hres]

/-- C16, amended. A resize, with any handle and any source-space delta, of a
working area that lies within the image and has width and height at least 20
yields a rectangle with width and height at least 20 that lies within the
image. Without the condition on the size: a handle that moves the right edge
(`e`, `ne`, `se`) keeps `x` and yields a width of at least 20, which reaches
beyond the right edge when `W - x < 20`; a handle that moves the left edge
(`w`, `nw`, `sw`) on an area with `x + width < 20` yields `x = 0` and the
width `x + width`, below 20; the handles `n` and `s` keep `x` and `width`.
The same holds for the height with `s`, `sw`, `se`, with `n`, `nw`, `ne` and
with `e`, `w`. The listener `onCropMouseMove` applies this resize, with the
delta of the pointer divided by the editor scale, whenever a resize is under
way and an image is loaded. -/
theorem resizeArea_within_image (img : ImageExtent) (r : Handle) (area : CropArea)
    (dx dy : ℚ) :
    (0 ≤ area.x → 0 ≤ area.y → area.x + area.width ≤ (img.width : ℚ) →
      area.y + area.height ≤ (img.height : ℚ) → 20 ≤ area.width → 20 ≤ area.height →
      20 ≤ (resizeArea img r area dx dy).width ∧
      20 ≤ (resizeArea img r area dx dy).height ∧
      0 ≤ (resizeArea img r area dx dy).x ∧
      0 ≤ (resizeArea img r area dx dy).y ∧
      (resizeArea img r area dx dy).x + (resizeArea img r area dx dy).width ≤
        (img.width : ℚ) ∧
      (resizeArea img r area dx dy).y + (resizeArea img r area dx dy).height ≤
        (img.height : ℚ)) ∧
    (r = Handle.e ∨ r = Handle.ne ∨ r = Handle.se →
      (resizeArea img r area dx dy).x = area.x ∧
      20 ≤ (resizeArea img r area dx dy).width ∧
      ((img.width : ℚ) - area.x < 20 →
        (img.width : ℚ) <
          (resizeArea img r area dx dy).x + (resizeArea img r area dx dy).width)) ∧
    (r = Handle.w ∨ r = Handle.nw ∨ r = Handle.sw → area.x + area.width < 20 →
      (resizeArea img r area dx dy).x = 0 ∧
      (resizeArea img r area dx dy).width = area.x + area.width ∧
      (resizeArea img r area dx dy).width < 20) ∧
    (r = Handle.n ∨ r = Handle.s →
      (resizeArea img r area dx dy).x = area.x ∧
      (resizeArea img r area dx dy).width = area.width) ∧
    (r = Handle.s ∨ r = Handle.sw ∨ r = Handle.se →
      (resizeArea img r area dx dy).y = area.y ∧
      20 ≤ (resizeArea img r area dx dy).height ∧
      ((img.height : ℚ) - area.y < 20 →
        (img.height : ℚ) <
          (resizeArea img r area dx dy).y + (resizeArea img r area dx dy).height)) ∧
    (r = Handle.n ∨ r = Handle.nw ∨ r = Handle.ne → area.y + area.height < 20 →
      (resizeArea img r area dx dy).y = 0 ∧
      (resizeArea img r area dx dy).height = area.y + area.height ∧
      (resizeArea img r area dx dy).height < 20) ∧
    (r = Handle.e ∨ r = Handle.w →
      (resizeArea img r area dx dy).y = area.y ∧
      (resizeArea img r area dx dy).height = area.height) ∧
    (∀ (a : Session) (x y : ℚ), a.cropEditor.dragging = false →
      a.cropEditor.resizing = some r → a.state.originalImage = some img →
      a.cropEditor.cropArea = area →
      ∃ a', onCropMouseMove x y a = Except.ok a' ∧
        a'.cropEditor.cropArea =
          resizeArea img r area ((x - a.cropEditor.lastMouse.1) / a.cropEditor.scale)
            ((y - a.cropEditor.lastMouse.2) / a.cropEditor.scale) ∧
        a'.state = a.state) := by
  have heast : ∀ (e p q d : ℚ),
      20 ≤ max 20 (min (e - p) (q + d)) ∧
      (e - p < 20 → e < p + max 20 (min (e - p) (q + d))) := by
    intro e p q d
    refine ⟨le_max_left _ _, fun h => ?_⟩
    have := le_max_left (20 : ℚ) (min (e - p) (q + d))
    linarith
  have hwest : ∀ (p q d : ℚ), p + q < 20 →
      max 0 (min (p + q - 20) (p + d)) = 0 := by
    intro p q d h
    exact max_eq_left ((min_le_left _ _).trans (by linarith))
  refine ⟨?_, ?_, ?_, ?_, ?_, ?_, ?_, ?_⟩
  · intro hx hy hxw hyh hw hh
    exact areaValid_resizeArea_bounds img r area dx dy hx hy hxw hyh hw hh
  · obtain ⟨h1, h2⟩ := heast (img.width : ℚ) area.x area.width dx
    rintro (rfl | rfl | rfl) <;>
      simp only [resizeArea, Handle.includesW, Handle.includesE, Handle.includesN,
        Handle.includesS, if_true, if_false, Bool.false_eq_true] <;>
      exact ⟨trivial, h1, h2⟩
  · intro hr hlt
    have h0 := hwest area.x area.width dx hlt
    rcases hr with rfl | rfl | rfl <;>
      simp only [resizeArea, Handle.includesW, Handle.includesE, Handle.includesN,
        Handle.includesS, if_true, if_false, Bool.false_eq_true, h0, sub_zero] <;>
      exact ⟨trivial, trivial, hlt⟩
  · rintro (rfl | rfl) <;>
      simp [resizeArea, Handle.includesW, Handle.includesE, Handle.includesN,
        Handle.includesS]
  · obtain ⟨h1, h2⟩ := heast (img.height : ℚ) area.y area.height dy
    rintro (rfl | rfl | rfl) <;>
      simp only [resizeArea, Handle.includesW, Handle.includesE, Handle.includesN,
        Handle.includesS, if_true, if_false, Bool.false_eq_true] <;>
      exact ⟨trivial, h1, h2⟩
  · intro hr hlt
    have h0 := hwest area.y area.height dy hlt
    rcases hr with rfl | rfl | rfl <;>
      simp only [resizeArea, Handle.includesW, Handle.includesE, Handle.includesN,
        Handle.includesS, if_true, if_false, Bool.false_eq_true, h0, sub_zero] <;>
      exact ⟨trivial, trivial, hlt⟩
  · rintro (rfl | rfl) <;>
      simp [resizeArea, Handle.includesW, Handle.includesE, Handle.includesN,
        Handle.includesS]
  · intro a x y hdrag hres himg harea
    refine ⟨_, onCropMouseMove_resizing a x y img r hdrag hres himg, ?_, rfl⟩
    rw [← harea]

/-- Witness of C16 (amended): the working area `{0, 0, 50, 50}` in a 100×100
image resized with the `se` handle by `(100, -100)`, and the area
`{0, 0, 10, 10}` resized with the `nw` handle by `(5, 0)`. -/
theorem resizeArea_within_image_witness :
    (20 ≤ (resizeArea ⟨100, 100⟩ Handle.se ⟨0, 0, 50, 50⟩ 100 (-100)).width ∧
      20 ≤ (resizeArea ⟨100, 100⟩ Handle.se ⟨0, 0, 50, 50⟩ 100 (-100)).height ∧
      0 ≤ (resizeArea ⟨100, 100⟩ Handle.se ⟨0, 0, 50, 50⟩ 100 (-100)).x ∧
      0 ≤ (resizeArea ⟨100, 100⟩ Handle.se ⟨0, 0, 50, 50⟩ 100 (-100)).y ∧
      (resizeArea ⟨100, 100⟩ Handle.se ⟨0, 0, 50, 50⟩ 100 (-100)).x +
        (resizeArea ⟨100, 100⟩ Handle.se ⟨0, 0, 50, 50⟩ 100 (-100)).width ≤
          ((100 : Nat) : ℚ) ∧
      (resizeArea ⟨100, 100⟩ Handle.se ⟨0, 0, 50, 50⟩ 100 (-100)).y +
        (resizeArea ⟨100, 100⟩ Handle.se ⟨0, 0, 50, 50⟩ 100 (-100)).height ≤
          ((100 : Nat) : ℚ)) ∧
    ((resizeArea ⟨100, 100⟩ Handle.nw ⟨0, 0, 10, 10⟩ 5 0).x = 0 ∧
      (resizeArea ⟨100, 100⟩ Handle.nw ⟨0, 0, 10, 10⟩ 5 0).width = (0 : ℚ) + 10 ∧
      (resizeArea ⟨100, 100⟩ Handle.nw ⟨0, 0, 10, 10⟩ 5 0).width < 20) ∧
    ∃ a', onCropMouseMove 100 (-100) resizingSession = Except.ok a' ∧
      a'.cropEditor.cropArea =
        resizeArea ⟨100, 100⟩ Handle.se ⟨0, 0, 50, 50⟩
          ((100 - resizingSession.cropEditor.lastMouse.1) / resizingSession.cropEditor.scale)
          ((-100 - resizingSession.cropEditor.lastMouse.2) / resizingSession.cropEditor.scale) ∧
      a'.state = resizingSession.state :=
  ⟨(resizeArea_within_image ⟨100, 100⟩ Handle.se ⟨0, 0, 50, 50⟩ 100 (-100)).1
      (by norm_num) (by norm_num) (by norm_num) (by norm_num) (by norm_num) (by norm_num),
    (resizeArea_within_image ⟨100, 100⟩ Handle.nw ⟨0, 0, 10, 10⟩ 5 0).2.2.1
      (Or.inr (Or.inl rfl)) (by norm_num),
    (resizeArea_within_image ⟨100, 100⟩ Handle.se ⟨0, 0, 50, 50⟩ 100 (-100)).2.2.2.2.2.2.2
      resizingSession 100 (-100) rfl rfl rfl rfl⟩

/-- C17. The crop-editor operations other than save leave the layout state
untouched, in particular `customAreas` and the disabled set: a pointer-move
(move or resize, whatever its outcome), pointer-down, pointer-up, reset,
center (whatever its outcome), close and open. `saveCrop` with session index
`i ≥ 0` stores the working area as `customAreas[i]`, leaves every other entry
of `customAreas` and the disabled set unchanged, and closes the session
(`currentIndex` becomes `-1`); with a negative index it does nothing. -/
theorem cropEditor_only_save_changes_state (a : Session) :
    (∀ (x y : ℚ) (a' : Session),
      (onCropMouseMove x y a = Except.ok a' ∨ onCropMouseMove x y a = Except.error a') →
      a'.state = a.state) ∧
    (∀ x y : ℚ, (onCropMouseDown x y a).state = a.state) ∧
    (onCropMouseUp a).state = a.state ∧
    (resetCrop a).state = a.state ∧
    (∀ a' : Session, (centerCrop a = Except.ok a' ∨ centerCrop a = Except.error a') →
      a'.state = a.state) ∧
    ((closeCropEditor a).state = a.state ∧ (closeCropEditor a).cropEditor.currentIndex = -1) ∧
    (∀ (index : Nat) (innerWidth innerHeight : ℚ),
      (openCropEditor index innerWidth innerHeight a).state = a.state) ∧
    (∀ i : Nat, a.cropEditor.currentIndex = (i : Int) →
      (saveCrop a).state.customAreas i = some a.cropEditor.cropArea ∧
      (∀ j, j ≠ i → (saveCrop a).state.customAreas j = a.state.customAreas j) ∧
      (saveCrop a).state.disabledCells = a.state.disabledCells ∧
      (saveCrop a).cropEditor.currentIndex = -1) ∧
    (a.cropEditor.currentIndex < 0 → saveCrop a = a) := by
  refine ⟨fun x y a' h => onCropMouseMove_state a a' x y h, ?_, rfl, rfl, ?_, ⟨rfl, rfl⟩, ?_,
    ?_, ?_⟩
  · intro x y
    unfold onCropMouseDown
    split <;> rfl
  · intro a' h
    unfold centerCrop at h
    split at h
    · rcases h with h | h
      · cases h
      · cases h; rfl
    · rcases h with h | h
      · cases h; rfl
      · cases h
  · intro index innerWidth innerHeight
    unfold openCropEditor
    split
    · rfl
    · split
      · rfl
      · split
        · rfl
        · split <;> rfl
  · intro i hidx
    rw [saveCrop_state a i hidx]
    refine ⟨by simp, fun j hj => by simp [Function.update_noteq hj], rfl, ?_⟩
    unfold saveCrop
    simp only [hidx]
    rw [if_neg (by omega)]
    rfl
  · intro hneg
    unfold saveCrop
    simp only
    rw [if_pos hneg]

/-- Witness of C17: saving the working area `{10, 10, 30, 30}` of cell `1` in
`editingSession`. -/
theorem cropEditor_only_save_changes_state_witness :
    (saveCrop editingSession).state.customAreas 1 = some editingSession.cropEditor.cropArea ∧
    (∀ j, j ≠ 1 →
      (saveCrop editingSession).state.customAreas j = editingSession.state.customAreas j) ∧
    (saveCrop editingSession).state.disabledCells = editingSession.state.disabledCells ∧
    (saveCrop editingSession).cropEditor.currentIndex = -1 :=
  (cropEditor_only_save_changes_state editingSession).2.2.2.2.2.2.2.1 1 rfl

/-! ## Cell size: claims C18 to C20 -/

/-- C18. With an image loaded and at least one center line on each axis,
`autoCalculateCellSize` sets `cellWidth` to `floor(0.95 * mx)` where `mx` is
the minimum of every gap between consecutive X lines, twice the first X
position and twice the distance from the last X line to the image width, and
`cellHeight` to `floor(0.95 * my)` with `my` the same minimum for the Y lines
and the image height. -/
theorem autoCalculateCellSize_min_gap (s : State) (img : ImageExtent)
    (himg : s.originalImage = some img)
    (hx : s.centerLinesX ≠ []) (hy : s.centerLinesY ≠ []) :
    ∃ mx my : ℚ,
      IsMinGap s.centerLinesX (img.width : ℚ) mx ∧
      IsMinGap s.centerLinesY (img.height : ℚ) my ∧
      (autoCalculateCellSize s).cellWidth = ((⌊0.95 * mx⌋ : Int) : ℚ) ∧
      (autoCalculateCellSize s).cellHeight = ((⌊0.95 * my⌋ : Int) : ℚ) := by
  obtain ⟨mx, hmx, hminx⟩ := axisMinDist_spec s.centerLinesX (img.width : ℚ) hx
  obtain ⟨my, hmy, hminy⟩ := axisMinDist_spec s.centerLinesY (img.height : ℚ) hy
  refine ⟨mx, my, hminx, hminy, ?_, ?_⟩
  · rw [autoCalculateCellSize_of_lines s img himg hx]
    simp only [hmx, mul_comm]
  · rw [autoCalculateCellSize_of_lines s img himg hx]
    simp only [hmy, mul_comm]

/-- Witness of C18 on `unevenLines`: X lines at 10, 30, 35, 90 and Y lines at
20, 70 in a 100×100 image. -/
theorem autoCalculateCellSize_min_gap_witness :
    ∃ mx my : ℚ,
      IsMinGap unevenLines.centerLinesX ((100 : Nat) : ℚ) mx ∧
      IsMinGap unevenLines.centerLinesY ((100 : Nat) : ℚ) my ∧
      (autoCalculateCellSize unevenLines).cellWidth = ((⌊0.95 * mx⌋ : Int) : ℚ) ∧
      (autoCalculateCellSize unevenLines).cellHeight = ((⌊0.95 * my⌋ : Int) : ℚ) :=
  autoCalculateCellSize_min_gap unevenLines ⟨100, 100⟩ rfl
    (by simp [unevenLines]) (by simp [unevenLines])

/-- Counterexample to C19 as stated: with a single center line per axis, at
50 in a 100×100 image, and the default cell size of 100×100 in the state,
`autoCalculateCellSize` stores 95×95, computed from the distances to the
image edges, not the default. -/
theorem autoCalculateCellSize_single_line_not_default :
    singleLine.centerLinesX = [50] ∧ singleLine.centerLinesY = [50] ∧
    singleLine.cellWidth = 100 ∧ singleLine.cellHeight = 100 ∧
    (autoCalculateCellSize singleLine).cellWidth = 95 ∧
    (autoCalculateCellSize singleLine).cellHeight = 95 ∧
    (95 : ℚ) ≠ 100 := by
  refine ⟨rfl, rfl, rfl, rfl, ?_, ?_, by norm_num⟩
  · rw [autoCalculateCellSize_of_lines singleLine ⟨100, 100⟩ rfl (by simp [singleLine])]
    simp [axisMinDist, jsMin, singleLine, initialState]
    norm_num [Int.floor_eq_iff]
  · rw [autoCalculateCellSize_of_lines singleLine ⟨100, 100⟩ rfl (by simp [singleLine])]
    simp [axisMinDist, jsMin, singleLine, initialState]
    norm_num [Int.floor_eq_iff]

/-- C19, amended. `autoCalculateCellSize` has no default size. With no image
loaded or no X line it returns without changing anything, so both cell sizes
stay as stored. With an image loaded and exactly one X line, at `c`, it sets
`cellWidth` to `floor(0.95 * min(2c, 2(W - c)))`, the size derived from the
distances to the two image edges; with at least one X line and exactly one Y
line, at `c`, it sets `cellHeight` to `floor(0.95 * min(2c, 2(H - c)))`. -/
theorem autoCalculateCellSize_few_lines (s : State) :
    (s.originalImage = none → autoCalculateCellSize s = s) ∧
    (s.centerLinesX = [] → autoCalculateCellSize s = s) ∧
    (∀ (img : ImageExtent) (c : ℚ), s.originalImage = some img → s.centerLinesX = [c] →
      (autoCalculateCellSize s).cellWidth =
        ((⌊0.95 * min (2 * c) (2 * ((img.width : ℚ) - c))⌋ : Int) : ℚ)) ∧
    (∀ (img : ImageExtent) (c : ℚ), s.originalImage = some img → s.centerLinesX ≠ [] →
      s.centerLinesY = [c] →
      (autoCalculateCellSize s).cellHeight =
        ((⌊0.95 * min (2 * c) (2 * ((img.height : ℚ) - c))⌋ : Int) : ℚ)) := by
  have hone : ∀ (c e : ℚ), axisMinDist [c] e = some (min (2 * c) (2 * (e - c))) := by
    intro c e
    simp [axisMinDist, jsMin, mul_comm]
  refine ⟨?_, ?_, ?_, ?_⟩
  · intro himg
    unfold autoCalculateCellSize
    rw [himg]
  · intro hx
    unfold autoCalculateCellSize
    split
    · rfl
    · rw [if_pos (by simp [hx])]
  · intro img c himg hx
    rw [autoCalculateCellSize_of_lines s img himg (by simp [hx])]
    simp only [hx, hone, mul_comm]
  · intro img c himg hx hy
    rw [autoCalculateCellSize_of_lines s img himg hx]
    simp only [hy, hone, mul_comm]

/-- Witness of C19 (amended) on `singleLine`. -/
theorem autoCalculateCellSize_few_lines_witness :
    (autoCalculateCellSize singleLine).cellWidth =
      ((⌊0.95 * min (2 * 50) (2 * (((100 : Nat) : ℚ) - 50))⌋ : Int) : ℚ) :=
  (autoCalculateCellSize_few_lines singleLine).2.2.1 ⟨100, 100⟩ 50 rfl rfl

/-- C20, at the failing input. The value `0` entered for the cell width or the
cell height is stored as `100`, not as the floor of `10`: `0` is falsy, so
`parseInt(v) || 100` replaces it by the default before `Math.max(10, _)` is
applied. The neighbouring values `-5` and `5` are stored as `10`. -/
theorem cellSizeChange_zero (s : State) :
    (cellWidthChange (some 0) s).cellWidth = 100 ∧
    (cellHeightChange (some 0) s).cellHeight = 100 ∧
    (cellWidthChange (some (-5)) s).cellWidth = 10 ∧
    (cellWidthChange (some 5) s).cellWidth = 10 ∧
    (cellHeightChange (some (-5)) s).cellHeight = 10 ∧
    (cellHeightChange (some 5) s).cellHeight = 10 ∧
    (100 : ℚ) ≠ 10 := by
  refine ⟨?_, ?_, ?_, ?_, ?_, ?_, by norm_num⟩ <;>
    simp [cellWidthChange, cellHeightChange]

/-! ## Resizing: claims C21 and C22 -/

/-- C21, counterexample. In binary64, cell 1 of a single row of five columns
over a 146×100 image is `{29.2, 0, 29.2, 100}`. A resize with the `w` handle
by `dx = -3` stores `x' = 26.2` and `width' = 58.4 - 26.2 = 32.2` (each the
nearest binary64 number); the right edge `x' + width'` is then
58.400000000000006, where `x + width` was 58.4: the opposite edge has moved,
for the sums of the stored values as well as for their binary64 sums. -/
theorem resizeAreaFl_w_moves_right_edge :
    uniformCellFl ⟨146, 100⟩ fiveColumns 0 1 =
      ⟨8219069319951155 / 281474976710656, 0, 8219069319951155 / 281474976710656, 100⟩ ∧
    resizeAreaFl ⟨146, 100⟩ Handle.w
        ⟨8219069319951155 / 281474976710656, 0, 8219069319951155 / 281474976710656, 100⟩
        (-3) 0 =
      ⟨7374644389819187 / 281474976710656, 0, 2265873562520781 / 70368744177664, 100⟩ ∧
    (8219069319951155 / 281474976710656 + 8219069319951155 / 281474976710656 : ℚ) <
      7374644389819187 / 281474976710656 + 2265873562520781 / 70368744177664 ∧
    fl (8219069319951155 / 281474976710656 + 8219069319951155 / 281474976710656) <
      fl (7374644389819187 / 281474976710656 + 2265873562520781 / 70368744177664) := by
  refine ⟨?_, ?_, by norm_num, ?_⟩
  · simp only [uniformCellFl, fiveColumns, initialState, fl_146_div_5, fl_100_div_1,
      fl_col1_146]
    simp [fl]
  · simp only [resizeAreaFl, Handle.includesW, Handle.includesE, Handle.includesN,
      Handle.includesS, if_true, if_false, Bool.false_eq_true, fl_w_sum, fl_w_bound,
      fl_w_moved]
    have hm : max (0 : ℚ) (min (5404319552844595 / 140737488355328)
        (7374644389819187 / 281474976710656)) = 7374644389819187 / 281474976710656 := by
      norm_num
    simp only [hm, fl_w_width]
  · rw [fl_w_sum, fl_w_edge]
    norm_num

/-- C21, amended. Over exact arithmetic, for every working area and every
delta, a resize moves only the edges named by the handle: `w` keeps
`x + width`, `y` and `height`; `e` keeps `x`, `y` and `height`; `n` keeps
`y + height`, `x` and `width`; `s` keeps `y`, `x` and `width`; each corner
handle keeps the two opposite edges (`nw` keeps `x + width` and `y + height`,
`ne` keeps `x` and `y + height`, `sw` keeps `x + width` and `y`, `se` keeps `x`
and `y`). In binary64 the fields a handle does not write are copied and hence
unchanged: `y` and `height` for `w`, `x`, `y` and `height` for `e`, `x` and
`width` for `n`, `y`, `x` and `width` for `s`, `x` for `ne`, `y` for `sw`, `x`
and `y` for `se`. -/
theorem resizeArea_opposite_edge_fixed (img : ImageExtent) (area : CropArea) (dx dy : ℚ) :
    (((resizeArea img Handle.w area dx dy).x + (resizeArea img Handle.w area dx dy).width =
        area.x + area.width ∧
      (resizeArea img Handle.w area dx dy).y = area.y ∧
      (resizeArea img Handle.w area dx dy).height = area.height) ∧
    ((resizeArea img Handle.e area dx dy).x = area.x ∧
      (resizeArea img Handle.e area dx dy).y = area.y ∧
      (resizeArea img Handle.e area dx dy).height = area.height) ∧
    ((resizeArea img Handle.n area dx dy).y + (resizeArea img Handle.n area dx dy).height =
        area.y + area.height ∧
      (resizeArea img Handle.n area dx dy).x = area.x ∧
      (resizeArea img Handle.n area dx dy).width = area.width) ∧
    ((resizeArea img Handle.s area dx dy).y = area.y ∧
      (resizeArea img Handle.s area dx dy).x = area.x ∧
      (resizeArea img Handle.s area dx dy).width = area.width) ∧
    ((resizeArea img Handle.nw area dx dy).x + (resizeArea img Handle.nw area dx dy).width =
        area.x + area.width ∧
      (resizeArea img Handle.nw area dx dy).y + (resizeArea img Handle.nw area dx dy).height =
        area.y + area.height) ∧
    ((resizeArea img Handle.ne area dx dy).x = area.x ∧
      (resizeArea img Handle.ne area dx dy).y + (resizeArea img Handle.ne area dx dy).height =
        area.y + area.height) ∧
    ((resizeArea img Handle.sw area dx dy).x + (resizeArea img Handle.sw area dx dy).width =
        area.x + area.width ∧
      (resizeArea img Handle.sw area dx dy).y = area.y) ∧
    ((resizeArea img Handle.se area dx dy).x = area.x ∧
      (resizeArea img Handle.se area dx dy).y = area.y)) ∧
    (((resizeAreaFl img Handle.w area dx dy).y = area.y ∧
      (resizeAreaFl img Handle.w area dx dy).height = area.height) ∧
    ((resizeAreaFl img Handle.e area dx dy).x = area.x ∧
      (resizeAreaFl img Handle.e area dx dy).y = area.y ∧
      (resizeAreaFl img Handle.e area dx dy).height = area.height) ∧
    ((resizeAreaFl img Handle.n area dx dy).x = area.x ∧
      (resizeAreaFl img Handle.n area dx dy).width = area.width) ∧
    ((resizeAreaFl img Handle.s area dx dy).y = area.y ∧
      (resizeAreaFl img Handle.s area dx dy).x = area.x ∧
      (resizeAreaFl img Handle.s area dx dy).width = area.width) ∧
    (resizeAreaFl img Handle.ne area dx dy).x = area.x ∧
    (resizeAreaFl img Handle.sw area dx dy).y = area.y ∧
    ((resizeAreaFl img Handle.se area dx dy).x = area.x ∧
      (resizeAreaFl img Handle.se area dx dy).y = area.y)) := by
  constructor
  · simp [resizeArea, Handle.includesW, Handle.includesE, Handle.includesN, Handle.includesS]
  · simp [resizeAreaFl, Handle.includesW, Handle.includesE, Handle.includesN,
      Handle.includesS]

/-- C22, counterexample. A working area `{0, 0, 10, 10}` (a cell of a 10×10
grid on a 100×100 image) resized with the `nw` handle by `(5, 0)` keeps
`x = 0`, which exceeds `x + width - 20 = -10`: the outer `Math.max(0, …)`
wins over the bound when `x + width < 20`. -/
theorem resizeArea_nw_narrow_exceeds :
    (resizeArea ⟨100, 100⟩ Handle.nw ⟨0, 0, 10, 10⟩ 5 0).x = 0 ∧
    ¬ (resizeArea ⟨100, 100⟩ Handle.nw ⟨0, 0, 10, 10⟩ 5 0).x ≤ (0 : ℚ) + 10 - 20 := by
  simp [resizeArea, Handle.includesW, Handle.includesE, Handle.includesN, Handle.includesS]
  norm_num

/-- C22, amended. In a `W × H` image the `se` handle yields
`{x, y, max(20, min(W - x, width + dx)), max(20, min(H - y, height + dy))}`
and the `nw` handle yields `x' = max(0, min(x + width - 20, x + dx))`,
`width' = x + width - x'` (likewise `y'` and `height'`); `x'` never exceeds
`x + width - 20` provided `x + width ≥ 20` (likewise `y'`). -/
theorem resizeArea_se_nw (img : ImageExtent) (area : CropArea) (dx dy : ℚ) :
    resizeArea img Handle.se area dx dy =
      { x := area.x, y := area.y,
        width := max 20 (min ((img.width : ℚ) - area.x) (area.width + dx)),
        height := max 20 (min ((img.height : ℚ) - area.y) (area.height + dy)) } ∧
    resizeArea img Handle.nw area dx dy =
      { x := max 0 (min (area.x + area.width - 20) (area.x + dx)),
        y := max 0 (min (area.y + area.height - 20) (area.y + dy)),
        width := area.x + area.width - max 0 (min (area.x + area.width - 20) (area.x + dx)),
        height := area.y + area.height -
          max 0 (min (area.y + area.height - 20) (area.y + dy)) } ∧
    (20 ≤ area.x + area.width →
      (resizeArea img Handle.nw area dx dy).x ≤ area.x + area.width - 20) ∧
    (20 ≤ area.y + area.height →
      (resizeArea img Handle.nw area dx dy).y ≤ area.y + area.height - 20) := by
  refine ⟨?_, ?_, ?_, ?_⟩
  · simp [resizeArea, Handle.includesW, Handle.includesE, Handle.includesN, Handle.includesS]
  · simp [resizeArea, Handle.includesW, Handle.includesE, Handle.includesN, Handle.includesS]
  · intro h
    simp only [resizeArea, Handle.includesW, if_true]
    exact max_le (by linarith) (min_le_left _ _)
  · intro h
    simp only [resizeArea, Handle.includesN, if_true]
    exact max_le (by linarith) (min_le_left _ _)

/-- C22, the worked example: `{0, 0, 50, 50}` in a 200×200 image resized
with `se` by `(100, 10)` gives `{0, 0, 150, 60}`; that area resized with `nw`
by `(200, 0)` gives `{130, 0, 20, 60}`, whose `x` is `x + width - 20`. -/
theorem resizeArea_se_nw_witness :
    resizeArea ⟨200, 200⟩ Handle.se ⟨0, 0, 50, 50⟩ 100 10 = ⟨0, 0, 150, 60⟩ ∧
    resizeArea ⟨200, 200⟩ Handle.nw ⟨0, 0, 150, 60⟩ 200 0 = ⟨130, 0, 20, 60⟩ ∧
    (20 : ℚ) ≤ 0 + 150 ∧
    (resizeArea ⟨200, 200⟩ Handle.nw ⟨0, 0, 150, 60⟩ 200 0).x ≤ (0 : ℚ) + 150 - 20 := by
  refine ⟨?_, ?_, by norm_num, ?_⟩
  · rw [(resizeArea_se_nw ⟨200, 200⟩ ⟨0, 0, 50, 50⟩ 100 10).1]
    norm_num
  · rw [(resizeArea_se_nw ⟨200, 200⟩ ⟨0, 0, 150, 60⟩ 200 0).2.1]
    norm_num
  · exact (resizeArea_se_nw ⟨200, 200⟩ ⟨0, 0, 150, 60⟩ 200 0).2.2.1 (by norm_num)

/-! ## The crop-editor invariant: claim C25 -/

/-- C25. In a crop-editor session on an image whose original and working
areas lie within the image and are at least 20 wide and 20 high, the working
area stays within the image and at least 20 wide and high after any move, any
resize with any handle and any delta, any pointer-move of the editor, and
after center; it stays so after any sequence of editor events (pointer-down,
pointer-move, pointer-up, reset, center), and `saveCrop` then stores as the
override of the session index an area that lies within the image. -/
theorem cropEditor_area_stays_valid (img : ImageExtent) (a : Session) (i : Nat)
    (himg : a.state.originalImage = some img)
    (hidx : a.cropEditor.currentIndex = (i : Int))
    (horig : AreaValid img a.cropEditor.originalArea)
    (hwork : AreaValid img a.cropEditor.cropArea) :
    (∀ dx dy, AreaValid img (moveArea img a.cropEditor.cropArea dx dy)) ∧
    (∀ r dx dy, AreaValid img (resizeArea img r a.cropEditor.cropArea dx dy)) ∧
    (∀ x y, ∃ a', onCropMouseMove x y a = Except.ok a' ∧
      AreaValid img a'.cropEditor.cropArea) ∧
    (∃ a', centerCrop a = Except.ok a' ∧ AreaValid img a'.cropEditor.cropArea) ∧
    ∀ events : List CropEvent,
      AreaValid img (events.foldl cropStep a).cropEditor.cropArea ∧
      (saveCrop (events.foldl cropStep a)).state.originalImage = some img ∧
      ∃ saved, (saveCrop (events.foldl cropStep a)).state.customAreas i = some saved ∧
        AreaValid img saved := by
  have hvalid : CropSessionValid img a := ⟨himg, horig, hwork⟩
  refine ⟨fun dx dy => areaValid_moveArea img _ dx dy hwork,
    fun r dx dy => areaValid_resizeArea img r _ dx dy hwork, ?_, ?_, ?_⟩
  · intro x y
    obtain ⟨a', h1, h2, -, -⟩ := onCropMouseMove_valid img a x y hvalid
    exact ⟨a', h1, h2.2.2⟩
  · exact ⟨_, centerCrop_eq a img himg, areaValid_center img _ hwork⟩
  · intro events
    obtain ⟨⟨k1, -, k3⟩, k4, k5⟩ := cropSteps_valid img events a hvalid
    have hsave := saveCrop_state (events.foldl cropStep a) i (k5.trans hidx)
    refine ⟨k3, ?_, _, ?_, k3⟩
    · rw [hsave]
      exact k1
    · rw [hsave]
      simp

/-- Witness of C25: the editor open on cell `1` of the 2×2 grid over a
100×100 image with the working area `{10, 10, 30, 30}`. -/
theorem cropEditor_area_stays_valid_witness :
    AreaValid ⟨100, 100⟩ editingSession.cropEditor.originalArea ∧
    AreaValid ⟨100, 100⟩ editingSession.cropEditor.cropArea ∧
    ∀ events : List CropEvent,
      AreaValid ⟨100, 100⟩ (events.foldl cropStep editingSession).cropEditor.cropArea ∧
      (saveCrop (events.foldl cropStep editingSession)).state.originalImage =
        some ⟨100, 100⟩ ∧
      ∃ saved, (saveCrop (events.foldl cropStep editingSession)).state.customAreas 1 =
          some saved ∧ AreaValid ⟨100, 100⟩ saved := by
  have h1 : AreaValid ⟨100, 100⟩ editingSession.cropEditor.originalArea := by
    simp only [AreaValid, editingSession]
    norm_num
  have h2 : AreaValid ⟨100, 100⟩ editingSession.cropEditor.cropArea := by
    simp only [AreaValid, editingSession]
    norm_num
  exact ⟨h1, h2, (cropEditor_area_stays_valid ⟨100, 100⟩ editingSession 1 rfl rfl h1 h2).2.2.2.2⟩

/-! ## Drag and hover: claim C23 -/

/-- C23, counterexample. From the loaded center-line session the pointer
moves onto the second X line, which sets `state.hovered`; a pointer-down at
the same point then sets `state.dragging` and leaves `state.hovered` set, so
both are set at once in a reachable session. A pointer-up with no drag in
progress leaves `state.hovered` set as well. -/
theorem mouseDown_leaves_hovered_set :
    Reachable hoverThenPress ∧
    hoverThenPress.state.dragging = some { type := Axis.x, index := 1 } ∧
    hoverThenPress.state.hovered = some { type := Axis.x, index := 1 } ∧
    Reachable (step Event.mouseUp hoveringLine) ∧
    (step Event.mouseUp hoveringLine).state.hovered = some { type := Axis.x, index := 1 } := by
  have hreach : Reachable hoveringLine :=
    Reachable.step _ _ reachable_loadedCenterline (fun h => by cases h)
  obtain ⟨heq, hfind⟩ := hoveringLine_eq
  obtain ⟨himg, hmode, -, -, hdrag, -, -, -⟩ := loadedCenterline_fields
  have himg' : hoveringLine.state.originalImage = some ⟨100, 100⟩ := by rw [heq]; exact himg
  have hmode' : hoveringLine.state.mode = Mode.centerline := by rw [heq]; exact hmode
  have hdrag' : hoveringLine.state.dragging = none := by rw [heq]; exact hdrag
  have hhov : hoveringLine.state.hovered = some { type := Axis.x, index := 1 } := by
    rw [heq]
  have hpress : hoverThenPress = mouseDown 40 20 hoveringLine := rfl
  have hup : step Event.mouseUp hoveringLine = hoveringLine := by
    show mouseUp hoveringLine = hoveringLine
    unfold mouseUp
    simp only [hdrag']
  refine ⟨Reachable.step _ _ hreach (fun h => by cases h), ?_, ?_,
    Reachable.step _ _ hreach (fun h => by cases h), ?_⟩
  · rw [hpress, mouseDown_on_line 40 20 hoveringLine ⟨100, 100⟩ _ himg' hmode' hfind]
  · rw [hpress, mouseDown_on_line 40 20 hoveringLine ⟨100, 100⟩ _ himg' hmode' hfind]
    exact hhov
  · rw [hup]
    exact hhov

/-- C23, amended. A pointer-down never changes `state.hovered`. While
`state.dragging` is set, a pointer-move changes neither `state.dragging` nor
`state.hovered`, a pointer-leave changes nothing, and a pointer-up clears
`state.hovered`. A pointer-up always leaves `state.dragging` cleared. With no
drag in progress a pointer-up changes nothing, a pointer-leave clears
`state.hovered` and a pointer-move leaves `state.dragging` cleared. -/
theorem pointer_drag_overrides_hover (a : Session) :
    (∀ x y, (mouseDown x y a).state.hovered = a.state.hovered) ∧
    (a.state.dragging ≠ none →
      (∀ now x y, (mouseMove now x y a).state.dragging = a.state.dragging ∧
        (mouseMove now x y a).state.hovered = a.state.hovered) ∧
      mouseLeave a = a ∧
      (mouseUp a).state.hovered = none) ∧
    (mouseUp a).state.dragging = none ∧
    (a.state.dragging = none →
      mouseUp a = a ∧ (mouseLeave a).state.hovered = none ∧
      ∀ now x y, (mouseMove now x y a).state.dragging = none) := by
  refine ⟨?_, ?_, ?_, ?_⟩
  · intro x y
    unfold mouseDown
    split
    · rfl
    · split
      · split <;> rfl
      · rfl
  · intro hdrag
    obtain ⟨d, hd⟩ := Option.ne_none_iff_exists'.1 hdrag
    refine ⟨?_, ?_, ?_⟩
    · intro now x y
      unfold mouseMove
      split
      · exact ⟨rfl, rfl⟩
      · simp only [hd]
        split
        · exact ⟨hd, rfl⟩
        · split
          · exact ⟨rfl, rfl⟩
          · exact ⟨rfl, rfl⟩
    · unfold mouseLeave
      simp only [hd]
    · unfold mouseUp
      simp only [hd]
  · unfold mouseUp
    split
    · rfl
    · next h => exact h
  · intro hdrag
    refine ⟨?_, ?_, ?_⟩
    · unfold mouseUp
      simp only [hdrag]
    · unfold mouseLeave
      simp only [hdrag]
    · intro now x y
      unfold mouseMove
      split
      · exact hdrag
      · simp only [hdrag]
        split
        · exact hdrag
        · split
          · exact hdrag
          · split
            · rfl
            · exact hdrag

/-- Witness of C23 (amended): the session `draggingFirstLine`, where the
first X line is being dragged. -/
theorem pointer_drag_overrides_hover_witness :
    draggingFirstLine.state.dragging ≠ none ∧
    (∀ now x y,
      (mouseMove now x y draggingFirstLine).state.dragging = draggingFirstLine.state.dragging ∧
      (mouseMove now x y draggingFirstLine).state.hovered = draggingFirstLine.state.hovered) ∧
    mouseLeave draggingFirstLine = draggingFirstLine ∧
    (mouseUp draggingFirstLine).state.hovered = none ∧
    hoveringLine.state.dragging = none ∧
    mouseUp hoveringLine = hoveringLine := by
  have hdrag : draggingFirstLine.state.dragging ≠ none := by
    simp [draggingFirstLine]
  have hnone : hoveringLine.state.dragging = none := by
    rw [hoveringLine_eq.1]
    exact loadedCenterline_fields.2.2.2.2.1
  obtain ⟨h1, h2, h3⟩ := (pointer_drag_overrides_hover draggingFirstLine).2.1 hdrag
  exact ⟨hdrag, h1, h2, h3, hnone, ((pointer_drag_overrides_hover hoveringLine).2.2.2 hnone).1⟩

/-! ## Click after a drag: claim C24 -/

/-- C24. Let `b` be the session after a pointer-down on a center line, any
list of pointer-moves and the pointer-up, and `c` the session after the click
that follows. The drag leaves the disabled set as it was and the flag
`isDragging` set; the click changes nothing of the state, in particular not
the disabled set, and clears the flag. A later click at a point that is not on
a line, right after `c` or on a session `d` that follows `c` by a
press-and-release gesture whose pointer-down is not on a line, flips the
membership in the disabled set of the cell `findCellAtPosition` finds there
and keeps every other membership (and changes nothing when it finds none). -/
theorem click_after_drag_short_circuited (a b c : Session) (img : ImageExtent)
    (x0 y0 : ℚ) (line : Line) (moves : List (ℚ × ℚ × ℚ)) (x y : ℚ)
    (himg : a.state.originalImage = some img)
    (hmode : a.state.mode = Mode.centerline)
    (hline : findLineAtPosition a.state x0 y0 = some line)
    (hb : b = dragGesture x0 y0 moves a)
    (hc : c = click x y b) :
    (mouseDown x0 y0 a).state.dragging = some line ∧
    b.isDragging = true ∧
    b.state.disabledCells = a.state.disabledCells ∧
    c.state = b.state ∧
    c.isDragging = false ∧
    (∀ x2 y2, findLineAtPosition c.state x2 y2 = none →
      ToggledAt a.state.disabledCells (click x2 y2 c).state.disabledCells
        (findCellAtPosition c.state x2 y2)) ∧
    ∀ (d : Session) (x1 y1 : ℚ) (moves1 : List (ℚ × ℚ × ℚ)) (x2 y2 : ℚ),
      d = dragGesture x1 y1 moves1 c →
      findLineAtPosition c.state x1 y1 = none →
      findLineAtPosition d.state x2 y2 = none →
      ToggledAt a.state.disabledCells (click x2 y2 d).state.disabledCells
        (findCellAtPosition d.state x2 y2) := by
  have hdown := mouseDown_on_line x0 y0 a img line himg hmode hline
  obtain ⟨h1, h2, h3, -⟩ := dragGesture_keeps x0 y0 moves a
  rw [← hb] at h1 h2 h3
  have hbflag : b.isDragging = true := by rw [h1, hdown]
  have hbdis : b.state.disabledCells = a.state.disabledCells := by rw [h2, hdown]
  have hbimg : b.state.originalImage = some img := by rw [h3, hdown]; exact himg
  have hclick : c = { b with isDragging := false } := by
    rw [hc]
    unfold click
    rw [if_pos hbflag]
  have hcstate : c.state = b.state := by rw [hclick]
  have hcflag : c.isDragging = false := by rw [hclick]
  have hcimg : c.state.originalImage = some img := by rw [hcstate]; exact hbimg
  have hcdis : c.state.disabledCells = a.state.disabledCells := by rw [hcstate]; exact hbdis
  refine ⟨by rw [hdown], hbflag, hbdis, hcstate, hcflag, ?_, ?_⟩
  · intro x2 y2 hoff
    rw [← hcdis]
    exact toggledAt_click_off_line x2 y2 c img hcflag hcimg hoff
  · intro d x1 y1 moves1 x2 y2 hd hoff1 hoff2
    obtain ⟨k1, k2, k3, -⟩ := dragGesture_keeps x1 y1 moves1 c
    rw [← hd, mouseDown_off_line x1 y1 c hoff1] at k1 k2 k3
    rw [← hcdis, ← k2]
    exact toggledAt_click_off_line x2 y2 d img (k1.trans hcflag) (k3.trans hcimg) hoff2

/-- Witness of C24: on a 100×100 image with X lines at 25 and 75 the first
line is dragged to 30 and released; the click that follows changes nothing,
and a later click at `(50, 10)`, which is on no line, disables cell `0` and
no other cell. -/
theorem click_after_drag_short_circuited_witness :
    findLineAtPosition idleLines.state 25 50 = some { type := Axis.x, index := 0 } ∧
    afterDrag.isDragging = true ∧
    afterDrag.state.disabledCells = idleLines.state.disabledCells ∧
    afterDragClick.state = afterDrag.state ∧
    afterDragClick.isDragging = false ∧
    findLineAtPosition afterDragClick.state 50 10 = none ∧
    findCellAtPosition afterDragClick.state 50 10 = 0 ∧
    ToggledAt idleLines.state.disabledCells (click 50 10 afterDragClick).state.disabledCells
      (findCellAtPosition afterDragClick.state 50 10) ∧
    ∀ j, j ∈ (click 50 10 afterDragClick).state.disabledCells ↔ j = 0 := by
  obtain ⟨-, h2, h3, h4, h5, h6, -⟩ :=
    click_after_drag_short_circuited idleLines afterDrag afterDragClick ⟨100, 100⟩ 25 50
      { type := Axis.x, index := 0 } [(100, 30, 50)] 30 50 rfl rfl idleLines_line rfl rfl
  have ht := h6 50 10 afterDragClick_off_line
  refine ⟨idleLines_line, h2, h3, h4, h5, afterDragClick_off_line, afterDragClick_cell,
    ht, ?_⟩
  rw [afterDragClick_cell] at ht
  obtain ⟨hin, hout⟩ := ht.1 (le_refl 0)
  have hempty : ∀ j, j ∉ idleLines.state.disabledCells := fun j hj => by
    simp [idleLines, initialState] at hj
  intro j
  by_cases hj : j = 0
  · subst hj
    exact ⟨fun _ => rfl, fun _ => hin.2 (hempty 0)⟩
  · exact ⟨fun h => absurd ((hout j hj).1 h) (hempty j), fun h => absurd h hj⟩

/-! ## The uniform tiling: claim C27 -/

/-- C27. In uniform mode with an image loaded, no override and positive row
and column counts, the rectangles of `getCropAreas` tile the image: the right
edge of cell `(row, col)` is the left edge of cell `(row, col + 1)` and the
bottom edge of cell `(row, col)` is the top edge of cell `(row + 1, col)`; the
first column starts at 0 and the last column ends at the image width, the
first row starts at 0 and the last row ends at the image height; every point
of `[0, W) × [0, H)` lies in exactly one cell, cells taken half-open; and the
cell areas sum to `W * H`. -/
theorem uniform_cells_tile_image (s : State) (img : ImageExtent)
    (hmode : s.mode = Mode.uniform) (himg : s.originalImage = some img)
    (hnone : ∀ k, s.customAreas k = none) (hrows : 0 < s.rows) (hcols : 0 < s.cols) :
    ∃ areas, getCropAreas s = some areas ∧ areas.length = s.rows * s.cols ∧
      (∀ row col a b, row < s.rows → col + 1 < s.cols →
        areas[row * s.cols + col]? = some a → areas[row * s.cols + (col + 1)]? = some b →
        a.x + a.width = b.x ∧ a.y = b.y ∧ a.height = b.height) ∧
      (∀ row col a b, row + 1 < s.rows → col < s.cols →
        areas[row * s.cols + col]? = some a → areas[(row + 1) * s.cols + col]? = some b →
        a.y + a.height = b.y ∧ a.x = b.x ∧ a.width = b.width) ∧
      (∀ row a, row < s.rows → areas[row * s.cols + 0]? = some a → a.x = 0) ∧
      (∀ row a, row < s.rows → areas[row * s.cols + (s.cols - 1)]? = some a →
        a.x + a.width = (img.width : ℚ)) ∧
      (∀ col a, col < s.cols → areas[0 * s.cols + col]? = some a → a.y = 0) ∧
      (∀ col a, col < s.cols → areas[(s.rows - 1) * s.cols + col]? = some a →
        a.y + a.height = (img.height : ℚ)) ∧
      (∀ px py : ℚ, 0 ≤ px → px < (img.width : ℚ) → 0 ≤ py → py < (img.height : ℚ) →
        ∃! k : Nat, ∃ a : CropArea, areas[k]? = some a ∧
          a.x ≤ px ∧ px < a.x + a.width ∧ a.y ≤ py ∧ py < a.y + a.height) ∧
      (areas.map fun a => a.width * a.height).sum = (img.width : ℚ) * (img.height : ℚ) := by
  obtain ⟨areas, h1, h2, hk, hrc⟩ := uniform_areas_getElem? s img hmode himg hnone
  have hc0 : (s.cols : ℚ) ≠ 0 := by exact_mod_cast hcols.ne'
  have hr0 : (s.rows : ℚ) ≠ 0 := by exact_mod_cast hrows.ne'
  refine ⟨areas, h1, h2, ?_, ?_, ?_, ?_, ?_, ?_, ?_, ?_⟩
  · intro row col a b hrow hcol ha hb
    rw [hrc row col hrow (by omega)] at ha
    rw [hrc row (col + 1) hrow hcol] at hb
    cases Option.some.inj ha
    cases Option.some.inj hb
    refine ⟨?_, rfl, rfl⟩
    simp only [uniformCell]
    push_cast
    ring
  · intro row col a b hrow hcol ha hb
    rw [hrc row col (by omega) hcol] at ha
    rw [hrc (row + 1) col hrow hcol] at hb
    cases Option.some.inj ha
    cases Option.some.inj hb
    refine ⟨?_, rfl, rfl⟩
    simp only [uniformCell]
    push_cast
    ring
  · intro row a hrow ha
    rw [hrc row 0 hrow hcols] at ha
    cases Option.some.inj ha
    simp [uniformCell]
  · intro row a hrow ha
    rw [hrc row (s.cols - 1) hrow (by omega)] at ha
    cases Option.some.inj ha
    simp only [uniformCell]
    have hcast : ((s.cols - 1 : Nat) : ℚ) = (s.cols : ℚ) - 1 := by
      rw [Nat.cast_sub (by omega)]
      simp
    rw [hcast]
    field_simp
    ring
  · intro col a hcol ha
    rw [hrc 0 col hrows hcol] at ha
    cases Option.some.inj ha
    simp [uniformCell]
  · intro col a hcol ha
    rw [hrc (s.rows - 1) col (by omega) hcol] at ha
    cases Option.some.inj ha
    simp only [uniformCell]
    have hcast : ((s.rows - 1 : Nat) : ℚ) = (s.rows : ℚ) - 1 := by
      rw [Nat.cast_sub (by omega)]
      simp
    rw [hcast]
    field_simp
    ring
  · intro px py hx0 hxW hy0 hyH
    obtain ⟨hcw, hcn, hclt⟩ := floor_div_lt_count (img.width : ℚ) px s.cols hcols hx0 hxW
    obtain ⟨hch, hrn, hrlt⟩ := floor_div_lt_count (img.height : ℚ) py s.rows hrows hy0 hyH
    refine ⟨⌊py / ((img.height : ℚ) / (s.rows : ℚ))⌋.toNat * s.cols +
      ⌊px / ((img.width : ℚ) / (s.cols : ℚ))⌋.toNat, ⟨_, hrc _ _ hrlt hclt, ?_⟩, ?_⟩
    · obtain ⟨hx1, hx2⟩ := (cell_contains_iff _ px hcw _).2 hcn.symm
      obtain ⟨hy1, hy2⟩ := (cell_contains_iff _ py hch _).2 hrn.symm
      exact ⟨hx1, hx2, hy1, hy2⟩
    · rintro k ⟨a, ha, hx1, hx2, hy1, hy2⟩
      have hklt : k < s.rows * s.cols := by
        rw [← h2]
        by_contra hge
        rw [List.getElem?_eq_none (by omega)] at ha
        cases ha
      rw [hk k hklt] at ha
      cases Option.some.inj ha
      have hcol := (cell_contains_iff _ px hcw (k % s.cols)).1 ⟨hx1, hx2⟩
      have hrow := (cell_contains_iff _ py hch (k / s.cols)).1 ⟨hy1, hy2⟩
      rw [hcol, hrow, Int.toNat_ofNat, Int.toNat_ofNat]
      rw [Nat.mul_comm]
      exact (Nat.div_add_mod k s.cols).symm
  · rw [sum_map_eq_of_const areas (fun a => a.width * a.height)
      ((img.width : ℚ) / (s.cols : ℚ) * ((img.height : ℚ) / (s.rows : ℚ)))]
    · rw [h2]
      push_cast
      field_simp
      ring
    · intro a ha
      obtain ⟨k, hka⟩ := List.mem_iff_getElem?.1 ha
      have hklt : k < s.rows * s.cols := by
        rw [← h2]
        by_contra hge
        rw [List.getElem?_eq_none (by omega)] at hka
        cases hka
      rw [hk k hklt] at hka
      cases Option.some.inj hka
      rfl

/-- Witness of C27: the uniform 2×2 grid over a 100×100 image. -/
theorem uniform_cells_tile_image_witness :
    ∃ areas, getCropAreas uniform2x2 = some areas ∧
      areas.length = uniform2x2.rows * uniform2x2.cols ∧
      (∀ px py : ℚ, 0 ≤ px → px < ((100 : Nat) : ℚ) → 0 ≤ py → py < ((100 : Nat) : ℚ) →
        ∃! k : Nat, ∃ a : CropArea, areas[k]? = some a ∧
          a.x ≤ px ∧ px < a.x + a.width ∧ a.y ≤ py ∧ py < a.y + a.height) ∧
      (areas.map fun a => a.width * a.height).sum = ((100 : Nat) : ℚ) * ((100 : Nat) : ℚ) := by
  obtain ⟨areas, h1, h2, -, -, -, -, -, -, h3, h4⟩ :=
    uniform_cells_tile_image uniform2x2 ⟨100, 100⟩ rfl rfl (fun _ => rfl)
      (by decide) (by decide)
  exact ⟨areas, h1, h2, h3, h4⟩

/-! ## Cells of the automatic size: claim C26 -/

/-- C26, counterexample. In binary64, on a 100-wide image with 19 columns the
lines `(i + 0.5) * 100 / 19` are rounded, the least gap between them is
5.263157894736835 instead of `100 / 19`, its product with 0.95 is
4.999999999999994 and the cell width stored is 4. The closed form
`floor(0.95 * 100 / 19)` is 5, which is also the cell width of the exact
evaluation. -/
theorem autoCellSizeFl_19_columns_below_closed_form :
    autoCellSizeFl (initialLinesFl 19 100) 100 = some 4 ∧
    ((⌊(0.95 : ℚ) * ((100 : Nat) : ℚ) / ((19 : Nat) : ℚ)⌋ : Int) : ℚ) = 5 ∧
    (initializeCenterLines nineteenColumns).cellWidth = 5 := by
  have hfloor : ((⌊(0.95 : ℚ) * ((100 : Nat) : ℚ) / ((19 : Nat) : ℚ)⌋ : Int) : ℚ) = 5 := by
    have : ⌊(0.95 : ℚ) * ((100 : Nat) : ℚ) / ((19 : Nat) : ℚ)⌋ = 5 := by
      norm_num [Int.floor_eq_iff]
    rw [this]
    norm_num
  refine ⟨autoCellSizeFl_19_100, hfloor, ?_⟩
  rw [initializeCenterLines_even nineteenColumns ⟨100, 100⟩ rfl (by decide) (by decide)]
  exact hfloor

/-- C26, amended. Over exact arithmetic, with an image loaded and, on each
axis, a non-empty strictly increasing list of center lines lying strictly
inside the image, the cell size `autoCalculateCellSize` chooses makes every
center-line cell fit in the image without clamping (`cx - cellWidth/2 ≥ 0`,
`cx + cellWidth/2 ≤ W`, same for `y`, and the rectangle of `getCropAreas` is
the centered one) and makes the cells of consecutive columns and of
consecutive rows non-overlapping. In particular, for positive counts and a
non-empty image, `initializeCenterLines` creates the lines
`(i + 0.5) * W / cols` and `(i + 0.5) * H / rows`, which are strictly
increasing and strictly inside the image, sets `cellWidth` to
`floor(0.95 * W / cols)` and `cellHeight` to `floor(0.95 * H / rows)`, and
its cells fit in the same way. -/
theorem autoCalculateCellSize_cells_fit (s : State) (img : ImageExtent)
    (himg : s.originalImage = some img) :
    (s.centerLinesX ≠ [] → s.centerLinesY ≠ [] →
      (s.centerLinesX.Pairwise fun a b => a < b) →
      (s.centerLinesY.Pairwise fun a b => a < b) →
      (∀ c ∈ s.centerLinesX, 0 < c ∧ c < (img.width : ℚ)) →
      (∀ c ∈ s.centerLinesY, 0 < c ∧ c < (img.height : ℚ)) →
      (autoCalculateCellSize s).centerLinesX = s.centerLinesX ∧
      (autoCalculateCellSize s).centerLinesY = s.centerLinesY ∧
      CellsFit img (autoCalculateCellSize s)) ∧
    (0 < s.cols → 0 < s.rows → 0 < img.width → 0 < img.height →
      (initializeCenterLines s).centerLinesX =
        ((List.range s.cols).map fun (i : Nat) =>
          ((i : ℚ) + 0.5) * (img.width : ℚ) / (s.cols : ℚ)) ∧
      (initializeCenterLines s).centerLinesY =
        ((List.range s.rows).map fun (i : Nat) =>
          ((i : ℚ) + 0.5) * (img.height : ℚ) / (s.rows : ℚ)) ∧
      ((initializeCenterLines s).centerLinesX.Pairwise fun a b => a < b) ∧
      ((initializeCenterLines s).centerLinesY.Pairwise fun a b => a < b) ∧
      (∀ c ∈ (initializeCenterLines s).centerLinesX, 0 < c ∧ c < (img.width : ℚ)) ∧
      (∀ c ∈ (initializeCenterLines s).centerLinesY, 0 < c ∧ c < (img.height : ℚ)) ∧
      (initializeCenterLines s).cellWidth =
        ((⌊0.95 * (img.width : ℚ) / (s.cols : ℚ)⌋ : Int) : ℚ) ∧
      (initializeCenterLines s).cellHeight =
        ((⌊0.95 * (img.height : ℚ) / (s.rows : ℚ)⌋ : Int) : ℚ) ∧
      CellsFit img (initializeCenterLines s)) := by
  constructor
  · intro hx hy hxinc hyinc hxin hyin
    obtain ⟨cw, ch, h⟩ := autoCalculateCellSize_eq s
    refine ⟨by rw [h], by rw [h], ?_⟩
    exact autoCalculateCellSize_fit s img himg hx hy hxinc hyinc hxin hyin
  · intro hcols hrows hw hh
    have hw' : (0 : ℚ) < (img.width : ℚ) := by exact_mod_cast hw
    have hh' : (0 : ℚ) < (img.height : ℚ) := by exact_mod_cast hh
    obtain ⟨hxinc, hxin⟩ := evenLines_inside s.cols (img.width : ℚ) hw'
    obtain ⟨hyinc, hyin⟩ := evenLines_inside s.rows (img.height : ℚ) hh'
    have heven := initializeCenterLines_even s img himg hcols hrows
    have hauto : initializeCenterLines s =
        autoCalculateCellSize
          { s with
            centerLinesX :=
              (List.range s.cols).map fun (i : Nat) =>
                ((i : ℚ) + 0.5) * (img.width : ℚ) / (s.cols : ℚ)
            centerLinesY :=
              (List.range s.rows).map fun (i : Nat) =>
                ((i : ℚ) + 0.5) * (img.height : ℚ) / (s.rows : ℚ) } := by
      unfold initializeCenterLines
      simp only [himg]
    have hfit : CellsFit img (initializeCenterLines s) := by
      rw [hauto]
      refine autoCalculateCellSize_fit _ img himg ?_ ?_ hxinc hyinc hxin hyin
      · intro hnil
        have := congrArg List.length hnil
        simp at this
        omega
      · intro hnil
        have := congrArg List.length hnil
        simp at this
        omega
    refine ⟨?_, ?_, ?_, ?_, ?_, ?_, ?_, ?_, hfit⟩
    · rw [heven]
    · rw [heven]
    · rw [heven]
      exact hxinc
    · rw [heven]
      exact hyinc
    · rw [heven]
      exact hxin
    · rw [heven]
      exact hyin
    · rw [heven]
    · rw [heven]

/-- Witness of C26 (amended): a 100×100 image with X lines at 25 and 75 and a Y line
at 50, which are also the lines `initializeCenterLines` creates for one row
and two columns. -/
theorem autoCalculateCellSize_cells_fit_witness :
    CellsFit ⟨100, 100⟩ (autoCalculateCellSize idleLines.state) ∧
    (initializeCenterLines idleLines.state).cellWidth =
      ((⌊0.95 * ((100 : Nat) : ℚ) / ((2 : Nat) : ℚ)⌋ : Int) : ℚ) ∧
    (initializeCenterLines idleLines.state).cellHeight =
      ((⌊0.95 * ((100 : Nat) : ℚ) / ((1 : Nat) : ℚ)⌋ : Int) : ℚ) ∧
    CellsFit ⟨100, 100⟩ (initializeCenterLines idleLines.state) := by
  obtain ⟨h1, h2⟩ := autoCalculateCellSize_cells_fit idleLines.state ⟨100, 100⟩ rfl
  obtain ⟨-, -, hfit⟩ := h1
    (by simp [idleLines, initialState]) (by simp [idleLines, initialState])
    (by simp [idleLines, initialState]; norm_num)
    (by simp [idleLines, initialState])
    (by simp [idleLines, initialState]; norm_num)
    (by simp [idleLines, initialState]; norm_num)
  obtain ⟨-, -, -, -, -, -, hcw, hch, hfit2⟩ := h2 (by decide) (by decide) (by decide) (by decide)
  exact ⟨hfit, hcw, hch, hfit2⟩

end WebCut
